import Mathlib

/-!
# MS5611 barometer driver: model and checked properties

A shallow embedding of `src/ms5611.h` and `src/ms5611.cpp`.

Conventions of the embedding.

* Target: a 32-bit Arduino core (`int` is 32 bits wide, `double` is binary64), as
  implied by the `Serial.printf` call of `src/example.cpp`.
* Machine integers are `Nat` with an explicit reduction modulo `2^8` or `2^32` at the
  places where the C++ code converts or may wrap.
* `double` values are rationals `ℚ`.  The arithmetic of `getTempPress` is embedded
  twice: `compensation` leaves the rounding of `double` operations out (exact
  rational arithmetic), `compensationBinary64` rounds the result of every operation
  to binary64 (`toDouble`: 53 significant bits, round to nearest, ties to even,
  subnormal range included; each operation is rounded on its own, without fused
  operations or extended precision).  `Ms5611.getTempPress` stores the former,
  `Ms5611.getTempPressBinary64` the latter; the bus traffic of the two is the same.
  In the concrete evaluations of `compensation` below that exhibit a disagreement
  with the specification, the value `TEMP` (and, in the end-to-end scenario, also
  `P`) before the final division by 100 is a dyadic rational with fewer than 53
  significant bits, so binary64 computes it without rounding, and the
  disagreement exceeds any rounding error by orders of magnitude.
* The `TwoWire` object is not part of the repository.  It is a parameter: an
  arbitrary function from the history of bus calls made so far (with the answers
  already given) to the answer of the next call.  Every sequence of answers is
  produced by some such function, since the history grows with every call.
* The history (`Trace`) also records `delay` calls; it is threaded through every
  operation.
* `none` as the result of an operation stands for "no defined result": the bus
  handle is not bound, or the polling loop exceeded the fuel of the model.
-/

namespace MS5611

/-! ## Constants of `ms5611.h` -/

def MS5611_ADDRESS : Nat := 0x77

def MS5611_CMD_RESET : Nat := 0x1E
def MS5611_CMD_CONVERT_D1 : Nat := 0x40
def MS5611_CMD_CONVERT_D2 : Nat := 0x50
def MS5611_CMD_READ_ADC : Nat := 0x00
def MS5611_CMD_READ_PROM_BASE : Nat := 0xA0

def MS5611_TIME_RELOAD : Nat := 5
def MS5611_TIME_ADC_CONVERT : Nat := 10

def MS5611_OSR_256 : Nat := 0x00
def MS5611_OSR_512 : Nat := 0x02
def MS5611_OSR_1024 : Nat := 0x04
def MS5611_OSR_2048 : Nat := 0x06
def MS5611_OSR_4096 : Nat := 0x08

/-! ## Machine integer conversions -/

/-- Conversion of an unsigned value to `uint8_t`. -/
def toU8 (n : Nat) : Nat := n % 256

/-- Conversion of an unsigned value to `uint32_t`. -/
def toU32 (n : Nat) : Nat := n % 4294967296

/-- Conversion of an `int` to `uint8_t`. -/
def intToU8 (i : Int) : Nat := (i % 256).toNat

/-- Conversion of an `int` to `uint32_t`. -/
def intToU32 (i : Int) : Nat := (i % 4294967296).toNat

/-- Product of two `uint32_t` values. -/
def u32mul (a b : Nat) : Nat := toU32 (toU32 a * toU32 b)

/-- Difference of two `uint32_t` values. -/
def u32sub (a b : Nat) : Nat := toU32 (toU32 a + 4294967296 - toU32 b)

/-! ## The bus -/

/-- One call made by the driver on the bus object or on the clock, together with
the answer it received. -/
inductive BusOp where
  | begin
  | beginTransmission (address : Nat)
  | write (byte : Nat)
  | endTransmission (status : Nat)
  | requestFrom (address len : Nat)
  | available (count : Int)
  | read (value : Int)
  | delay (ms : Nat)
  deriving DecidableEq

/-- Chronological history of calls, oldest first. -/
abbrev Trace := List BusOp

/-- The `TwoWire` collaborator: the answer of each value-returning call as a
function of the history before that call. -/
structure TwoWire where
  endTransmission : Trace → Nat
  available : Trace → Int
  read : Trace → Int

/-! ## Driver state -/

/-- The private fields of `class Ms5611`. -/
structure Ms5611 where
  _address : Nat
  _osr : Nat
  C : Fin 7 → Nat
  ms5611Wire : Option TwoWire

/-- The two `double` locations that `getTempPress` receives by pointer. -/
structure Readings where
  temperature : ℚ
  pressure : ℚ
  deriving DecidableEq

/-! ## Private functions -/

/-- `Ms5611::writeCommand`. -/
def Ms5611.writeCommand (s : Ms5611) (command : Nat) (tr : Trace) : Option (Nat × Trace) :=
  match s.ms5611Wire with
  | none => none
  | some w =>
    let tr1 := tr ++ [BusOp.beginTransmission s._address, BusOp.write command]
    let st := toU8 (w.endTransmission tr1)
    some (st, tr1 ++ [BusOp.endTransmission st])

/-- The `while` loop of `Ms5611::readBytes`.  The result is `true` when the loop
left through `return 1`. -/
def pollAvailable (w : TwoWire) (len retries : Nat) :
    Nat → Nat → Trace → Option (Bool × Trace)
  | 0, _, _ => none
  | fuel + 1, time_outs, tr =>
    let n := w.available tr
    let tr1 := tr ++ [BusOp.available n]
    if intToU32 n ≠ toU32 len then
      let time_outs1 := toU32 (time_outs + 1)
      if time_outs1 > toU32 retries then some (true, tr1)
      else pollAvailable w len retries fuel time_outs1 (tr1 ++ [BusOp.delay 2])
    else some (false, tr1)

/-- The `for` loop of `Ms5611::readBytes`: `n` iterations remain, `i` is the index. -/
def drain (w : TwoWire) : Nat → Nat → List Nat → Trace → List Nat × Trace
  | 0, _, dest, tr => (dest, tr)
  | n + 1, i, dest, tr =>
    let v := w.read tr
    drain w n (i + 1) (dest.set i (intToU8 v)) (tr ++ [BusOp.read v])

/-- `Ms5611::readBytes`. -/
def Ms5611.readBytes (s : Ms5611) (reg : Nat) (dest : List Nat) (len retries fuel : Nat)
    (tr : Trace) : Option (Nat × List Nat × Trace) :=
  match s.ms5611Wire with
  | none => none
  | some w =>
    match s.writeCommand reg tr with
    | none => none
    | some (_, tr1) =>
      let tr2 := tr1 ++ [BusOp.requestFrom s._address len]
      match pollAvailable w len retries fuel 0 tr2 with
      | none => none
      | some (true, tr3) => some (1, dest, tr3)
      | some (false, tr3) =>
        let r := drain w len 0 dest tr3
        some (0, r.1, r.2)

/-! ## Public functions -/

/-- `Ms5611::reset`. -/
def Ms5611.reset (s : Ms5611) (tr : Trace) : Option (Nat × Trace) :=
  s.writeCommand MS5611_CMD_RESET tr

/-- The registers visited by the `for` loop of `Ms5611::init`. -/
def promRegisters : List (Fin 7) := [1, 2, 3, 4, 5, 6]

/-- The command byte `MS5611_CMD_READ_PROM_BASE | (reg << 1)` as a `uint8_t`. -/
def promCommand (reg : Fin 7) : Nat :=
  toU8 (MS5611_CMD_READ_PROM_BASE ||| (reg.val <<< 1))

/-- The `for` loop of `Ms5611::init` over the registers still to visit. -/
def Ms5611.readCoefficients (fuel : Nat) :
    List (Fin 7) → Ms5611 → Trace → Option (Nat × Ms5611 × Trace)
  | [], s, tr => some (0, s, tr)
  | reg :: rest, s, tr =>
    match s.readBytes (promCommand reg) [0, 0] 2 10 fuel tr with
    | none => none
    | some (st, _temp, tr1) =>
      if st ≠ 0 then some (1, s, tr1)
      else
        let c0 := toU32 (_temp.getD 0 0 <<< 8)
        let c1 := c0 ||| _temp.getD 1 0
        Ms5611.readCoefficients fuel rest { s with C := Function.update s.C reg c1 } tr1

/-- `Ms5611::init`. -/
def Ms5611.init (s : Ms5611) (wire : TwoWire) (address : Nat) (fuel : Nat) (tr : Trace) :
    Option (Nat × Ms5611 × Trace) :=
  let s1 : Ms5611 := { s with ms5611Wire := some wire, _address := toU8 address }
  let tr1 := tr ++ [BusOp.begin]
  match s1.reset tr1 with
  | none => none
  | some (st, tr2) =>
    if st ≠ 0 then some (1, s1, tr2)
    else
      Ms5611.readCoefficients fuel promRegisters s1 (tr2 ++ [BusOp.delay MS5611_TIME_RELOAD])

/-- The big-endian combination `_temp[0] << 16 | _temp[1] << 8 | _temp[2]` stored in
a `uint32_t`. -/
def adcValue (_temp : List Nat) : Nat :=
  let d := toU32 (_temp.getD 0 0 <<< 16)
  let d := d ||| (_temp.getD 1 0 <<< 8)
  d ||| _temp.getD 2 0

/-- The arithmetic of `Ms5611::getTempPress` after both raw values are read: the
values stored to `*temperature` and `*pressure`, with the `double` operations taken
as exact (`compensationBinary64` is the same arithmetic with binary64 rounding). -/
def compensation (C : Fin 7 → Nat) (D1 D2 : Nat) : Readings :=
  let dT : ℚ := (u32sub D2 (u32mul (C 5) 256) : Nat)
  let TEMP : ℚ := 2000 + dT * (C 6 : ℚ) / 8388608
  let OFF : ℚ := (u32mul (C 2) 65536 : ℚ) + (C 4 : ℚ) * dT / 128
  let SENS : ℚ := (u32mul (C 1) 32768 : ℚ) + (C 3 : ℚ) * dT / 256
  let second : ℚ × ℚ × ℚ :=
    if TEMP < 2000 then
      let T2 := dT * dT / 2147483648
      let tt := TEMP - 2000
      let OFF2 := 5 * tt * tt / 2
      let SENS2 := OFF2 / 2
      if TEMP < -1500 then
        let tt := TEMP + 1500
        (T2, OFF2 + 7 * tt * tt, SENS2 + 11 * tt * tt / 2)
      else (T2, OFF2, SENS2)
    else (0, 0, 0)
  let TEMP := TEMP - second.1
  let OFF := OFF - second.2.1
  let SENS := SENS - second.2.2
  let P := ((D1 : ℚ) * SENS / 2097152 - OFF) / 32768
  { temperature := TEMP / 100, pressure := P / 100 }

/-- One of the two acquisition blocks of `Ms5611::getTempPress`: conversion command,
wait, ADC read.  The result is the status and, on success, the raw value. -/
def Ms5611.acquire (s : Ms5611) (convert : Nat) (fuel : Nat) (tr : Trace) :
    Option (Nat × Nat × Trace) :=
  match s.writeCommand (toU8 (convert ||| s._osr)) tr with
  | none => none
  | some (st, tr1) =>
    if st ≠ 0 then some (1, 0, tr1)
    else
      match s.readBytes MS5611_CMD_READ_ADC [0, 0, 0] 3 10 fuel
          (tr1 ++ [BusOp.delay MS5611_TIME_ADC_CONVERT]) with
      | none => none
      | some (st2, _temp, tr2) =>
        if st2 ≠ 0 then some (1, 0, tr2)
        else some (0, adcValue _temp, tr2)

/-- `Ms5611::getTempPress`; `out` holds the contents of the two output locations
before the call. -/
def Ms5611.getTempPress (s : Ms5611) (fuel : Nat) (out : Readings) (tr : Trace) :
    Option (Nat × Readings × Trace) :=
  match s.acquire MS5611_CMD_CONVERT_D1 fuel tr with
  | none => none
  | some (st, D1, tr1) =>
    if st ≠ 0 then some (1, out, tr1)
    else
      match s.acquire MS5611_CMD_CONVERT_D2 fuel tr1 with
      | none => none
      | some (st2, D2, tr2) =>
        if st2 ≠ 0 then some (1, out, tr2)
        else some (0, compensation s.C D1 D2, tr2)

/-- `Ms5611::setOSR`. -/
def Ms5611.setOSR (s : Ms5611) (osr : Nat) (tr : Trace) : Nat × Ms5611 × Trace :=
  if osr = MS5611_OSR_256 ∨ osr = MS5611_OSR_512 ∨ osr = MS5611_OSR_1024 ∨
      osr = MS5611_OSR_2048 ∨ osr = MS5611_OSR_4096 then
    (0, { s with _osr := osr }, tr)
  else (1, s, tr)

/-! ## Observations on histories -/

/-- Whether a call puts a command byte on the bus or requests bytes from it. -/
def BusOp.isCommand : BusOp → Bool
  | BusOp.write _ => true
  | BusOp.requestFrom _ _ => true
  | _ => false

/-- The command bytes written and the byte requests issued, in order. -/
def busCommands (tr : Trace) : Trace := tr.filter BusOp.isCommand

/-- The byte stored by the driver for a `read` call. -/
def BusOp.delivered : BusOp → Option Nat
  | BusOp.read v => some (intToU8 v)
  | _ => none

/-- The bytes delivered by `read`, in order. -/
def bytesRead (tr : Trace) : List Nat := tr.filterMap BusOp.delivered

/-- The status answered to an `endTransmission` call. -/
def BusOp.status : BusOp → Option Nat
  | BusOp.endTransmission st => some st
  | _ => none

/-- The end-transmission statuses answered, in order. -/
def endStatuses (tr : Trace) : List Nat := tr.filterMap BusOp.status

/-- The length of the request that is still unanswered after one more call, where
`p` is the length of the request unanswered before it: `requestFrom` opens a
request, `available` answering the requested length closes it. -/
def BusOp.pending (p : Option Nat) : BusOp → Option Nat
  | BusOp.requestFrom _ len => some len
  | BusOp.available n =>
    match p with
    | some len => if intToU32 n = toU32 len then none else some len
    | none => none
  | _ => p

/-- The length of the request that is still unanswered after the calls `ev`. -/
def pendingAfter (p : Option Nat) (ev : Trace) : Option Nat := ev.foldl BusOp.pending p

/-- Every transport step recorded in `ev` succeeded: each transmission ended with
status 0, and each request was answered, possibly after unsuccessful polls, by
`available()` reporting the requested length. -/
def StepsSucceeded (ev : Trace) : Prop :=
  (∀ st ∈ endStatuses ev, st = 0) ∧ pendingAfter none ev = none

instance (ev : Trace) : Decidable (StepsSucceeded ev) := by
  unfold StepsSucceeded
  infer_instance

/-- The history after `i` unsuccessful polls of `available`, each followed by the
2 ms wait. -/
def afterPolls (w : TwoWire) : Nat → Trace → Trace
  | 0, h => h
  | i + 1, h => afterPolls w i (h ++ [BusOp.available (w.available h), BusOp.delay 2])

/-- From history `h` on, `len` bytes do not become available within the default
budget of 10 retries. -/
def TwoWire.Starves (w : TwoWire) (len : Nat) (h : Trace) : Prop :=
  ∀ i, i ≤ 10 → intToU32 (w.available (afterPolls w i h)) ≠ toU32 len

instance (w : TwoWire) (len : Nat) (h : Trace) : Decidable (w.Starves len h) := by
  unfold TwoWire.Starves
  infer_instance

/-- The calls by which `readBytes` sends the register byte `reg` and requests `len`
bytes, after history `tr`. -/
def requestEvents (w : TwoWire) (a reg len : Nat) (tr : Trace) : Trace :=
  [BusOp.beginTransmission a, BusOp.write reg,
    BusOp.endTransmission (toU8 (w.endTransmission
      (tr ++ [BusOp.beginTransmission a, BusOp.write reg]))),
    BusOp.requestFrom a len]

/-- The history once `readBytes` has sent the register byte `reg` and requested
`len` bytes. -/
def readRequest (w : TwoWire) (a reg len : Nat) (tr : Trace) : Trace :=
  tr ++ requestEvents w a reg len tr

/-- The bus commands of the coefficient reads of the registers `regs`. -/
def promReads (a : Nat) (regs : List (Fin 7)) : Trace :=
  regs.flatMap fun r => [BusOp.write (promCommand r), BusOp.requestFrom a 2]

/-- The bytes of a list of big-endian 16-bit words, given as pairs (high, low). -/
def wordBytes (ws : List (Nat × Nat)) : List Nat :=
  ws.flatMap fun p => [p.1, p.2]

/-- The driver state once `init` has stored the bus handle and the address. -/
def Ms5611.attach (s : Ms5611) (wire : TwoWire) (address : Nat) : Ms5611 :=
  { s with ms5611Wire := some wire, _address := toU8 address }

/-- The history at the moment `init` ends the transmission of the reset command. -/
def resetRequest (address : Nat) (tr : Trace) : Trace :=
  tr ++ [BusOp.begin, BusOp.beginTransmission (toU8 address), BusOp.write MS5611_CMD_RESET]

/-- The end-transmission status that `init` receives for the reset command. -/
def resetStatus (w : TwoWire) (address : Nat) (tr : Trace) : Nat :=
  toU8 (w.endTransmission (resetRequest address tr))

/-! ## A mock sensor used for concrete evaluations -/

/-- What a mock sensor remembers of the history. -/
structure MockState where
  register : Nat
  conversion : Nat
  requested : Nat
  served : Nat

/-- Effect of one bus call on the memory of the mock sensor. -/
def MockState.step (m : MockState) : BusOp → MockState
  | BusOp.write b =>
    { m with register := b, conversion := if 0x40 ≤ b ∧ b < 0x60 then b else m.conversion }
  | BusOp.requestFrom _ n => { m with requested := n, served := 0 }
  | BusOp.read _ => { m with served := m.served + 1 }
  | _ => m

/-- Memory of the mock sensor after a history. -/
def mockState (tr : Trace) : MockState := tr.foldl MockState.step ⟨0, 0, 0, 0⟩

/-- Parameters of a mock sensor: PROM words, raw ADC values, the end-transmission
status answered to each command byte, and the command bytes after which the
requested bytes never become available. -/
structure Mock where
  prom : Nat → Nat
  D1 : Nat
  D2 : Nat
  status : Nat → Nat
  silent : Nat → Bool

/-- The value held in the register selected by the last command. -/
def Mock.selected (m : Mock) (st : MockState) : Nat :=
  if st.register = MS5611_CMD_READ_ADC then
    (if st.conversion / 16 = 4 then m.D1 else m.D2)
  else m.prom ((st.register - MS5611_CMD_READ_PROM_BASE) / 2)

/-- The bus object backed by a mock sensor. -/
def Mock.wire (m : Mock) : TwoWire where
  endTransmission := fun tr => m.status (mockState tr).register
  available := fun tr =>
    let st := mockState tr
    if m.silent st.register then 0 else ((st.requested - st.served : Nat) : Int)
  read := fun tr =>
    let st := mockState tr
    (((m.selected st) / 256 ^ (st.requested - 1 - st.served) % 256 : Nat) : Int)

/-- A freshly constructed driver object with static storage. -/
def Ms5611.fresh : Ms5611 :=
  { _address := 0, _osr := MS5611_OSR_256, C := fun _ => 0, ms5611Wire := none }

/-- A bus on which every transmission ends with status 2 (address not
acknowledged). -/
def deadBus : Mock :=
  { prom := fun _ => 0, D1 := 0, D2 := 0, status := fun _ => 2, silent := fun _ => false }

/-- A sensor with PROM words 1 to 6 in registers 1 to 6 that never answers the read
of register 3. -/
def brokenProm : Mock :=
  { prom := fun i => i, D1 := 0, D2 := 0, status := fun _ => 0,
    silent := fun b => b == 0xA6 }

/-- The sensor of the end-to-end scenario: PROM words 1 to 6 in registers 1 to 6, raw
values of the data sheet example. -/
def scenario : Mock :=
  { prom := fun i => i, D1 := 9085466, D2 := 8569150, status := fun _ => 0,
    silent := fun _ => false }

/-- A sensor that answers the Read-ADC command byte with end-transmission status 2
and nevertheless serves the following request. -/
def nackAdc : Mock :=
  { prom := fun i => i, D1 := 9085466, D2 := 8569150,
    status := fun b => if b = MS5611_CMD_READ_ADC then 2 else 0, silent := fun _ => false }

/-- The calibration words of the worked example of the data sheet. -/
def datasheetCoefficients : Fin 7 → Nat :=
  fun i => [0, 40127, 36924, 23317, 23282, 33464, 28312].getD i.val 0

/-- A sensor with the calibration words of the data sheet at a temperature below
20 degrees Celsius: the raw temperature 8500000 is below `C5 * 256 = 8566784`. -/
def coldSensor : Mock :=
  { prom := fun i => [0, 40127, 36924, 23317, 23282, 33464, 28312].getD i 0,
    D1 := 9085466, D2 := 8500000, status := fun _ => 0, silent := fun _ => false }

/-- A driver holding the calibration words of the data sheet, bound to `coldSensor`. -/
def coldState : Ms5611 :=
  { _address := MS5611_ADDRESS, _osr := MS5611_OSR_256, C := datasheetCoefficients,
    ms5611Wire := some coldSensor.wire }

/-- The calls of one successful coefficient read answered at the first poll. -/
def promReadEvents (a cmd : Nat) (hi lo : Int) : Trace :=
  [BusOp.beginTransmission a, BusOp.write cmd, BusOp.endTransmission 0,
   BusOp.requestFrom a 2, BusOp.available 2, BusOp.read hi, BusOp.read lo]

/-- The calls of one successful acquisition answered at the first poll, where `st`
is the end-transmission status given to the Read-ADC command. -/
def acquireEvents (a conv st : Nat) (b0 b1 b2 : Int) : Trace :=
  [BusOp.beginTransmission a, BusOp.write conv, BusOp.endTransmission 0, BusOp.delay 10,
   BusOp.beginTransmission a, BusOp.write 0x00, BusOp.endTransmission st,
   BusOp.requestFrom a 3, BusOp.available 3, BusOp.read b0, BusOp.read b1, BusOp.read b2]

/-- The history of `init` on a fresh driver against `scenario`. -/
def scenarioHistory : Trace :=
  [BusOp.begin, BusOp.beginTransmission 0x77, BusOp.write 0x1E, BusOp.endTransmission 0,
   BusOp.delay 5] ++
  promReadEvents 0x77 0xA2 0 1 ++ promReadEvents 0x77 0xA4 0 2 ++
  promReadEvents 0x77 0xA6 0 3 ++ promReadEvents 0x77 0xA8 0 4 ++
  promReadEvents 0x77 0xAA 0 5 ++ promReadEvents 0x77 0xAC 0 6

/-- The driver state after `init` on a fresh driver against `scenario`. -/
def scenarioState : Ms5611 :=
  { _address := 0x77, _osr := MS5611_OSR_256,
    C := Function.update (Function.update (Function.update (Function.update
      (Function.update (Function.update (fun _ => 0) 1 1) 2 2) 3 3) 4 4) 5 5) 6 6,
    ms5611Wire := some scenario.wire }

/-- The driver state after the first two coefficient reads of `init` on a fresh
driver against `brokenProm`. -/
def brokenPromState : Ms5611 :=
  { _address := 0x77, _osr := MS5611_OSR_256,
    C := Function.update (Function.update (fun _ => 0) 1 1) 2 2,
    ms5611Wire := some brokenProm.wire }

/-- The history after the first two coefficient reads of `init` on a fresh driver
against `brokenProm`. -/
def brokenPromHistory : Trace :=
  [BusOp.begin, BusOp.beginTransmission 0x77, BusOp.write 0x1E, BusOp.endTransmission 0,
   BusOp.delay 5] ++
  promReadEvents 0x77 0xA2 0 1 ++ promReadEvents 0x77 0xA4 0 2

/-- The reference formula of the specification in exact arithmetic, with `dT` a
signed quantity. -/
def referenceFormula (C : Fin 7 → Nat) (D1 D2 : Nat) : Readings :=
  let dT : ℚ := (D2 : ℚ) - (C 5 : ℚ) * 256
  let TEMP : ℚ := 2000 + dT * (C 6 : ℚ) / 8388608
  let OFF : ℚ := (C 2 : ℚ) * 65536 + (C 4 : ℚ) * dT / 128
  let SENS : ℚ := (C 1 : ℚ) * 32768 + (C 3 : ℚ) * dT / 256
  let T2 : ℚ := if TEMP < 2000 then dT ^ 2 / 2147483648 else 0
  let OFF2 : ℚ :=
    if TEMP < 2000 then
      5 * (TEMP - 2000) ^ 2 / 2 + (if TEMP < -1500 then 7 * (TEMP + 1500) ^ 2 else 0)
    else 0
  let SENS2 : ℚ :=
    if TEMP < 2000 then
      5 * (TEMP - 2000) ^ 2 / 4 + (if TEMP < -1500 then 11 * (TEMP + 1500) ^ 2 / 2 else 0)
    else 0
  let P : ℚ := ((D1 : ℚ) * (SENS - SENS2) / 2097152 - (OFF - OFF2)) / 32768
  { temperature := (TEMP - T2) / 100, pressure := P / 100 }

/-! ## Sequences of public calls -/

/-- A freshly constructed driver: the default member initialisers give `_osr` and
`C`; `_address` holds an arbitrary value and the bus handle is not bound. -/
def Ms5611.constructed (address : Nat) : Ms5611 :=
  { _address := address, _osr := MS5611_OSR_256, C := fun _ => 0, ms5611Wire := none }

/-- A call of one of the four public functions, with its arguments; for
`getTempPress` the argument is the content of the two output locations. -/
inductive Call where
  | init (wire : TwoWire) (address : Nat)
  | reset
  | getTempPress (out : Readings)
  | setOSR (osr : Nat)

/-- Whether a call is a call of `init`. -/
def Call.isInit : Call → Bool
  | Call.init _ _ => true
  | _ => false

/-- Whether a call is a call of `setOSR`. -/
def Call.isSetOSR : Call → Bool
  | Call.setOSR _ => true
  | _ => false

/-- The driver state and the history after one public call.  `reset` and
`getTempPress` (with `writeCommand` and `readBytes`) assign to no data member, so
the state after them is the state before. -/
def Ms5611.perform (s : Ms5611) (fuel : Nat) (tr : Trace) : Call → Option (Ms5611 × Trace)
  | Call.init wire address =>
    match s.init wire address fuel tr with
    | none => none
    | some (_, s', tr') => some (s', tr')
  | Call.reset =>
    match s.reset tr with
    | none => none
    | some (_, tr') => some (s, tr')
  | Call.getTempPress out =>
    match s.getTempPress fuel out tr with
    | none => none
    | some (_, _, tr') => some (s, tr')
  | Call.setOSR osr => some ((s.setOSR osr tr).2.1, (s.setOSR osr tr).2.2)

/-- The driver state and the history after a sequence of public calls. -/
def Ms5611.performAll (fuel : Nat) : List Call → Ms5611 → Trace → Option (Ms5611 × Trace)
  | [], s, tr => some (s, tr)
  | c :: cs, s, tr =>
    match s.perform fuel tr c with
    | none => none
    | some (s', tr') => Ms5611.performAll fuel cs s' tr'

/-- The bus commands of a complete measurement with conversion command bytes `c1`
and `c2`. -/
def measureCommands (a c1 c2 : Nat) : Trace :=
  [BusOp.write c1, BusOp.write 0x00, BusOp.requestFrom a 3,
   BusOp.write c2, BusOp.write 0x00, BusOp.requestFrom a 3]

/-- The number of `available` polls in a history. -/
def pollCount (tr : Trace) : Nat :=
  tr.countP fun e => match e with
    | BusOp.available _ => true
    | _ => false

/-- The number of `read` calls in a history. -/
def readCount (tr : Trace) : Nat :=
  tr.countP fun e => match e with
    | BusOp.read _ => true
    | _ => false

/-! ## Parts of the compensation arithmetic -/

/-- The value of `dT` in `getTempPress`: the `uint32_t` difference converted to
`double`. -/
def codeDT (C : Fin 7 → Nat) (D2 : Nat) : ℚ := (u32sub D2 (u32mul (C 5) 256) : Nat)

/-- The first-order value of `TEMP` in `getTempPress`, which the two `if` tests
read. -/
def codeTEMP (C : Fin 7 → Nat) (D2 : Nat) : ℚ :=
  2000 + codeDT C D2 * (C 6 : ℚ) / 8388608

/-- The values of `T2`, `OFF2` and `SENS2` in `getTempPress` after the second-order
block. -/
def secondOrder (C : Fin 7 → Nat) (D2 : Nat) : ℚ × ℚ × ℚ :=
  if codeTEMP C D2 < 2000 then
    let T2 := codeDT C D2 * codeDT C D2 / 2147483648
    let tt := codeTEMP C D2 - 2000
    let OFF2 := 5 * tt * tt / 2
    let SENS2 := OFF2 / 2
    if codeTEMP C D2 < -1500 then
      let tt := codeTEMP C D2 + 1500
      (T2, OFF2 + 7 * tt * tt, SENS2 + 11 * tt * tt / 2)
    else (T2, OFF2, SENS2)
  else (0, 0, 0)

/-! ## Further concrete sensors and states -/

/-- A sensor that answers the reset command with end-transmission status 2 and
every other command with status 0. -/
def resetNack : Mock :=
  { prom := fun i => i, D1 := 9085466, D2 := 8569150,
    status := fun b => if b = MS5611_CMD_RESET then 2 else 0, silent := fun _ => false }

/-- The history of `init` on a fresh driver against `resetNack`: the reset fails. -/
def resetNackHistory : Trace :=
  [BusOp.begin, BusOp.beginTransmission 0x77, BusOp.write 0x1E, BusOp.endTransmission 2]

/-- A sensor with the calibration words and the raw values of the worked example of
the data sheet: the raw temperature 8569150 is above `C5 * 256 = 8566784`. -/
def warmSensor : Mock :=
  { prom := fun i => [0, 40127, 36924, 23317, 23282, 33464, 28312].getD i 0,
    D1 := 9085466, D2 := 8569150, status := fun _ => 0, silent := fun _ => false }

/-- A driver holding the calibration words of the data sheet, bound to `warmSensor`. -/
def warmState : Ms5611 :=
  { _address := MS5611_ADDRESS, _osr := MS5611_OSR_256, C := datasheetCoefficients,
    ms5611Wire := some warmSensor.wire }

/-- The calls of one complete measurement at address 0x77 with oversampling code 0
delivering the bytes of the scenario. -/
def scenarioMeasurement : Trace :=
  acquireEvents 0x77 0x40 0 138 162 26 ++ acquireEvents 0x77 0x50 0 130 193 62

/-- The first-order formula of the data sheet in exact rational arithmetic, with
`dT = D2 - C5 * 256`, `OFF = C2 * 65536 + C4 * dT / 128` and
`SENS = C1 * 32768 + C3 * dT / 256`, and no second-order correction. -/
def firstOrderFormula (C : Fin 7 → Nat) (D1 D2 : Nat) : Readings :=
  let dT : ℚ := (D2 : ℚ) - (C 5 : ℚ) * 256
  let OFF : ℚ := (C 2 : ℚ) * 65536 + (C 4 : ℚ) * dT / 128
  let SENS : ℚ := (C 1 : ℚ) * 32768 + (C 3 : ℚ) * dT / 256
  { temperature := (2000 + dT * (C 6 : ℚ) / 8388608) / 100,
    pressure := (((D1 : ℚ) * SENS / 2097152 - OFF) / 32768) / 100 }

/-! ## Binary64 arithmetic -/

/-- Rounding of a rational to the nearest integer, ties to the even integer. -/
def roundHalfEven (q : ℚ) : ℤ :=
  if q - ⌊q⌋ < 1 / 2 then ⌊q⌋
  else if 1 / 2 < q - ⌊q⌋ then ⌊q⌋ + 1
  else if ⌊q⌋ % 2 = 0 then ⌊q⌋ else ⌊q⌋ + 1

/-- The exponent of the unit in the last place of binary64 at magnitude `a`: 52 below
the exponent of `a` (53 significant bits), and -1074 in the subnormal range. -/
def ulpExponent (a : ℚ) : ℤ := max (Int.log 2 |a| - 52) (-1074)

/-- The binary64 number nearest to the non-negative rational `a`, ties to even. -/
def roundMagnitude (a : ℚ) : ℚ :=
  (roundHalfEven (a / 2 ^ ulpExponent a) : ℚ) * 2 ^ ulpExponent a

/-- Rounding to `double` (binary64, round to nearest, ties to even), applied to the
exact result of each `double` operation.  Overflow to infinity is not modelled: it
needs a magnitude of 2^1024, and the values that `getTempPress` builds from its
32-bit integers stay below 2^120. -/
def toDouble (q : ℚ) : ℚ :=
  if q < 0 then -roundMagnitude (-q) else roundMagnitude q

/-- Sum of two `double` values. -/
def dadd (a b : ℚ) : ℚ := toDouble (a + b)

/-- Difference of two `double` values. -/
def dsub (a b : ℚ) : ℚ := toDouble (a - b)

/-- Product of two `double` values. -/
def dmul (a b : ℚ) : ℚ := toDouble (a * b)

/-- Quotient of two `double` values. -/
def ddiv (a b : ℚ) : ℚ := toDouble (a / b)

/-- The second-order correction `(T2, OFF2, SENS2)` of `Ms5611::getTempPress` in
binary64, from the `double` values `dT` and `TEMP`. -/
def secondOrderBinary64 (dT TEMP : ℚ) : ℚ × ℚ × ℚ :=
  if TEMP < 2000 then
    let T2 := ddiv (dmul dT dT) 2147483648
    let tt := dsub TEMP 2000
    let OFF2 := ddiv (dmul (dmul 5 tt) tt) 2
    let SENS2 := ddiv OFF2 2
    if TEMP < -1500 then
      let tt := dadd TEMP 1500
      (T2, dadd OFF2 (dmul (dmul 7 tt) tt), dadd SENS2 (ddiv (dmul (dmul 11 tt) tt) 2))
    else (T2, OFF2, SENS2)
  else (0, 0, 0)

/-- The arithmetic of `Ms5611::getTempPress` with every `double` operation rounded
to binary64.  The `uint32_t` difference and products are as in `compensation`; the
conversions of `uint32_t` values and of the integer constants to `double` are
exact. -/
def compensationBinary64 (C : Fin 7 → Nat) (D1 D2 : Nat) : Readings :=
  let dT : ℚ := (u32sub D2 (u32mul (C 5) 256) : Nat)
  let TEMP : ℚ := dadd 2000 (ddiv (dmul dT (C 6 : ℚ)) 8388608)
  let OFF : ℚ := dadd (u32mul (C 2) 65536 : ℚ) (ddiv (dmul (C 4 : ℚ) dT) 128)
  let SENS : ℚ := dadd (u32mul (C 1) 32768 : ℚ) (ddiv (dmul (C 3 : ℚ) dT) 256)
  let second := secondOrderBinary64 dT TEMP
  let TEMP := dsub TEMP second.1
  let OFF := dsub OFF second.2.1
  let SENS := dsub SENS second.2.2
  let P := ddiv (dsub (ddiv (dmul (D1 : ℚ) SENS) 2097152) OFF) 32768
  { temperature := ddiv TEMP 100, pressure := ddiv P 100 }

/-- `Ms5611::getTempPress` with the values stored to the output locations computed
in binary64: the same bus traffic as `Ms5611.getTempPress`, and
`compensationBinary64` in place of `compensation`. -/
def Ms5611.getTempPressBinary64 (s : Ms5611) (fuel : Nat) (out : Readings) (tr : Trace) :
    Option (Nat × Readings × Trace) :=
  match s.acquire MS5611_CMD_CONVERT_D1 fuel tr with
  | none => none
  | some (st, D1, tr1) =>
    if st ≠ 0 then some (1, out, tr1)
    else
      match s.acquire MS5611_CMD_CONVERT_D2 fuel tr1 with
      | none => none
      | some (st2, D2, tr2) =>
        if st2 ≠ 0 then some (1, out, tr2)
        else some (0, compensationBinary64 s.C D1 D2, tr2)

/-- The first-order formula of the data sheet evaluated in binary64: `dT`,
`C2 * 65536` and `C1 * 32768` are exact integers, every other operation is
rounded. -/
def firstOrderBinary64 (C : Fin 7 → Nat) (D1 D2 : Nat) : Readings :=
  let dT : ℚ := (D2 : ℚ) - (C 5 : ℚ) * 256
  let TEMP : ℚ := dadd 2000 (ddiv (dmul dT (C 6 : ℚ)) 8388608)
  let OFF : ℚ := dadd ((C 2 : ℚ) * 65536) (ddiv (dmul (C 4 : ℚ) dT) 128)
  let SENS : ℚ := dadd ((C 1 : ℚ) * 32768) (ddiv (dmul (C 3 : ℚ) dT) 256)
  let P := ddiv (dsub (ddiv (dmul (D1 : ℚ) SENS) 2097152) OFF) 32768
  { temperature := ddiv TEMP 100, pressure := ddiv P 100 }

/-! ## Basic facts -/

theorem busCommands_append (a b : Trace) :
    busCommands (a ++ b) = busCommands a ++ busCommands b := by
  simp [busCommands]

theorem bytesRead_append (a b : Trace) :
    bytesRead (a ++ b) = bytesRead a ++ bytesRead b := by
  simp [bytesRead]

theorem endStatuses_append (a b : Trace) :
    endStatuses (a ++ b) = endStatuses a ++ endStatuses b := by
  simp [endStatuses]

theorem pendingAfter_append (p : Option Nat) (a b : Trace) :
    pendingAfter p (a ++ b) = pendingAfter (pendingAfter p a) b := by
  simp [pendingAfter, List.foldl_append]

/-- A run whose first part left no request unanswered and whose second part
contains a failed step contains a failed step. -/
theorem not_stepsSucceeded_append {a b : Trace} (ha : pendingAfter none a = none)
    (hb : ¬ StepsSucceeded b) : ¬ StepsSucceeded (a ++ b) := by
  intro h
  apply hb
  refine ⟨fun st hst => h.1 st ?_, ?_⟩
  · rw [endStatuses_append]
    exact List.mem_append_right _ hst
  · have := h.2
    rwa [pendingAfter_append, ha] at this

theorem toU32_of_lt {n : Nat} (h : n < 4294967296) : toU32 n = n := by
  simp [toU32, Nat.mod_eq_of_lt h]

theorem intToU8_lt (i : Int) : intToU8 i < 256 := by
  unfold intToU8
  have h1 : i % 256 < 256 := Int.emod_lt_of_pos i (by norm_num)
  have h2 : 0 ≤ i % 256 := Int.emod_nonneg i (by norm_num)
  omega

theorem toU8_lt (n : Nat) : toU8 n < 256 := by
  unfold toU8; omega

/-- With a bound bus handle `writeCommand` performs one transaction and returns the
end-transmission status. -/
theorem writeCommand_bound {s : Ms5611} {w : TwoWire} (hw : s.ms5611Wire = some w)
    (command : Nat) (tr : Trace) :
    s.writeCommand command tr =
      some (toU8 (w.endTransmission
          (tr ++ [BusOp.beginTransmission s._address, BusOp.write command])),
        tr ++ [BusOp.beginTransmission s._address, BusOp.write command,
          BusOp.endTransmission (toU8 (w.endTransmission
            (tr ++ [BusOp.beginTransmission s._address, BusOp.write command])))]) := by
  simp [Ms5611.writeCommand, hw]

/-- The polling loop only appends `available` and `delay` calls; the request stays
unanswered exactly when the loop left through `return 1`. -/
theorem pollAvailable_events (w : TwoWire) (len retries : Nat) :
    ∀ (fuel t : Nat) (h : Trace) (b : Bool) (h' : Trace),
      pollAvailable w len retries fuel t h = some (b, h') →
      ∃ ev, h' = h ++ ev ∧ busCommands ev = [] ∧ bytesRead ev = [] ∧ endStatuses ev = [] ∧
        pendingAfter (some len) ev = (if b then some len else none) := by
  intro fuel
  induction fuel with
  | zero => intro t h b h' hp; simp [pollAvailable] at hp
  | succ fuel ih =>
    intro t h b h' hp
    simp only [pollAvailable] at hp
    split at hp
    · rename_i hne
      split at hp
      · simp only [Option.some.injEq, Prod.mk.injEq] at hp
        obtain ⟨rfl, rfl⟩ := hp
        refine ⟨[BusOp.available (w.available h)], rfl, ?_, ?_, ?_, ?_⟩ <;>
          simp [busCommands, bytesRead, endStatuses, pendingAfter, BusOp.isCommand,
            BusOp.delivered, BusOp.status, BusOp.pending, hne]
      · obtain ⟨ev, rfl, h1, h2, h3, h4⟩ := ih _ _ _ _ hp
        refine ⟨BusOp.available (w.available h) :: BusOp.delay 2 :: ev, by simp, ?_, ?_, ?_, ?_⟩
        · simpa [busCommands, BusOp.isCommand] using h1
        · simpa [bytesRead, BusOp.delivered] using h2
        · simpa [endStatuses, BusOp.status] using h3
        · simpa [pendingAfter, BusOp.pending, hne] using h4
    · rename_i heq
      simp only [Option.some.injEq, Prod.mk.injEq] at hp
      obtain ⟨rfl, rfl⟩ := hp
      have heq' : intToU32 (w.available h) = toU32 len := by simpa using heq
      refine ⟨[BusOp.available (w.available h)], rfl, ?_, ?_, ?_, ?_⟩ <;>
        simp [busCommands, bytesRead, endStatuses, pendingAfter, BusOp.isCommand,
          BusOp.delivered, BusOp.status, BusOp.pending, heq']

/-- The polling loop returns within `retries + 1` polls. -/
theorem pollAvailable_defined (w : TwoWire) (len retries : Nat) (hr : retries < 4294967295) :
    ∀ (fuel t : Nat) (h : Trace), t ≤ retries → retries - t < fuel →
      ∃ b h', pollAvailable w len retries fuel t h = some (b, h') := by
  intro fuel
  induction fuel with
  | zero => intro t h _ hf; omega
  | succ fuel ih =>
    intro t h ht hf
    simp only [pollAvailable]
    split
    · rw [toU32_of_lt (by omega : t + 1 < 4294967296),
        toU32_of_lt (by omega : retries < 4294967296)]
      split
      · exact ⟨_, _, rfl⟩
      · exact ih _ _ (by omega) (by omega)
    · exact ⟨_, _, rfl⟩

/-- When the bytes do not arrive within the budget the loop leaves through
`return 1` after `retries + 1` polls. -/
theorem pollAvailable_starves (w : TwoWire) (len retries : Nat) (hr : retries < 4294967295) :
    ∀ (n fuel t : Nat) (h : Trace), t + n = retries → n < fuel →
      (∀ i, i ≤ n → intToU32 (w.available (afterPolls w i h)) ≠ toU32 len) →
      pollAvailable w len retries fuel t h =
        some (true, afterPolls w n h ++ [BusOp.available (w.available (afterPolls w n h))]) := by
  intro n
  induction n with
  | zero =>
    intro fuel t h ht hf hbad
    obtain ⟨fuel, rfl⟩ : ∃ k, fuel = k + 1 := ⟨fuel - 1, by omega⟩
    have h0 := hbad 0 (by omega)
    simp only [afterPolls] at h0
    simp only [pollAvailable, afterPolls]
    rw [if_pos h0, toU32_of_lt (by omega : t + 1 < 4294967296),
      toU32_of_lt (by omega : retries < 4294967296), if_pos (by omega)]
  | succ n ih =>
    intro fuel t h ht hf hbad
    obtain ⟨fuel, rfl⟩ : ∃ k, fuel = k + 1 := ⟨fuel - 1, by omega⟩
    have h0 := hbad 0 (by omega)
    simp only [afterPolls] at h0
    simp only [pollAvailable, afterPolls]
    rw [if_pos h0, toU32_of_lt (by omega : t + 1 < 4294967296),
      toU32_of_lt (by omega : retries < 4294967296), if_neg (by omega)]
    have := ih fuel (t + 1) (h ++ [BusOp.available (w.available h), BusOp.delay 2])
      (by omega) (by omega) (fun i hi => hbad (i + 1) (by omega))
    simpa using this

/-- Two bytes combined by shift and or form the big-endian 16-bit word. -/
theorem word_eq {b0 b1 : Nat} (h0 : b0 < 256) (h1 : b1 < 256) :
    toU32 (b0 <<< 8) ||| b1 = b0 * 256 + b1 := by
  have hs : b0 <<< 8 = 2 ^ 8 * b0 := by rw [Nat.shiftLeft_eq, Nat.mul_comm]
  rw [toU32_of_lt (by rw [hs]; omega), hs,
    ← Nat.mul_add_lt_is_or (by norm_num; exact h1) b0]
  omega

/-- Three bytes combined by shift and or form the big-endian 24-bit value. -/
theorem adcValue_eq {b0 b1 b2 : Nat} (h0 : b0 < 256) (h1 : b1 < 256) (h2 : b2 < 256) :
    adcValue [b0, b1, b2] = b0 * 65536 + b1 * 256 + b2 := by
  have hs0 : b0 <<< 16 = 2 ^ 16 * b0 := by rw [Nat.shiftLeft_eq, Nat.mul_comm]
  have hs1 : b1 <<< 8 = 2 ^ 8 * b1 := by rw [Nat.shiftLeft_eq, Nat.mul_comm]
  have e1 : 2 ^ 16 * b0 ||| 2 ^ 8 * b1 = 2 ^ 16 * b0 + 2 ^ 8 * b1 :=
    (Nat.mul_add_lt_is_or (by omega : 2 ^ 8 * b1 < 2 ^ 16) b0).symm
  have e2 : 2 ^ 8 * (2 ^ 8 * b0 + b1) ||| b2 = 2 ^ 8 * (2 ^ 8 * b0 + b1) + b2 :=
    (Nat.mul_add_lt_is_or (by norm_num; exact h2) (2 ^ 8 * b0 + b1)).symm
  have e3 : 2 ^ 16 * b0 + 2 ^ 8 * b1 = 2 ^ 8 * (2 ^ 8 * b0 + b1) := by omega
  simp only [adcValue, List.getD_cons_zero, List.getD_cons_succ]
  rw [toU32_of_lt (by rw [hs0]; omega), hs0, hs1, e1, e3, e2]
  omega


/-- With a bound bus handle `readBytes` sends the register byte, requests the
bytes, polls, and drains the bytes when the polling loop left normally. -/
theorem readBytes_bound {s : Ms5611} {w : TwoWire} (hw : s.ms5611Wire = some w)
    (reg : Nat) (dest : List Nat) (len retries fuel : Nat) (tr : Trace) :
    s.readBytes reg dest len retries fuel tr =
      match pollAvailable w len retries fuel 0 (readRequest w s._address reg len tr) with
      | none => none
      | some (true, h3) => some (1, dest, h3)
      | some (false, h3) => some (0, (drain w len 0 dest h3).1, (drain w len 0 dest h3).2) := by
  simp [Ms5611.readBytes, hw, writeCommand_bound hw, readRequest, requestEvents]

/-- The outcome of `readBytes` with the default retry budget on a bound bus handle:
it always returns; after a timeout the status is 1, the buffer is untouched, no
byte was read and the request is left unanswered; otherwise the bytes are
drained. -/
theorem readBytes_cases {s : Ms5611} {w : TwoWire} (hw : s.ms5611Wire = some w)
    {fuel : Nat} (hfuel : 10 < fuel) (reg : Nat) (dest : List Nat) (len : Nat) (tr : Trace) :
    ∃ (b : Bool) (ev : Trace),
      busCommands ev = [BusOp.write reg, BusOp.requestFrom s._address len] ∧
      bytesRead ev = [] ∧
      (∀ p, pendingAfter p ev = if b then some len else none) ∧
      s.readBytes reg dest len 10 fuel tr =
        (if b then some (1, dest, tr ++ ev)
         else some (0, (drain w len 0 dest (tr ++ ev)).1, (drain w len 0 dest (tr ++ ev)).2)) := by
  obtain ⟨b, h3, hp⟩ := pollAvailable_defined w len 10 (by norm_num) fuel 0
    (readRequest w s._address reg len tr) (by omega) (by omega)
  obtain ⟨pe, rfl, hc, hb, -, hpend⟩ := pollAvailable_events w len 10 fuel 0 _ b _ hp
  refine ⟨b, requestEvents w s._address reg len tr ++ pe, ?_, ?_, ?_, ?_⟩
  · rw [busCommands_append, hc]
    simp [requestEvents, busCommands, BusOp.isCommand]
  · rw [bytesRead_append, hb]
    simp [requestEvents, bytesRead, BusOp.delivered]
  · intro p
    have hreq : pendingAfter p (requestEvents w s._address reg len tr) = some len := by
      simp [requestEvents, pendingAfter, BusOp.pending]
    rw [pendingAfter_append, hreq, hpend]
  · rw [readBytes_bound hw, hp]
    cases b <;> simp [readRequest, List.append_assoc]

/-- Draining two bytes into a two-byte buffer. -/
theorem drain_two (w : TwoWire) (d : List Nat) (h : Trace) (hd : d.length = 2) :
    ∃ b0 b1 rd, b0 < 256 ∧ b1 < 256 ∧ drain w 2 0 d h = ([b0, b1], h ++ rd) ∧
      busCommands rd = [] ∧ bytesRead rd = [b0, b1] ∧ ∀ p, pendingAfter p rd = p := by
  match d, hd with
  | [x, y], _ =>
    refine ⟨intToU8 (w.read h), intToU8 (w.read (h ++ [BusOp.read (w.read h)])),
      [BusOp.read (w.read h), BusOp.read (w.read (h ++ [BusOp.read (w.read h)]))],
      intToU8_lt _, intToU8_lt _, ?_, ?_, ?_, ?_⟩ <;>
    simp [drain, busCommands, bytesRead, pendingAfter, BusOp.isCommand, BusOp.delivered,
      BusOp.pending]

/-- Draining three bytes into a three-byte buffer. -/
theorem drain_three (w : TwoWire) (d : List Nat) (h : Trace) (hd : d.length = 3) :
    ∃ b0 b1 b2 rd, b0 < 256 ∧ b1 < 256 ∧ b2 < 256 ∧
      drain w 3 0 d h = ([b0, b1, b2], h ++ rd) ∧
      busCommands rd = [] ∧ bytesRead rd = [b0, b1, b2] ∧ ∀ p, pendingAfter p rd = p := by
  match d, hd with
  | [x, y, z], _ =>
    refine ⟨intToU8 (w.read h), intToU8 (w.read (h ++ [BusOp.read (w.read h)])),
      intToU8 (w.read (h ++ [BusOp.read (w.read h)] ++
        [BusOp.read (w.read (h ++ [BusOp.read (w.read h)]))])),
      [BusOp.read (w.read h), BusOp.read (w.read (h ++ [BusOp.read (w.read h)])),
        BusOp.read (w.read (h ++ [BusOp.read (w.read h)] ++
          [BusOp.read (w.read (h ++ [BusOp.read (w.read h)]))]))],
      intToU8_lt _, intToU8_lt _, intToU8_lt _, ?_, ?_, ?_, ?_⟩ <;>
    simp [drain, busCommands, bytesRead, pendingAfter, BusOp.isCommand, BusOp.delivered,
      BusOp.pending]

/-- The coefficient loop of `init` over any list of registers: it always returns;
it keeps address, oversampling setting, bus handle and every coefficient outside
the list; when it returns 1 a request is left unanswered; and when it returns 0
it issued exactly the reads of the list, every request was answered, and it
stored the words read. -/
theorem readCoefficients_spec (w : TwoWire) {fuel : Nat} (hfuel : 10 < fuel) :
    ∀ (regs : List (Fin 7)) (s : Ms5611) (tr : Trace), s.ms5611Wire = some w →
      ∃ st s' ev, Ms5611.readCoefficients fuel regs s tr = some (st, s', tr ++ ev) ∧
        (st = 0 ∨ st = 1) ∧
        s'._address = s._address ∧ s'._osr = s._osr ∧ s'.ms5611Wire = s.ms5611Wire ∧
        (∀ j, j ∉ regs → s'.C j = s.C j) ∧
        (st ≠ 0 → pendingAfter none ev ≠ none) ∧
        (st = 0 →
          busCommands ev = promReads s._address regs ∧
          pendingAfter none ev = none ∧
          ∃ ws : List (Nat × Nat), ws.length = regs.length ∧
            (∀ p ∈ ws, p.1 < 256 ∧ p.2 < 256) ∧
            bytesRead ev = wordBytes ws ∧
            (regs.Nodup → regs.map s'.C = ws.map fun p => p.1 * 256 + p.2)) := by
  intro regs
  induction regs with
  | nil =>
    intro s tr _
    exact ⟨0, s, [], by simp [Ms5611.readCoefficients], Or.inl rfl, rfl, rfl, rfl,
      fun _ _ => rfl, fun h => absurd rfl h,
      fun _ => ⟨by simp [promReads, busCommands], rfl, [], rfl, by simp,
        by simp [wordBytes, bytesRead], fun _ => rfl⟩⟩
  | cons reg rest ih =>
    intro s tr hw
    obtain ⟨b, ev0, hc, hb, hpend, hrb⟩ :=
      readBytes_cases hw hfuel (promCommand reg) [0, 0] 2 tr
    cases b with
    | true =>
      refine ⟨1, s, ev0, ?_, Or.inr rfl, rfl, rfl, rfl, fun _ _ => rfl, ?_, ?_⟩
      · simp [Ms5611.readCoefficients, hrb]
      · intro _
        rw [hpend]
        simp
      · intro h; simp at h
    | false =>
      obtain ⟨b0, b1, rd, hb0, hb1, hd, hdc, hdb, hdp⟩ := drain_two w [0, 0] (tr ++ ev0) rfl
      obtain ⟨st, s', ev1, hrun, hst, haddr, hosr, hwire, hframe, hbad, hok⟩ :=
        ih { s with C := Function.update s.C reg (toU32 (b0 <<< 8) ||| b1) }
          (tr ++ ev0 ++ rd) hw
      have hp0 : pendingAfter none (ev0 ++ rd) = none := by
        rw [pendingAfter_append, hdp, hpend]
        simp
      refine ⟨st, s', ev0 ++ rd ++ ev1, ?_, hst, haddr, hosr, hwire, ?_, ?_, ?_⟩
      · simp only [List.append_assoc] at hrun
        simp [Ms5611.readCoefficients, hrb, hd, hrun]
      · intro j hj
        rw [List.mem_cons, not_or] at hj
        rw [hframe j hj.2]
        exact Function.update_noteq hj.1 _ _
      · intro h0
        rw [pendingAfter_append, hp0]
        exact hbad h0
      · intro h0
        obtain ⟨hcmd, hp1, ws, hlen, hlt, hbytes, hval⟩ := hok h0
        refine ⟨?_, ?_, (b0, b1) :: ws, by simp [hlen], ?_, ?_, ?_⟩
        · rw [busCommands_append, busCommands_append, hcmd, hdc, hc]
          simp [promReads]
        · rw [pendingAfter_append, hp0, hp1]
        · intro p hp
          rcases List.mem_cons.1 hp with rfl | hp
          · exact ⟨hb0, hb1⟩
          · exact hlt p hp
        · rw [bytesRead_append, bytesRead_append, hbytes, hdb, hb]
          simp [wordBytes]
        · intro hnd
          rw [List.nodup_cons] at hnd
          simp only [List.map_cons]
          rw [hval hnd.2, hframe reg hnd.1]
          simp [word_eq hb0 hb1]


/-! ## Initialisation -/

/-- The two paths of `init`: the early return after a failed reset, and the
coefficient loop. -/
theorem init_unfold (s : Ms5611) (w : TwoWire) (address fuel : Nat) (tr : Trace) :
    s.init w address fuel tr =
      if resetStatus w address tr ≠ 0 then
        some (1, s.attach w address,
          tr ++ [BusOp.begin, BusOp.beginTransmission (toU8 address), BusOp.write 0x1E,
            BusOp.endTransmission (resetStatus w address tr)])
      else
        Ms5611.readCoefficients fuel promRegisters (s.attach w address)
          (tr ++ [BusOp.begin, BusOp.beginTransmission (toU8 address), BusOp.write 0x1E,
            BusOp.endTransmission (resetStatus w address tr), BusOp.delay 5]) := by
  simp [Ms5611.init, Ms5611.reset, Ms5611.writeCommand, Ms5611.attach, resetRequest,
    resetStatus, MS5611_TIME_RELOAD, MS5611_CMD_RESET]

/-- A successful run of the coefficient loop over a first part of the registers
continues with the remaining registers. -/
theorem readCoefficients_append (fuel : Nat) (post : List (Fin 7)) :
    ∀ (pre : List (Fin 7)) (s : Ms5611) (tr : Trace) (s1 : Ms5611) (h1 : Trace),
      Ms5611.readCoefficients fuel pre s tr = some (0, s1, h1) →
      Ms5611.readCoefficients fuel (pre ++ post) s tr =
        Ms5611.readCoefficients fuel post s1 h1 := by
  intro pre
  induction pre with
  | nil =>
    intro s tr s1 h1 h
    simp only [Ms5611.readCoefficients, Option.some.injEq, Prod.mk.injEq, true_and] at h
    obtain ⟨rfl, rfl⟩ := h
    rfl
  | cons reg rest ih =>
    intro s tr s1 h1 h
    simp only [Ms5611.readCoefficients, List.cons_append] at h ⊢
    cases hrb : s.readBytes (promCommand reg) [0, 0] 2 10 fuel tr with
    | none => rw [hrb] at h; simp at h
    | some r =>
      obtain ⟨st, d, t1⟩ := r
      rw [hrb] at h
      simp only at h ⊢
      by_cases hst : st = 0
      · subst hst
        simp only [ne_eq, not_true_eq_false, if_false] at h ⊢
        exact ih _ _ _ _ h
      · simp [hst] at h

theorem promReads_all (a : Nat) :
    promReads a promRegisters =
      [BusOp.write 0xA2, BusOp.requestFrom a 2, BusOp.write 0xA4, BusOp.requestFrom a 2,
       BusOp.write 0xA6, BusOp.requestFrom a 2, BusOp.write 0xA8, BusOp.requestFrom a 2,
       BusOp.write 0xAA, BusOp.requestFrom a 2, BusOp.write 0xAC, BusOp.requestFrom a 2] := by
  rfl

theorem promRegisters_split (k : Fin 7) (hk : k ≠ 0) :
    promRegisters = promRegisters.take (k.val - 1) ++ k :: promRegisters.drop k.val := by
  revert k; decide

theorem promRegisters_take (k : Fin 7) (hk : k ≠ 0) :
    promRegisters.take k.val = promRegisters.take (k.val - 1) ++ [k] := by
  revert k; decide

theorem promRegisters_take_frame (k j : Fin 7) (h : k ≤ j) :
    j ∉ promRegisters.take (k.val - 1) := by
  revert k j; decide

theorem promRegisters_take_nodup (n : Nat) : (promRegisters.take n).Nodup :=
  List.Nodup.sublist (List.take_sublist n promRegisters) (by decide)

/-- `init` always returns, with status 0 or 1; when it returns 1 some transport step
of the run failed; when it returns 0 it wrote the reset command and the six PROM
commands, each followed by a request for 2 bytes, and stored the six big-endian
words read. -/
theorem init_spec (s : Ms5611) (w : TwoWire) (address : Nat) {fuel : Nat} (hfuel : 10 < fuel)
    (tr : Trace) :
    ∃ st s' ev, s.init w address fuel tr = some (st, s', tr ++ ev) ∧
      (st = 0 ∨ st = 1) ∧
      (st ≠ 0 → ¬ StepsSucceeded ev) ∧
      (st = 0 →
        busCommands ev = BusOp.write 0x1E :: promReads (toU8 address) promRegisters ∧
        ∃ ws : List (Nat × Nat), ws.length = 6 ∧ bytesRead ev = wordBytes ws ∧
          promRegisters.map s'.C = ws.map fun p => p.1 * 256 + p.2) := by
  by_cases hr : resetStatus w address tr = 0
  · obtain ⟨st, s', ev, hrun, hst, -, -, -, -, hbad, hok⟩ :=
      readCoefficients_spec w hfuel promRegisters (s.attach w address)
        (tr ++ [BusOp.begin, BusOp.beginTransmission (toU8 address), BusOp.write 0x1E,
          BusOp.endTransmission 0, BusOp.delay 5]) rfl
    refine ⟨st, s', [BusOp.begin, BusOp.beginTransmission (toU8 address), BusOp.write 0x1E,
      BusOp.endTransmission 0, BusOp.delay 5] ++ ev, ?_, hst, ?_, ?_⟩
    · rw [init_unfold, hr, ← List.append_assoc]
      simpa using hrun
    · intro h0
      apply not_stepsSucceeded_append (by simp [pendingAfter, BusOp.pending])
      intro hs
      exact hbad h0 hs.2
    · intro h0
      obtain ⟨hcmd, -, ws, hlen, -, hbytes, hval⟩ := hok h0
      refine ⟨?_, ws, hlen, ?_, hval (by decide)⟩
      · rw [busCommands_append, hcmd]
        simp [busCommands, BusOp.isCommand, Ms5611.attach]
      · rw [bytesRead_append, hbytes]
        simp [bytesRead, BusOp.delivered]
  · refine ⟨1, s.attach w address,
      [BusOp.begin, BusOp.beginTransmission (toU8 address), BusOp.write 0x1E,
        BusOp.endTransmission (resetStatus w address tr)], ?_, Or.inr rfl, ?_,
      fun h => by simp at h⟩
    · rw [init_unfold, if_pos hr]
    · intro _ hs
      exact hr (hs.1 _ (by simp [endStatuses, BusOp.status]))

/-- The run of `init` on a fresh driver against the sensor of the end-to-end
scenario. -/
theorem scenario_init :
    Ms5611.fresh.init scenario.wire 0x77 11 [] = some (0, scenarioState, scenarioHistory) :=
  rfl

/-- C7: when the end-transmission status of the reset command sent by `init` is
non-zero, `init` returns 1 right after that transmission: the only bus calls are
`begin` and the reset transaction (no PROM command, no request, no read), and the
coefficients and the oversampling setting are unchanged. -/
theorem init_reset_failure (s : Ms5611) (w : TwoWire) (address fuel : Nat) (tr : Trace)
    (hreset : resetStatus w address tr ≠ 0) :
    ∃ s', s.init w address fuel tr =
        some (1, s', tr ++ [BusOp.begin, BusOp.beginTransmission (toU8 address),
          BusOp.write 0x1E, BusOp.endTransmission (resetStatus w address tr)]) ∧
      s'.C = s.C ∧ s'._osr = s._osr := by
  refine ⟨s.attach w address, ?_, rfl, rfl⟩
  rw [init_unfold, if_pos hreset]

/-- C7, witness: a fresh driver initialised on a bus that answers every transmission
with status 2. -/
theorem init_reset_failure_witness :
    resetStatus deadBus.wire 0x77 [] ≠ 0 ∧
    ∃ s', Ms5611.fresh.init deadBus.wire 0x77 11 [] =
        some (1, s', [] ++ [BusOp.begin, BusOp.beginTransmission (toU8 0x77),
          BusOp.write 0x1E, BusOp.endTransmission (resetStatus deadBus.wire 0x77 [])]) ∧
      s'.C = Ms5611.fresh.C ∧ s'._osr = Ms5611.fresh._osr :=
  ⟨by decide, init_reset_failure Ms5611.fresh deadBus.wire 0x77 11 [] (by decide)⟩

/-- C8: when every transport step of the run of `init` succeeds (each transmission
ends with status 0 and each request is answered within the retry budget), `init`
returns 0; the command bytes written are 0x1E, 0xA2, 0xA4, 0xA6, 0xA8, 0xAA, 0xAC
in this order, each PROM command followed by a request for 2 bytes; and
coefficient N is the big-endian word `hN * 256 + lN` of the two bytes delivered
for the N-th read. -/
theorem init_success (s : Ms5611) (w : TwoWire) (address fuel : Nat) (tr : Trace)
    (hfuel : 10 < fuel)
    (hsteps : ∀ st s' ev, s.init w address fuel tr = some (st, s', tr ++ ev) →
      StepsSucceeded ev) :
    ∃ s' ev h1 l1 h2 l2 h3 l3 h4 l4 h5 l5 h6 l6,
      s.init w address fuel tr = some (0, s', tr ++ ev) ∧
      busCommands ev =
        [BusOp.write 0x1E,
         BusOp.write 0xA2, BusOp.requestFrom (toU8 address) 2,
         BusOp.write 0xA4, BusOp.requestFrom (toU8 address) 2,
         BusOp.write 0xA6, BusOp.requestFrom (toU8 address) 2,
         BusOp.write 0xA8, BusOp.requestFrom (toU8 address) 2,
         BusOp.write 0xAA, BusOp.requestFrom (toU8 address) 2,
         BusOp.write 0xAC, BusOp.requestFrom (toU8 address) 2] ∧
      bytesRead ev = [h1, l1, h2, l2, h3, l3, h4, l4, h5, l5, h6, l6] ∧
      s'.C 1 = h1 * 256 + l1 ∧ s'.C 2 = h2 * 256 + l2 ∧ s'.C 3 = h3 * 256 + l3 ∧
      s'.C 4 = h4 * 256 + l4 ∧ s'.C 5 = h5 * 256 + l5 ∧ s'.C 6 = h6 * 256 + l6 := by
  obtain ⟨st, s', ev, hrun, -, hbad, hok⟩ := init_spec s w address hfuel tr
  have hst : st = 0 := by
    by_contra h0
    exact hbad h0 (hsteps st s' ev hrun)
  subst hst
  obtain ⟨hcmd, ws, hlen, hbytes, hC⟩ := hok rfl
  match ws, hlen with
  | [p1, p2, p3, p4, p5, p6], _ =>
    refine ⟨s', ev, p1.1, p1.2, p2.1, p2.2, p3.1, p3.2, p4.1, p4.2, p5.1, p5.2,
      p6.1, p6.2, hrun, ?_, ?_, ?_⟩
    · rw [hcmd, promReads_all]
    · rw [hbytes]
      simp [wordBytes]
    · simpa [promRegisters] using hC

/-- C8, witness: a fresh driver initialised against the sensor of the end-to-end
scenario, whose run consists of successful steps only. -/
theorem init_success_witness :
    (10 < 11 ∧
      (∀ st s' ev, Ms5611.fresh.init scenario.wire 0x77 11 [] = some (st, s', [] ++ ev) →
        StepsSucceeded ev)) ∧
    ∃ s' ev h1 l1 h2 l2 h3 l3 h4 l4 h5 l5 h6 l6,
      Ms5611.fresh.init scenario.wire 0x77 11 [] = some (0, s', [] ++ ev) ∧
      busCommands ev =
        [BusOp.write 0x1E,
         BusOp.write 0xA2, BusOp.requestFrom (toU8 0x77) 2,
         BusOp.write 0xA4, BusOp.requestFrom (toU8 0x77) 2,
         BusOp.write 0xA6, BusOp.requestFrom (toU8 0x77) 2,
         BusOp.write 0xA8, BusOp.requestFrom (toU8 0x77) 2,
         BusOp.write 0xAA, BusOp.requestFrom (toU8 0x77) 2,
         BusOp.write 0xAC, BusOp.requestFrom (toU8 0x77) 2] ∧
      bytesRead ev = [h1, l1, h2, l2, h3, l3, h4, l4, h5, l5, h6, l6] ∧
      s'.C 1 = h1 * 256 + l1 ∧ s'.C 2 = h2 * 256 + l2 ∧ s'.C 3 = h3 * 256 + l3 ∧
      s'.C 4 = h4 * 256 + l4 ∧ s'.C 5 = h5 * 256 + l5 ∧ s'.C 6 = h6 * 256 + l6 :=
  have hsteps : ∀ st s' ev,
      Ms5611.fresh.init scenario.wire 0x77 11 [] = some (st, s', [] ++ ev) →
        StepsSucceeded ev := by
    intro st s' ev h
    rw [scenario_init] at h
    simp only [List.nil_append, Option.some.injEq, Prod.mk.injEq] at h
    obtain ⟨-, -, rfl⟩ := h
    decide
  ⟨⟨by decide, hsteps⟩,
    init_success Ms5611.fresh scenario.wire 0x77 11 [] (by decide) hsteps⟩


theorem busCommands_afterPolls (w : TwoWire) :
    ∀ (i : Nat) (h : Trace), busCommands (afterPolls w i h) = busCommands h := by
  intro i
  induction i with
  | zero => intro h; rfl
  | succ i ih =>
    intro h
    rw [afterPolls, ih]
    simp [busCommands, BusOp.isCommand]

theorem bytesRead_afterPolls (w : TwoWire) :
    ∀ (i : Nat) (h : Trace), bytesRead (afterPolls w i h) = bytesRead h := by
  intro i
  induction i with
  | zero => intro h; rfl
  | succ i ih =>
    intro h
    rw [afterPolls, ih]
    simp [bytesRead, BusOp.delivered]

/-- C6: if the reset is acknowledged, the coefficient reads of registers 1 to k-1
succeed (ending in state `s1` and history `h1`) and the two bytes requested for
register k do not become available within the retry budget, then `init` returns 1
with the history ending at the last unsuccessful poll of that read; the bus
commands issued are the reset and the reads of registers 1 to k only;
coefficients 1 to k-1 hold the big-endian words of the bytes read, and
coefficients k to 6 hold the values they had before the call.  In particular
`init` does not return 0 when one of the six reads fails. -/
theorem init_coefficient_read_failure (s : Ms5611) (w : TwoWire) (address fuel : Nat)
    (tr : Trace) (k : Fin 7) (s1 : Ms5611) (h1 : Trace) (hk : k ≠ 0) (hfuel : 10 < fuel)
    (hreset : resetStatus w address tr = 0)
    (hpre : Ms5611.readCoefficients fuel (promRegisters.take (k.val - 1))
        (s.attach w address)
        (tr ++ [BusOp.begin, BusOp.beginTransmission (toU8 address), BusOp.write 0x1E,
          BusOp.endTransmission 0, BusOp.delay 5]) =
      some (0, s1, h1))
    (hfail : w.Starves 2 (readRequest w (toU8 address) (promCommand k) 2 h1)) :
    ∃ ws : List (Nat × Nat),
      s.init w address fuel tr = some (1, s1,
        afterPolls w 10 (readRequest w (toU8 address) (promCommand k) 2 h1) ++
          [BusOp.available (w.available
            (afterPolls w 10 (readRequest w (toU8 address) (promCommand k) 2 h1)))]) ∧
      busCommands (afterPolls w 10 (readRequest w (toU8 address) (promCommand k) 2 h1)) =
        busCommands tr ++
          BusOp.write 0x1E :: promReads (toU8 address) (promRegisters.take k.val) ∧
      ws.length = k.val - 1 ∧
      bytesRead (afterPolls w 10 (readRequest w (toU8 address) (promCommand k) 2 h1)) =
        bytesRead tr ++ wordBytes ws ∧
      (promRegisters.take (k.val - 1)).map s1.C = ws.map (fun p => p.1 * 256 + p.2) ∧
      (∀ j : Fin 7, k ≤ j → s1.C j = s.C j) := by
  obtain ⟨st, s', ev, hrun, -, haddr, -, hwire, hframe, -, hok⟩ :=
    readCoefficients_spec w hfuel (promRegisters.take (k.val - 1)) (s.attach w address)
      (tr ++ [BusOp.begin, BusOp.beginTransmission (toU8 address), BusOp.write 0x1E,
        BusOp.endTransmission 0, BusOp.delay 5]) rfl
  rw [hpre] at hrun
  simp only [Option.some.injEq, Prod.mk.injEq] at hrun
  obtain ⟨rfl, rfl, hh⟩ := hrun
  obtain ⟨hcmd, -, ws, hlen, -, hbytes, hval⟩ := hok rfl
  have hw1 : s1.ms5611Wire = some w := hwire
  have ha1 : s1._address = toU8 address := haddr
  have hpoll := pollAvailable_starves w 2 10 (by norm_num) 10 fuel 0
    (readRequest w (toU8 address) (promCommand k) 2 h1) (by omega) (by omega) hfail
  have hrest : Ms5611.readCoefficients fuel (k :: promRegisters.drop k.val) s1 h1 =
      some (1, s1,
        afterPolls w 10 (readRequest w (toU8 address) (promCommand k) 2 h1) ++
          [BusOp.available (w.available
            (afterPolls w 10 (readRequest w (toU8 address) (promCommand k) 2 h1)))]) := by
    simp [Ms5611.readCoefficients, readBytes_bound hw1, ha1, hpoll]
  have hall := readCoefficients_append fuel (k :: promRegisters.drop k.val) _ _ _ _ _ hpre
  rw [← promRegisters_split k hk, hrest] at hall
  have hlen' : ws.length = k.val - 1 := by
    rw [hlen, List.length_take]
    have : promRegisters.length = 6 := rfl
    omega
  refine ⟨ws, ?_, ?_, hlen', ?_, hval (promRegisters_take_nodup _), ?_⟩
  · rw [init_unfold, hreset]
    simpa using hall
  · rw [busCommands_afterPolls, readRequest, busCommands_append, hh, busCommands_append,
      busCommands_append, hcmd, promRegisters_take k hk]
    simp [busCommands, requestEvents, BusOp.isCommand, promReads, Ms5611.attach]
  · rw [bytesRead_afterPolls, readRequest, bytesRead_append, hh, bytesRead_append,
      bytesRead_append, hbytes]
    simp [bytesRead, requestEvents, BusOp.delivered]
  · intro j hj
    exact hframe j (promRegisters_take_frame k j hj)

/-- C6, witness: a fresh driver initialised against a sensor that never answers the
read of register 3 (k = 3). -/
theorem init_coefficient_read_failure_witness :
    ((3 : Fin 7) ≠ 0 ∧ 10 < 11 ∧ resetStatus brokenProm.wire 0x77 [] = 0 ∧
      Ms5611.readCoefficients 11 (promRegisters.take ((3 : Fin 7).val - 1))
          (Ms5611.fresh.attach brokenProm.wire 0x77)
          ([] ++ [BusOp.begin, BusOp.beginTransmission (toU8 0x77), BusOp.write 0x1E,
            BusOp.endTransmission 0, BusOp.delay 5]) =
        some (0, brokenPromState, brokenPromHistory) ∧
      brokenProm.wire.Starves 2
        (readRequest brokenProm.wire (toU8 0x77) (promCommand 3) 2 brokenPromHistory)) ∧
    ∃ ws : List (Nat × Nat),
      Ms5611.fresh.init brokenProm.wire 0x77 11 [] = some (1, brokenPromState,
        afterPolls brokenProm.wire 10
            (readRequest brokenProm.wire (toU8 0x77) (promCommand 3) 2 brokenPromHistory) ++
          [BusOp.available (brokenProm.wire.available
            (afterPolls brokenProm.wire 10
              (readRequest brokenProm.wire (toU8 0x77) (promCommand 3) 2
                brokenPromHistory)))]) ∧
      busCommands (afterPolls brokenProm.wire 10
          (readRequest brokenProm.wire (toU8 0x77) (promCommand 3) 2 brokenPromHistory)) =
        busCommands [] ++
          BusOp.write 0x1E :: promReads (toU8 0x77) (promRegisters.take (3 : Fin 7).val) ∧
      ws.length = (3 : Fin 7).val - 1 ∧
      bytesRead (afterPolls brokenProm.wire 10
          (readRequest brokenProm.wire (toU8 0x77) (promCommand 3) 2 brokenPromHistory)) =
        bytesRead [] ++ wordBytes ws ∧
      (promRegisters.take ((3 : Fin 7).val - 1)).map brokenPromState.C =
        ws.map (fun p => p.1 * 256 + p.2) ∧
      (∀ j : Fin 7, 3 ≤ j → brokenPromState.C j = Ms5611.fresh.C j) :=
  ⟨⟨by decide, by decide, by decide, rfl, by decide⟩,
    init_coefficient_read_failure Ms5611.fresh brokenProm.wire 0x77 11 [] 3
      brokenPromState brokenPromHistory (by decide) (by decide) (by decide) rfl (by decide)⟩


/-! ## Measurement -/

/-- One acquisition block of `getTempPress` on a bound bus handle: it always
returns, with status 0 or 1; with status 1 some transport step of the block
failed; with status 0 it wrote the conversion command and the Read-ADC command,
requested 3 bytes, left no request unanswered, and produced the big-endian value
of the 3 bytes delivered. -/
theorem acquire_spec {s : Ms5611} {w : TwoWire} (hw : s.ms5611Wire = some w)
    {fuel : Nat} (hfuel : 10 < fuel) (convert : Nat) (tr : Trace) :
    ∃ st D ev, s.acquire convert fuel tr = some (st, D, tr ++ ev) ∧
      (st = 0 ∨ st = 1) ∧
      (st ≠ 0 → ¬ StepsSucceeded ev) ∧
      (st = 0 →
        busCommands ev =
          [BusOp.write (toU8 (convert ||| s._osr)), BusOp.write 0x00,
           BusOp.requestFrom s._address 3] ∧
        pendingAfter none ev = none ∧
        ∃ b0 b1 b2, b0 < 256 ∧ b1 < 256 ∧ b2 < 256 ∧
          bytesRead ev = [b0, b1, b2] ∧
          D = b0 * 65536 + b1 * 256 + b2) := by
  by_cases hst : toU8 (w.endTransmission
      (tr ++ [BusOp.beginTransmission s._address, BusOp.write (toU8 (convert ||| s._osr))])) = 0
  · obtain ⟨b, ev0, hc, hb, hpend, hrb⟩ :=
      readBytes_cases hw hfuel MS5611_CMD_READ_ADC [0, 0, 0] 3
        (tr ++ [BusOp.beginTransmission s._address,
          BusOp.write (toU8 (convert ||| s._osr)), BusOp.endTransmission 0,
          BusOp.delay 10])
    cases b with
    | true =>
      refine ⟨1, 0, [BusOp.beginTransmission s._address,
          BusOp.write (toU8 (convert ||| s._osr)), BusOp.endTransmission 0,
          BusOp.delay 10] ++ ev0, ?_, Or.inr rfl, ?_, fun h => by simp at h⟩
      · simp only [Ms5611.acquire, writeCommand_bound hw, hst]
        simp only [if_true] at hrb
        simp [MS5611_TIME_ADC_CONVERT, hrb]
      · intro _ hs
        have := hs.2
        rw [pendingAfter_append, hpend] at this
        simp at this
    | false =>
      obtain ⟨b0, b1, b2, rd, hb0, hb1, hb2, hd, hdc, hdb, hdp⟩ :=
        drain_three w [0, 0, 0] (tr ++ [BusOp.beginTransmission s._address,
          BusOp.write (toU8 (convert ||| s._osr)), BusOp.endTransmission 0,
          BusOp.delay 10] ++ ev0) rfl
      refine ⟨0, b0 * 65536 + b1 * 256 + b2, [BusOp.beginTransmission s._address,
          BusOp.write (toU8 (convert ||| s._osr)), BusOp.endTransmission 0,
          BusOp.delay 10] ++ ev0 ++ rd, ?_, Or.inl rfl, fun h => absurd rfl h,
        fun _ => ⟨?_, ?_, b0, b1, b2, hb0, hb1, hb2, ?_, rfl⟩⟩
      · simp only [Ms5611.acquire, writeCommand_bound hw, hst]
        simp only [Bool.false_eq_true, if_false, hd] at hrb
        simp [MS5611_TIME_ADC_CONVERT, hrb, adcValue_eq hb0 hb1 hb2]
      · rw [busCommands_append, busCommands_append, hdc, hc]
        simp [busCommands, BusOp.isCommand, MS5611_CMD_READ_ADC]
      · rw [pendingAfter_append, hdp, pendingAfter_append, hpend]
        simp
      · rw [bytesRead_append, bytesRead_append, hdb, hb]
        simp [bytesRead, BusOp.delivered]
  · refine ⟨1, 0, [BusOp.beginTransmission s._address,
        BusOp.write (toU8 (convert ||| s._osr)),
        BusOp.endTransmission (toU8 (w.endTransmission
          (tr ++ [BusOp.beginTransmission s._address,
            BusOp.write (toU8 (convert ||| s._osr))])))],
      ?_, Or.inr rfl, ?_, fun h => by simp at h⟩
    · simp [Ms5611.acquire, writeCommand_bound hw, hst]
    · intro _ hs
      exact hst (hs.1 _ (by simp [endStatuses, BusOp.status]))

/-- `getTempPress` on a bound bus handle: it always returns, with status 0 or 1; a
non-zero status leaves the outputs as they were and means that some transport step
of the run failed; with status 0 it issued the pressure conversion, the ADC read,
the temperature conversion and the ADC read, in this order, and stored the
compensation of the two big-endian 24-bit values delivered. -/
theorem getTempPress_spec {s : Ms5611} {w : TwoWire} (hw : s.ms5611Wire = some w)
    {fuel : Nat} (hfuel : 10 < fuel) (out : Readings) (tr : Trace) :
    ∃ st out' ev, s.getTempPress fuel out tr = some (st, out', tr ++ ev) ∧
      (st = 0 ∨ st = 1) ∧
      (st ≠ 0 → out' = out) ∧
      (st ≠ 0 → ¬ StepsSucceeded ev) ∧
      (st = 0 →
        busCommands ev =
          [BusOp.write (toU8 (MS5611_CMD_CONVERT_D1 ||| s._osr)), BusOp.write 0x00,
           BusOp.requestFrom s._address 3,
           BusOp.write (toU8 (MS5611_CMD_CONVERT_D2 ||| s._osr)), BusOp.write 0x00,
           BusOp.requestFrom s._address 3] ∧
        ∃ p0 p1 p2 t0 t1 t2, p0 < 256 ∧ p1 < 256 ∧ p2 < 256 ∧ t0 < 256 ∧ t1 < 256 ∧ t2 < 256 ∧
          bytesRead ev = [p0, p1, p2, t0, t1, t2] ∧
          out' = compensation s.C (p0 * 65536 + p1 * 256 + p2)
            (t0 * 65536 + t1 * 256 + t2)) := by
  obtain ⟨st1, D1, ev1, h1, hs1, hbad1, hok1⟩ :=
    acquire_spec hw hfuel MS5611_CMD_CONVERT_D1 tr
  rcases hs1 with rfl | rfl
  · obtain ⟨hc1, hp1, p0, p1, p2, hp0, hp1', hp2, hb1, rfl⟩ := hok1 rfl
    obtain ⟨st2, D2, ev2, h2, hs2, hbad2, hok2⟩ :=
      acquire_spec hw hfuel MS5611_CMD_CONVERT_D2 (tr ++ ev1)
    rw [List.append_assoc] at h2
    rcases hs2 with rfl | rfl
    · obtain ⟨hc2, -, t0, t1, t2, ht0, ht1, ht2, hb2, rfl⟩ := hok2 rfl
      refine ⟨0, _, ev1 ++ ev2, ?_, Or.inl rfl, fun h => absurd rfl h, fun h => absurd rfl h,
        fun _ => ⟨?_, p0, p1, p2, t0, t1, t2, hp0, hp1', hp2, ht0, ht1, ht2, ?_, rfl⟩⟩
      · simp [Ms5611.getTempPress, h1, h2]
      · rw [busCommands_append, hc2, hc1]; simp
      · rw [bytesRead_append, hb2, hb1]; simp
    · refine ⟨1, out, ev1 ++ ev2, ?_, Or.inr rfl, fun _ => rfl, ?_, fun h => by simp at h⟩
      · simp [Ms5611.getTempPress, h1, h2]
      · intro _
        exact not_stepsSucceeded_append hp1 (hbad2 (by decide))
  · refine ⟨1, out, ev1, ?_, Or.inr rfl, fun _ => rfl, fun _ => hbad1 (by decide),
      fun h => by simp at h⟩
    simp [Ms5611.getTempPress, h1]


/-- The measurement of the end-to-end scenario after `setOSR 0x08`. -/
theorem scenario_measure_4096 :
    ({ scenarioState with _osr := 0x08 } : Ms5611).getTempPress 11 ⟨0, 0⟩ scenarioHistory =
      some (0, compensation scenarioState.C 9085466 8569150,
        scenarioHistory ++ (acquireEvents 0x77 0x48 0 138 162 26 ++
          acquireEvents 0x77 0x58 0 130 193 62)) :=
  rfl

/-! ## Oversampling setting -/

/-- C3: for every driver state and every value outside 0x00, 0x02, 0x04, 0x06, 0x08
`setOSR` returns 1 and leaves the whole driver state and the bus history as they
were. -/
theorem setOSR_rejects (s : Ms5611) (osr : Nat) (tr : Trace)
    (h : osr ≠ 0x00 ∧ osr ≠ 0x02 ∧ osr ≠ 0x04 ∧ osr ≠ 0x06 ∧ osr ≠ 0x08) :
    s.setOSR osr tr = (1, s, tr) := by
  obtain ⟨h0, h2, h4, h6, h8⟩ := h
  simp [Ms5611.setOSR, MS5611_OSR_256, MS5611_OSR_512, MS5611_OSR_1024, MS5611_OSR_2048,
    MS5611_OSR_4096, h0, h2, h4, h6, h8]

/-- C3, witness: the value 0x0A on the initialised driver of the scenario. -/
theorem setOSR_rejects_witness :
    ((0x0A : Nat) ≠ 0x00 ∧ (0x0A : Nat) ≠ 0x02 ∧ (0x0A : Nat) ≠ 0x04 ∧ (0x0A : Nat) ≠ 0x06 ∧
      (0x0A : Nat) ≠ 0x08) ∧
    scenarioState.setOSR 0x0A scenarioHistory = (1, scenarioState, scenarioHistory) :=
  ⟨by decide, setOSR_rejects scenarioState 0x0A scenarioHistory (by decide)⟩

/-- C10: for every driver state and every v among 0x00, 0x02, 0x04, 0x06, 0x08,
`setOSR v` returns 0 and makes v the oversampling setting without touching the bus;
the following `getTempPress`, when every transport step of its run succeeds,
returns 0 and issues exactly the command bytes `0x40 | v`, 0x00, `0x50 | v`, 0x00
in this order, with a request for 3 bytes after each 0x00. -/
theorem setOSR_accepts (s : Ms5611) (v : Nat) (tr : Trace)
    (hv : v = 0x00 ∨ v = 0x02 ∨ v = 0x04 ∨ v = 0x06 ∨ v = 0x08) :
    s.setOSR v tr = (0, { s with _osr := v }, tr) ∧
    ∀ (w : TwoWire) (fuel : Nat) (out : Readings),
      s.ms5611Wire = some w → 10 < fuel →
      (∀ st out' ev, ({ s with _osr := v } : Ms5611).getTempPress fuel out tr =
        some (st, out', tr ++ ev) → StepsSucceeded ev) →
      ∃ out' ev, ({ s with _osr := v } : Ms5611).getTempPress fuel out tr =
          some (0, out', tr ++ ev) ∧
        busCommands ev =
          [BusOp.write (0x40 ||| v), BusOp.write 0x00, BusOp.requestFrom s._address 3,
           BusOp.write (0x50 ||| v), BusOp.write 0x00, BusOp.requestFrom s._address 3] := by
  constructor
  · simp [Ms5611.setOSR, MS5611_OSR_256, MS5611_OSR_512, MS5611_OSR_1024, MS5611_OSR_2048,
      MS5611_OSR_4096, hv]
  · intro w fuel out hw hfuel hsteps
    obtain ⟨st, out', ev, hrun, -, -, hbad, hok⟩ :=
      getTempPress_spec (s := { s with _osr := v }) hw hfuel out tr
    have hst : st = 0 := by
      by_contra h0
      exact hbad h0 (hsteps st out' ev hrun)
    subst hst
    obtain ⟨hcmd, -⟩ := hok rfl
    refine ⟨out', ev, hrun, ?_⟩
    rw [hcmd]
    rcases hv with rfl | rfl | rfl | rfl | rfl <;>
      simp [MS5611_CMD_CONVERT_D1, MS5611_CMD_CONVERT_D2, toU8]

/-- C10, witness: the value 0x08 on the initialised driver of the scenario, whose
next measurement consists of successful steps only. -/
theorem setOSR_accepts_witness :
    ((0x08 : Nat) = 0x00 ∨ (0x08 : Nat) = 0x02 ∨ (0x08 : Nat) = 0x04 ∨ (0x08 : Nat) = 0x06 ∨
      (0x08 : Nat) = 0x08) ∧
    scenarioState.setOSR 0x08 scenarioHistory =
      (0, { scenarioState with _osr := 0x08 }, scenarioHistory) ∧
    (∀ st out' ev, ({ scenarioState with _osr := 0x08 } : Ms5611).getTempPress 11 ⟨0, 0⟩
        scenarioHistory = some (st, out', scenarioHistory ++ ev) → StepsSucceeded ev) ∧
    ∃ out' ev, ({ scenarioState with _osr := 0x08 } : Ms5611).getTempPress 11 ⟨0, 0⟩
          scenarioHistory = some (0, out', scenarioHistory ++ ev) ∧
        busCommands ev =
          [BusOp.write (0x40 ||| 0x08), BusOp.write 0x00,
           BusOp.requestFrom scenarioState._address 3,
           BusOp.write (0x50 ||| 0x08), BusOp.write 0x00,
           BusOp.requestFrom scenarioState._address 3] :=
  have hsteps : ∀ st out' ev,
      ({ scenarioState with _osr := 0x08 } : Ms5611).getTempPress 11 ⟨0, 0⟩
        scenarioHistory = some (st, out', scenarioHistory ++ ev) → StepsSucceeded ev := by
    intro st out' ev h
    rw [scenario_measure_4096] at h
    simp only [Option.some.injEq, Prod.mk.injEq] at h
    obtain rfl := List.append_cancel_left h.2.2
    decide
  ⟨by decide, (setOSR_accepts scenarioState 0x08 scenarioHistory (by decide)).1, hsteps,
    (setOSR_accepts scenarioState 0x08 scenarioHistory (by decide)).2 scenario.wire 11 ⟨0, 0⟩
      rfl (by decide) hsteps⟩

/-! ## Failure of a measurement -/

/-- C4: whenever `getTempPress` returns a non-zero status, whatever the driver state
and the transport, the two output locations hold the values they held before the
call. -/
theorem getTempPress_failure_keeps_outputs (s : Ms5611) (fuel : Nat) (out : Readings)
    (tr : Trace) (st : Nat) (out' : Readings) (tr' : Trace)
    (h : s.getTempPress fuel out tr = some (st, out', tr')) (hst : st ≠ 0) : out' = out := by
  unfold Ms5611.getTempPress at h
  split at h
  · simp at h
  · split at h
    · simp only [Option.some.injEq, Prod.mk.injEq] at h
      exact h.2.1.symm
    · split at h
      · simp at h
      · split at h
        · simp only [Option.some.injEq, Prod.mk.injEq] at h
          exact h.2.1.symm
        · simp only [Option.some.injEq, Prod.mk.injEq] at h
          exact absurd h.1.symm hst

/-- C4, witness: a measurement on a bus that answers the pressure conversion command
with status 2, with outputs holding 25 and 1000 before the call. -/
theorem getTempPress_failure_keeps_outputs_witness :
    ((Ms5611.fresh.attach deadBus.wire 0x77).getTempPress 11 ⟨25, 1000⟩ [] =
        some (1, ⟨25, 1000⟩,
          [BusOp.beginTransmission 0x77, BusOp.write 0x40, BusOp.endTransmission 2]) ∧
      (1 : Nat) ≠ 0) ∧
    (⟨25, 1000⟩ : Readings) = ⟨25, 1000⟩ :=
  ⟨⟨rfl, by decide⟩,
    getTempPress_failure_keeps_outputs (Ms5611.fresh.attach deadBus.wire 0x77) 11 ⟨25, 1000⟩ []
      1 ⟨25, 1000⟩ [BusOp.beginTransmission 0x77, BusOp.write 0x40, BusOp.endTransmission 2]
      rfl (by decide)⟩

/-- C5, evaluation of the code: against a sensor that answers both Read-ADC command
bytes with end-transmission status 2 and then serves the 3-byte requests, the run
of `getTempPress` contains failed transport steps and yet returns 0, not 1:
`readBytes` discards the status of its `writeCommand` call. -/
theorem getTempPress_ignores_read_command_status :
    (∃ out', ({ scenarioState with ms5611Wire := some nackAdc.wire } : Ms5611).getTempPress 11
        ⟨0, 0⟩ [] =
      some (0, out',
        acquireEvents 0x77 0x40 2 138 162 26 ++ acquireEvents 0x77 0x50 2 130 193 62)) ∧
    ¬ StepsSucceeded
      (acquireEvents 0x77 0x40 2 138 162 26 ++ acquireEvents 0x77 0x50 2 130 193 62) :=
  ⟨⟨_, rfl⟩, by decide⟩

/-! ## Status codes -/

/-- C9, counterexample: on a bus that ends the reset transmission with status 2,
`reset` returns 2, which is neither 0 nor 1. -/
theorem reset_status_counterexample :
    (Ms5611.fresh.attach deadBus.wire 0x77).reset [] =
        some (2, [BusOp.beginTransmission 0x77, BusOp.write 0x1E, BusOp.endTransmission 2]) ∧
      ¬ ((2 : Nat) = 0 ∨ (2 : Nat) = 1) :=
  ⟨rfl, by decide⟩

/-- C9, amended: for every transport behaviour `init` and `setOSR` return 0 or 1 in
every driver state, bound to a bus or not; in every driver state with a bound bus
handle `getTempPress` returns 0 or 1 and `reset` returns the end-transmission
status of the reset command as it is. -/
theorem status_codes (s : Ms5611) (wire : TwoWire) (address osr fuel : Nat)
    (out : Readings) (tr : Trace) (hfuel : 10 < fuel) :
    (∃ st s' tr', s.init wire address fuel tr = some (st, s', tr') ∧ (st = 0 ∨ st = 1)) ∧
    ((s.setOSR osr tr).1 = 0 ∨ (s.setOSR osr tr).1 = 1) ∧
    ∀ w : TwoWire, s.ms5611Wire = some w →
      (∃ st out' tr', s.getTempPress fuel out tr = some (st, out', tr') ∧
        (st = 0 ∨ st = 1)) ∧
      s.reset tr =
        some (toU8 (w.endTransmission
            (tr ++ [BusOp.beginTransmission s._address, BusOp.write 0x1E])),
          tr ++ [BusOp.beginTransmission s._address, BusOp.write 0x1E,
            BusOp.endTransmission (toU8 (w.endTransmission
              (tr ++ [BusOp.beginTransmission s._address, BusOp.write 0x1E])))]) := by
  refine ⟨?_, ?_, ?_⟩
  · obtain ⟨st, s', ev, hrun, hst, -⟩ := init_spec s wire address hfuel tr
    exact ⟨st, s', _, hrun, hst⟩
  · unfold Ms5611.setOSR
    split
    · exact Or.inl rfl
    · exact Or.inr rfl
  · intro w hw
    refine ⟨?_, ?_⟩
    · obtain ⟨st, out', ev, hrun, hst, -⟩ := getTempPress_spec hw hfuel out tr
      exact ⟨st, out', _, hrun, hst⟩
    · simpa [Ms5611.reset, MS5611_CMD_RESET] using writeCommand_bound hw MS5611_CMD_RESET tr

/-- C9, witness: `init` and `setOSR` on a fresh driver, whose bus handle is not
bound, with a dead bus passed to `init`; `getTempPress` and `reset` on the
initialised driver of the scenario. -/
theorem status_codes_witness :
    (10 < 11 ∧ Ms5611.fresh.ms5611Wire = none ∧
      scenarioState.ms5611Wire = some scenario.wire) ∧
    (∃ st s' tr', Ms5611.fresh.init deadBus.wire 0x77 11 [] = some (st, s', tr') ∧
      (st = 0 ∨ st = 1)) ∧
    ((Ms5611.fresh.setOSR 0x0A []).1 = 0 ∨ (Ms5611.fresh.setOSR 0x0A []).1 = 1) ∧
    (∃ st out' tr', scenarioState.getTempPress 11 ⟨0, 0⟩ scenarioHistory =
        some (st, out', tr') ∧ (st = 0 ∨ st = 1)) ∧
    scenarioState.reset scenarioHistory =
      some (toU8 (scenario.wire.endTransmission
          (scenarioHistory ++
            [BusOp.beginTransmission scenarioState._address, BusOp.write 0x1E])),
        scenarioHistory ++ [BusOp.beginTransmission scenarioState._address, BusOp.write 0x1E,
          BusOp.endTransmission (toU8 (scenario.wire.endTransmission
            (scenarioHistory ++
              [BusOp.beginTransmission scenarioState._address, BusOp.write 0x1E])))]) :=
  ⟨⟨by decide, rfl, rfl⟩,
    (status_codes Ms5611.fresh deadBus.wire 0x77 0x0A 11 ⟨0, 0⟩ [] (by decide)).1,
    (status_codes Ms5611.fresh deadBus.wire 0x77 0x0A 11 ⟨0, 0⟩ [] (by decide)).2.1,
    (status_codes scenarioState deadBus.wire 0x77 0x0A 11 ⟨0, 0⟩ scenarioHistory
      (by decide)).2.2 scenario.wire rfl⟩

/-! ## Compensation -/

theorem datasheetCoefficients_values :
    datasheetCoefficients 1 = 40127 ∧ datasheetCoefficients 2 = 36924 ∧
    datasheetCoefficients 3 = 23317 ∧ datasheetCoefficients 4 = 23282 ∧
    datasheetCoefficients 5 = 33464 ∧ datasheetCoefficients 6 = 28312 :=
  ⟨rfl, rfl, rfl, rfl, rfl, rfl⟩

theorem scenarioState_values :
    scenarioState.C 1 = 1 ∧ scenarioState.C 2 = 2 ∧ scenarioState.C 3 = 3 ∧
    scenarioState.C 4 = 4 ∧ scenarioState.C 5 = 5 ∧ scenarioState.C 6 = 6 :=
  ⟨rfl, rfl, rfl, rfl, rfl, rfl⟩

/-- The measurement of the end-to-end scenario: it delivers the bytes of
D1 = 9085466 and D2 = 8569150. -/
theorem scenario_measure :
    scenarioState.getTempPress 11 ⟨0, 0⟩ scenarioHistory =
      some (0, compensation scenarioState.C 9085466 8569150,
        scenarioHistory ++ (acquireEvents 0x77 0x40 0 138 162 26 ++
          acquireEvents 0x77 0x50 0 130 193 62)) :=
  rfl

theorem scenario_temperature :
    (compensation scenarioState.C 9085466 8569150).temperature * 100 =
      4207155805 / 2097152 := by
  obtain ⟨h1, h2, h3, h4, h5, h6⟩ := scenarioState_values
  norm_num [compensation, h1, h2, h3, h4, h5, h6, u32sub, u32mul, toU32]

theorem scenario_pressure :
    (compensation scenarioState.C 9085466 8569150).pressure * 100 =
      23907484419001 / 4398046511104 := by
  obtain ⟨h1, h2, h3, h4, h5, h6⟩ := scenarioState_values
  norm_num [compensation, h1, h2, h3, h4, h5, h6, u32sub, u32mul, toU32]

/-- With the calibration words of the data sheet instead of 1 to 6, the raw values
of the scenario give TEMP = 2007.98 and P = 100009.07, whose integer parts are the
outputs 2007 and 100009 printed in the data sheet. -/
theorem datasheet_example :
    ⌊(compensation datasheetCoefficients 9085466 8569150).temperature * 100⌋ = 2007 ∧
    ⌊(compensation datasheetCoefficients 9085466 8569150).pressure * 100⌋ = 100009 := by
  obtain ⟨h1, h2, h3, h4, h5, h6⟩ := datasheetCoefficients_values
  constructor
  · rw [Int.floor_eq_iff]
    norm_num [compensation, h1, h2, h3, h4, h5, h6, u32sub, u32mul, toU32]
  · rw [Int.floor_eq_iff]
    norm_num [compensation, h1, h2, h3, h4, h5, h6, u32sub, u32mul, toU32]

/-- C2, counterexample: in the end-to-end scenario (PROM words 1 to 6, D1 = 9085466,
D2 = 8569150) `init` and `getTempPress` return 0, but the temperature output is not
20.07 and the pressure output is not 1000.09, nor are 2007 and 100009 the integer
parts of TEMP and P. -/
theorem scenario_counterexample :
    Ms5611.fresh.init scenario.wire 0x77 11 [] = some (0, scenarioState, scenarioHistory) ∧
    ∃ out ev, scenarioState.getTempPress 11 ⟨0, 0⟩ scenarioHistory =
        some (0, out, scenarioHistory ++ ev) ∧
      bytesRead ev = [138, 162, 26, 130, 193, 62] ∧
      adcValue [138, 162, 26] = 9085466 ∧ adcValue [130, 193, 62] = 8569150 ∧
      out.temperature ≠ 2007 / 100 ∧ out.pressure ≠ 100009 / 100 ∧
      ⌊out.temperature * 100⌋ ≠ 2007 ∧ ⌊out.pressure * 100⌋ ≠ 100009 := by
  refine ⟨scenario_init, _, _, scenario_measure, rfl, rfl, rfl, ?_, ?_, ?_, ?_⟩
  · intro h
    have := scenario_temperature
    rw [h] at this
    norm_num at this
  · intro h
    have := scenario_pressure
    rw [h] at this
    norm_num at this
  · rw [scenario_temperature, ne_eq, Int.floor_eq_iff]
    norm_num
  · rw [scenario_pressure, ne_eq, Int.floor_eq_iff]
    norm_num

/-- C2, amended: in the end-to-end scenario (PROM words 1 to 6, D1 = 9085466,
D2 = 8569150) `init` and `getTempPress` return 0 with
TEMP = 4207155805 / 2097152 (about 2006.13, temperature output about 20.06) and
P = 23907484419001 / 4398046511104 (about 5.44, pressure output about 0.054). -/
theorem scenario_result :
    Ms5611.fresh.init scenario.wire 0x77 11 [] = some (0, scenarioState, scenarioHistory) ∧
    ∃ out ev, scenarioState.getTempPress 11 ⟨0, 0⟩ scenarioHistory =
        some (0, out, scenarioHistory ++ ev) ∧
      bytesRead ev = [138, 162, 26, 130, 193, 62] ∧
      adcValue [138, 162, 26] = 9085466 ∧ adcValue [130, 193, 62] = 8569150 ∧
      out.temperature * 100 = 4207155805 / 2097152 ∧
      out.pressure * 100 = 23907484419001 / 4398046511104 ∧
      ⌊out.temperature * 100⌋ = 2006 ∧ ⌊out.pressure * 100⌋ = 5 := by
  refine ⟨scenario_init, _, _, scenario_measure, rfl, rfl, rfl, scenario_temperature,
    scenario_pressure, ?_, ?_⟩
  · rw [scenario_temperature, Int.floor_eq_iff]
    norm_num
  · rw [scenario_pressure, Int.floor_eq_iff]
    norm_num

/-- C1, evaluation of the code: with the calibration words of the data sheet and a
raw temperature D2 = 8500000 below `C5 * 256 = 8566784`, every transport step
succeeds, `getTempPress` returns 0 and writes the temperature
475054689499 / 3276800 (about 144975 degrees), whereas the reference formula with
signed `dT = -66784` gives 3717251279 / 209715200 (about 17.73 degrees): the
difference `D2 - C[5] * 256` is taken in `uint32_t` and wraps to `2^32 - 66784`. -/
theorem getTempPress_cold_temperature :
    (∃ ev, coldState.getTempPress 11 ⟨0, 0⟩ [] =
        some (0, compensation datasheetCoefficients 9085466 8500000, ev) ∧
      StepsSucceeded ev ∧
      bytesRead ev = [138, 162, 26, 129, 179, 32] ∧
      adcValue [138, 162, 26] = 9085466 ∧ adcValue [129, 179, 32] = 8500000) ∧
    (compensation datasheetCoefficients 9085466 8500000).temperature =
      475054689499 / 3276800 ∧
    (referenceFormula datasheetCoefficients 9085466 8500000).temperature =
      3717251279 / 209715200 := by
  obtain ⟨h1, h2, h3, h4, h5, h6⟩ := datasheetCoefficients_values
  refine ⟨⟨acquireEvents 0x77 0x40 0 138 162 26 ++ acquireEvents 0x77 0x50 0 129 179 32,
    rfl, by decide, rfl, rfl, rfl⟩, ?_, ?_⟩
  · norm_num [compensation, h5, h6, u32sub, u32mul, toU32]
  · norm_num [referenceFormula, h5, h6]

/-! ## Facts that need no fuel bound -/

theorem compensation_parts (C : Fin 7 → Nat) (D1 D2 : Nat) :
    compensation C D1 D2 =
      { temperature := (codeTEMP C D2 - (secondOrder C D2).1) / 100,
        pressure := (((D1 : ℚ) * ((u32mul (C 1) 32768 : ℚ) + (C 3 : ℚ) * codeDT C D2 / 256 -
            (secondOrder C D2).2.2) / 2097152 -
          ((u32mul (C 2) 65536 : ℚ) + (C 4 : ℚ) * codeDT C D2 / 128 -
            (secondOrder C D2).2.1)) / 32768) / 100 } := rfl

theorem codeDT_nonneg (C : Fin 7 → Nat) (D2 : Nat) : 0 ≤ codeDT C D2 := by
  unfold codeDT
  exact Nat.cast_nonneg _

/-- The first-order `TEMP` of the code is never below 2000, because `dT` is the
conversion of an unsigned value. -/
theorem codeTEMP_ge (C : Fin 7 → Nat) (D2 : Nat) : 2000 ≤ codeTEMP C D2 := by
  unfold codeTEMP
  have h1 := codeDT_nonneg C D2
  have h2 : (0 : ℚ) ≤ (C 6 : ℚ) := Nat.cast_nonneg _
  have : 0 ≤ codeDT C D2 * (C 6 : ℚ) / 8388608 := by positivity
  linarith

theorem secondOrder_zero (C : Fin 7 → Nat) (D2 : Nat) : secondOrder C D2 = (0, 0, 0) := by
  unfold secondOrder
  rw [if_neg (not_lt.mpr (codeTEMP_ge C D2))]

/-- An operation that uses the bus returns nothing on an unbound bus handle. -/
theorem writeCommand_unbound {s : Ms5611} (hw : s.ms5611Wire = none) (command : Nat)
    (tr : Trace) : s.writeCommand command tr = none := by
  simp [Ms5611.writeCommand, hw]

theorem getTempPress_unbound {s : Ms5611} (hw : s.ms5611Wire = none) (fuel : Nat)
    (out : Readings) (tr : Trace) : s.getTempPress fuel out tr = none := by
  simp [Ms5611.getTempPress, Ms5611.acquire, writeCommand_unbound hw]

/-- The outcomes of one acquisition block, whatever the fuel: status 1 with no byte
read, after the conversion command alone or after the conversion command, the
Read-ADC command and the request; or status 0 with the three bytes read. -/
theorem acquire_shape {s : Ms5611} {w : TwoWire} (hw : s.ms5611Wire = some w)
    (convert fuel : Nat) (tr : Trace) (st D : Nat) (tr' : Trace)
    (h : s.acquire convert fuel tr = some (st, D, tr')) :
    ∃ ev, tr' = tr ++ ev ∧
      ((st = 1 ∧ bytesRead ev = [] ∧
          (busCommands ev = [BusOp.write (toU8 (convert ||| s._osr))] ∨
            busCommands ev = [BusOp.write (toU8 (convert ||| s._osr)), BusOp.write 0x00,
              BusOp.requestFrom s._address 3])) ∨
        (st = 0 ∧
          busCommands ev = [BusOp.write (toU8 (convert ||| s._osr)), BusOp.write 0x00,
            BusOp.requestFrom s._address 3] ∧
          ∃ b0 b1 b2, b0 < 256 ∧ b1 < 256 ∧ b2 < 256 ∧ bytesRead ev = [b0, b1, b2] ∧
            D = b0 * 65536 + b1 * 256 + b2)) := by
  simp only [Ms5611.acquire, writeCommand_bound hw] at h
  by_cases hst : toU8 (w.endTransmission
      (tr ++ [BusOp.beginTransmission s._address, BusOp.write (toU8 (convert ||| s._osr))])) = 0
  · simp only [hst, ne_eq, not_true_eq_false, if_false, readBytes_bound hw] at h
    cases hp : pollAvailable w 3 10 fuel 0 (readRequest w s._address MS5611_CMD_READ_ADC 3
        (tr ++ [BusOp.beginTransmission s._address,
          BusOp.write (toU8 (convert ||| s._osr)), BusOp.endTransmission 0] ++
          [BusOp.delay MS5611_TIME_ADC_CONVERT])) with
    | none => rw [hp] at h; simp at h
    | some r =>
      obtain ⟨b, h3⟩ := r
      rw [hp] at h
      obtain ⟨pe, rfl, hc, hb, -, -⟩ := pollAvailable_events w 3 10 fuel 0 _ b h3 hp
      cases b with
      | true =>
        simp only [ne_eq, one_ne_zero, not_false_eq_true, if_true, Option.some.injEq,
          Prod.mk.injEq] at h
        obtain ⟨rfl, -, rfl⟩ := h
        refine ⟨[BusOp.beginTransmission s._address,
          BusOp.write (toU8 (convert ||| s._osr)), BusOp.endTransmission 0,
          BusOp.delay MS5611_TIME_ADC_CONVERT] ++
          requestEvents w s._address MS5611_CMD_READ_ADC 3
            (tr ++ [BusOp.beginTransmission s._address,
              BusOp.write (toU8 (convert ||| s._osr)), BusOp.endTransmission 0] ++
              [BusOp.delay MS5611_TIME_ADC_CONVERT]) ++ pe, ?_, Or.inl ⟨rfl, ?_, Or.inr ?_⟩⟩
        · simp [readRequest, List.append_assoc]
        · rw [bytesRead_append, hb, bytesRead_append]
          simp [bytesRead, requestEvents, BusOp.delivered]
        · rw [busCommands_append, hc, busCommands_append]
          simp [busCommands, requestEvents, BusOp.isCommand, MS5611_CMD_READ_ADC]
      | false =>
        obtain ⟨b0, b1, b2, rd, hb0, hb1, hb2, hd, hdc, hdb, -⟩ :=
          drain_three w [0, 0, 0] (readRequest w s._address MS5611_CMD_READ_ADC 3
            (tr ++ [BusOp.beginTransmission s._address,
              BusOp.write (toU8 (convert ||| s._osr)), BusOp.endTransmission 0] ++
              [BusOp.delay MS5611_TIME_ADC_CONVERT]) ++ pe) rfl
        simp only [hd, ne_eq, not_true_eq_false, if_false, Option.some.injEq,
          Prod.mk.injEq] at h
        obtain ⟨rfl, rfl, rfl⟩ := h
        refine ⟨[BusOp.beginTransmission s._address,
          BusOp.write (toU8 (convert ||| s._osr)), BusOp.endTransmission 0,
          BusOp.delay MS5611_TIME_ADC_CONVERT] ++
          requestEvents w s._address MS5611_CMD_READ_ADC 3
            (tr ++ [BusOp.beginTransmission s._address,
              BusOp.write (toU8 (convert ||| s._osr)), BusOp.endTransmission 0] ++
              [BusOp.delay MS5611_TIME_ADC_CONVERT]) ++ pe ++ rd, ?_,
          Or.inr ⟨rfl, ?_, b0, b1, b2, hb0, hb1, hb2, ?_, adcValue_eq hb0 hb1 hb2⟩⟩
        · simp [readRequest, List.append_assoc]
        · rw [busCommands_append, hdc, busCommands_append, hc, busCommands_append]
          simp [busCommands, requestEvents, BusOp.isCommand, MS5611_CMD_READ_ADC]
        · rw [bytesRead_append, hdb, bytesRead_append, hb, bytesRead_append]
          simp [bytesRead, requestEvents, BusOp.delivered]
  · simp only [hst, ne_eq, not_false_eq_true, if_true, Option.some.injEq,
      Prod.mk.injEq] at h
    obtain ⟨rfl, -, rfl⟩ := h
    refine ⟨[BusOp.beginTransmission s._address, BusOp.write (toU8 (convert ||| s._osr)),
      BusOp.endTransmission (toU8 (w.endTransmission
        (tr ++ [BusOp.beginTransmission s._address,
          BusOp.write (toU8 (convert ||| s._osr))])))], by simp, Or.inl ⟨rfl, ?_, Or.inl ?_⟩⟩
    · simp [bytesRead, BusOp.delivered]
    · simp [busCommands, BusOp.isCommand]

/-- The outcomes of `getTempPress`, whatever the fuel: the bus commands issued are a
non-empty initial part of the commands of a complete measurement; with status 1
the outputs are untouched and fewer than 6 bytes were read; with status 0 the
measurement is complete, 6 bytes were read and the outputs hold their
compensation. -/
theorem getTempPress_shape {s : Ms5611} {w : TwoWire} (hw : s.ms5611Wire = some w)
    (fuel : Nat) (out : Readings) (tr : Trace) (st : Nat) (out' : Readings) (tr' : Trace)
    (h : s.getTempPress fuel out tr = some (st, out', tr')) :
    ∃ ev n, tr' = tr ++ ev ∧ 0 < n ∧
      busCommands ev = (measureCommands s._address
        (toU8 (MS5611_CMD_CONVERT_D1 ||| s._osr))
        (toU8 (MS5611_CMD_CONVERT_D2 ||| s._osr))).take n ∧
      ((st = 1 ∧ out' = out ∧ (bytesRead ev).length < 6) ∨
        (st = 0 ∧ n = 6 ∧
          ∃ p0 p1 p2 t0 t1 t2, p0 < 256 ∧ p1 < 256 ∧ p2 < 256 ∧
            t0 < 256 ∧ t1 < 256 ∧ t2 < 256 ∧
            bytesRead ev = [p0, p1, p2, t0, t1, t2] ∧
            out' = compensation s.C (p0 * 65536 + p1 * 256 + p2)
              (t0 * 65536 + t1 * 256 + t2))) := by
  unfold Ms5611.getTempPress at h
  cases h1 : s.acquire MS5611_CMD_CONVERT_D1 fuel tr with
  | none => rw [h1] at h; simp at h
  | some r1 =>
    obtain ⟨st1, D1, tr1⟩ := r1
    rw [h1] at h
    obtain ⟨ev1, rfl, hcase1⟩ := acquire_shape hw _ _ _ _ _ _ h1
    rcases hcase1 with ⟨rfl, hb1, hc1⟩ | ⟨rfl, hc1, p0, p1, p2, hp0, hp1, hp2, hb1, rfl⟩
    · simp only [ne_eq, one_ne_zero, not_false_eq_true, if_true, Option.some.injEq,
        Prod.mk.injEq] at h
      obtain ⟨rfl, rfl, rfl⟩ := h
      rcases hc1 with hc1 | hc1
      · exact ⟨ev1, 1, rfl, by decide, by rw [hc1]; rfl, Or.inl ⟨rfl, rfl, by simp [hb1]⟩⟩
      · exact ⟨ev1, 3, rfl, by decide, by rw [hc1]; rfl, Or.inl ⟨rfl, rfl, by simp [hb1]⟩⟩
    · simp only [ne_eq, not_true_eq_false, if_false] at h
      cases h2 : s.acquire MS5611_CMD_CONVERT_D2 fuel (tr ++ ev1) with
      | none => rw [h2] at h; simp at h
      | some r2 =>
        obtain ⟨st2, D2, tr2⟩ := r2
        rw [h2] at h
        obtain ⟨ev2, rfl, hcase2⟩ := acquire_shape hw _ _ _ _ _ _ h2
        rcases hcase2 with ⟨rfl, hb2, hc2⟩ | ⟨rfl, hc2, t0, t1, t2, ht0, ht1, ht2, hb2, rfl⟩
        · simp only [ne_eq, one_ne_zero, not_false_eq_true, if_true, Option.some.injEq,
            Prod.mk.injEq] at h
          obtain ⟨rfl, rfl, rfl⟩ := h
          rcases hc2 with hc2 | hc2
          · exact ⟨ev1 ++ ev2, 4, by simp, by decide,
              by rw [busCommands_append, hc1, hc2]; rfl,
              Or.inl ⟨rfl, rfl, by simp [bytesRead_append, hb1, hb2]⟩⟩
          · exact ⟨ev1 ++ ev2, 6, by simp, by decide,
              by rw [busCommands_append, hc1, hc2]; rfl,
              Or.inl ⟨rfl, rfl, by simp [bytesRead_append, hb1, hb2]⟩⟩
        · simp only [ne_eq, not_true_eq_false, if_false, Option.some.injEq,
            Prod.mk.injEq] at h
          obtain ⟨rfl, rfl, rfl⟩ := h
          exact ⟨ev1 ++ ev2, 6, by simp, by decide,
            by rw [busCommands_append, hc1, hc2]; rfl,
            Or.inr ⟨rfl, rfl, p0, p1, p2, t0, t1, t2, hp0, hp1, hp2, ht0, ht1, ht2,
              by simp [bytesRead_append, hb1, hb2], rfl⟩⟩

/-- A result of `getTempPress` shows that the bus handle is bound. -/
theorem getTempPress_bound {s : Ms5611} {fuel : Nat} {out : Readings} {tr : Trace}
    {r : Nat × Readings × Trace} (h : s.getTempPress fuel out tr = some r) :
    ∃ w, s.ms5611Wire = some w := by
  cases hw : s.ms5611Wire with
  | none => rw [getTempPress_unbound hw] at h; simp at h
  | some w => exact ⟨w, rfl⟩

/-! ## State invariants of the public calls -/

theorem drain_lt (w : TwoWire) :
    ∀ (n i : Nat) (dest : List Nat) (h : Trace), (∀ x ∈ dest, x < 256) →
      ∀ x ∈ (drain w n i dest h).1, x < 256 := by
  intro n
  induction n with
  | zero => intro i dest h hd x hx; exact hd x (by simpa [drain] using hx)
  | succ n ih =>
    intro i dest h hd x hx
    simp only [drain] at hx
    refine ih _ _ _ ?_ x hx
    intro y hy
    rcases List.mem_or_eq_of_mem_set hy with hy | rfl
    · exact hd y hy
    · exact intToU8_lt _

/-- The buffer returned by `readBytes` holds bytes when the buffer passed in does. -/
theorem readBytes_lt {s : Ms5611} {reg : Nat} {dest : List Nat} {len retries fuel : Nat}
    {tr : Trace} {st : Nat} {d : List Nat} {tr' : Trace}
    (h : s.readBytes reg dest len retries fuel tr = some (st, d, tr'))
    (hd : ∀ x ∈ dest, x < 256) : ∀ x ∈ d, x < 256 := by
  cases hw : s.ms5611Wire with
  | none => simp [Ms5611.readBytes, hw] at h
  | some w =>
    rw [readBytes_bound hw] at h
    cases hp : pollAvailable w len retries fuel 0 (readRequest w s._address reg len tr) with
    | none => rw [hp] at h; simp at h
    | some r =>
      obtain ⟨b, h3⟩ := r
      rw [hp] at h
      cases b with
      | true =>
        simp only [Option.some.injEq, Prod.mk.injEq] at h
        obtain ⟨-, rfl, -⟩ := h
        exact hd
      | false =>
        simp only [Option.some.injEq, Prod.mk.injEq] at h
        obtain ⟨-, rfl, -⟩ := h
        exact drain_lt w _ _ _ _ hd

theorem getD_lt {d : List Nat} (hd : ∀ x ∈ d, x < 256) (i : Nat) : d.getD i 0 < 256 := by
  rw [List.getD_eq_getElem?_getD]
  cases hi : d[i]? with
  | none => simp
  | some x => simpa using hd x (List.getElem?_mem hi)

/-- The coefficient loop of `init`, whatever its outcome and the fuel: it keeps the
oversampling setting, the address and the bus handle, and every coefficient stays
below 65536 when every coefficient was below 65536. -/
theorem readCoefficients_invariant (fuel : Nat) :
    ∀ (regs : List (Fin 7)) (s : Ms5611) (tr : Trace) (st : Nat) (s' : Ms5611) (tr' : Trace),
      Ms5611.readCoefficients fuel regs s tr = some (st, s', tr') →
      s'._osr = s._osr ∧ s'._address = s._address ∧ s'.ms5611Wire = s.ms5611Wire ∧
        ((∀ i, s.C i < 65536) → ∀ i, s'.C i < 65536) := by
  intro regs
  induction regs with
  | nil =>
    intro s tr st s' tr' h
    simp only [Ms5611.readCoefficients, Option.some.injEq, Prod.mk.injEq] at h
    obtain ⟨-, rfl, -⟩ := h
    exact ⟨rfl, rfl, rfl, fun hC => hC⟩
  | cons reg rest ih =>
    intro s tr st s' tr' h
    simp only [Ms5611.readCoefficients] at h
    cases hrb : s.readBytes (promCommand reg) [0, 0] 2 10 fuel tr with
    | none => rw [hrb] at h; simp at h
    | some r =>
      obtain ⟨st0, d, t1⟩ := r
      rw [hrb] at h
      by_cases hst : st0 = 0
      · subst hst
        simp only [ne_eq, not_true_eq_false, if_false] at h
        obtain ⟨h1, h2, h3, h4⟩ := ih _ _ _ _ _ h
        refine ⟨h1, h2, h3, fun hC => h4 ?_⟩
        intro i
        have hd : ∀ x ∈ d, x < 256 := readBytes_lt hrb (by simp)
        by_cases hi : i = reg
        · subst hi
          simp only [Function.update_same]
          rw [word_eq (getD_lt hd 0) (getD_lt hd 1)]
          have := getD_lt hd 0
          have := getD_lt hd 1
          omega
        · simp only [Function.update_noteq hi]
          exact hC i
      · simp only [ne_eq, hst, not_false_eq_true, if_true, Option.some.injEq,
          Prod.mk.injEq] at h
        obtain ⟨-, rfl, -⟩ := h
        exact ⟨rfl, rfl, rfl, fun hC => hC⟩

/-- `init`, whatever its outcome and the fuel: it keeps the oversampling setting,
binds the bus handle, and every coefficient stays below 65536 when every
coefficient was below 65536. -/
theorem init_invariant {s : Ms5611} {w : TwoWire} {address fuel : Nat} {tr : Trace}
    {st : Nat} {s' : Ms5611} {tr' : Trace}
    (h : s.init w address fuel tr = some (st, s', tr')) :
    s'._osr = s._osr ∧ s'.ms5611Wire = some w ∧
      ((∀ i, s.C i < 65536) → ∀ i, s'.C i < 65536) := by
  rw [init_unfold] at h
  by_cases hr : resetStatus w address tr = 0
  · simp only [hr, ne_eq, not_true_eq_false, if_false] at h
    obtain ⟨h1, -, h3, h4⟩ := readCoefficients_invariant fuel _ _ _ _ _ _ h
    exact ⟨h1, h3, h4⟩
  · simp only [ne_eq, hr, not_false_eq_true, if_true, Option.some.injEq,
      Prod.mk.injEq] at h
    obtain ⟨-, rfl, -⟩ := h
    exact ⟨rfl, rfl, fun hC => hC⟩

/-- `setOSR` never touches the coefficients or the bus handle, and the setting
after it is the setting before it or one of the five codes. -/
theorem setOSR_invariant (s : Ms5611) (osr : Nat) (tr : Trace) :
    (s.setOSR osr tr).2.1.C = s.C ∧ (s.setOSR osr tr).2.1.ms5611Wire = s.ms5611Wire ∧
      (s.setOSR osr tr).2.2 = tr ∧
      ((s.setOSR osr tr).2.1._osr = s._osr ∨ (s.setOSR osr tr).2.1._osr = 0x00 ∨
        (s.setOSR osr tr).2.1._osr = 0x02 ∨ (s.setOSR osr tr).2.1._osr = 0x04 ∨
        (s.setOSR osr tr).2.1._osr = 0x06 ∨ (s.setOSR osr tr).2.1._osr = 0x08) := by
  unfold Ms5611.setOSR
  split
  · rename_i hv
    simp only [MS5611_OSR_256, MS5611_OSR_512, MS5611_OSR_1024, MS5611_OSR_2048,
      MS5611_OSR_4096] at hv
    exact ⟨rfl, rfl, rfl, Or.inr hv⟩
  · exact ⟨rfl, rfl, rfl, Or.inl rfl⟩

/-- A call other than `init` keeps the coefficients. -/
theorem perform_coefficients {s : Ms5611} {fuel : Nat} {tr : Trace} {c : Call}
    {s' : Ms5611} {tr' : Trace} (h : s.perform fuel tr c = some (s', tr'))
    (hc : c.isInit = false) : s'.C = s.C := by
  cases c with
  | init wire address => simp [Call.isInit] at hc
  | reset =>
    simp only [Ms5611.perform] at h
    split at h
    · simp at h
    · simp only [Option.some.injEq, Prod.mk.injEq] at h
      rw [← h.1]
  | getTempPress out =>
    simp only [Ms5611.perform] at h
    split at h
    · simp at h
    · simp only [Option.some.injEq, Prod.mk.injEq] at h
      rw [← h.1]
  | setOSR osr =>
    simp only [Ms5611.perform, Option.some.injEq, Prod.mk.injEq] at h
    rw [← h.1]
    exact (setOSR_invariant s osr tr).1

/-- A call other than `setOSR` keeps the oversampling setting. -/
theorem perform_osr {s : Ms5611} {fuel : Nat} {tr : Trace} {c : Call}
    {s' : Ms5611} {tr' : Trace} (h : s.perform fuel tr c = some (s', tr'))
    (hc : c.isSetOSR = false) : s'._osr = s._osr := by
  cases c with
  | init wire address =>
    simp only [Ms5611.perform] at h
    split at h
    · simp at h
    · rename_i st s1 t1 hi
      simp only [Option.some.injEq, Prod.mk.injEq] at h
      rw [← h.1]
      exact (init_invariant hi).1
  | reset =>
    simp only [Ms5611.perform] at h
    split at h
    · simp at h
    · simp only [Option.some.injEq, Prod.mk.injEq] at h
      rw [← h.1]
  | getTempPress out =>
    simp only [Ms5611.perform] at h
    split at h
    · simp at h
    · simp only [Option.some.injEq, Prod.mk.injEq] at h
      rw [← h.1]
  | setOSR osr => simp [Call.isSetOSR] at hc

/-- The two invariants of the driver state: the oversampling setting is one of the
five codes and every coefficient is below 65536. -/
theorem perform_invariant {s : Ms5611} {fuel : Nat} {tr : Trace} {c : Call}
    {s' : Ms5611} {tr' : Trace} (h : s.perform fuel tr c = some (s', tr'))
    (hosr : s._osr = 0x00 ∨ s._osr = 0x02 ∨ s._osr = 0x04 ∨ s._osr = 0x06 ∨ s._osr = 0x08)
    (hC : ∀ i, s.C i < 65536) :
    (s'._osr = 0x00 ∨ s'._osr = 0x02 ∨ s'._osr = 0x04 ∨ s'._osr = 0x06 ∨ s'._osr = 0x08) ∧
      ∀ i, s'.C i < 65536 := by
  cases c with
  | init wire address =>
    simp only [Ms5611.perform] at h
    split at h
    · simp at h
    · rename_i st s1 t1 hi
      simp only [Option.some.injEq, Prod.mk.injEq] at h
      rw [← h.1]
      obtain ⟨h1, -, h3⟩ := init_invariant hi
      exact ⟨by rw [h1]; exact hosr, h3 hC⟩
  | reset =>
    rw [perform_coefficients h rfl, perform_osr h rfl]
    exact ⟨hosr, hC⟩
  | getTempPress out =>
    rw [perform_coefficients h rfl, perform_osr h rfl]
    exact ⟨hosr, hC⟩
  | setOSR osr =>
    rw [perform_coefficients h rfl]
    simp only [Ms5611.perform, Option.some.injEq, Prod.mk.injEq] at h
    rw [← h.1]
    refine ⟨?_, hC⟩
    rcases (setOSR_invariant s osr tr).2.2.2 with h0 | h0
    · rw [h0]; exact hosr
    · exact h0

theorem performAll_invariant (fuel : Nat) :
    ∀ (calls : List Call) (s : Ms5611) (tr : Trace) (s' : Ms5611) (tr' : Trace),
      Ms5611.performAll fuel calls s tr = some (s', tr') →
      (s._osr = 0x00 ∨ s._osr = 0x02 ∨ s._osr = 0x04 ∨ s._osr = 0x06 ∨ s._osr = 0x08) →
      (∀ i, s.C i < 65536) →
      (s'._osr = 0x00 ∨ s'._osr = 0x02 ∨ s'._osr = 0x04 ∨ s'._osr = 0x06 ∨
          s'._osr = 0x08) ∧
        ∀ i, s'.C i < 65536 := by
  intro calls
  induction calls with
  | nil =>
    intro s tr s' tr' h hosr hC
    simp only [Ms5611.performAll, Option.some.injEq, Prod.mk.injEq] at h
    rw [← h.1]
    exact ⟨hosr, hC⟩
  | cons c cs ih =>
    intro s tr s' tr' h hosr hC
    simp only [Ms5611.performAll] at h
    cases hp : s.perform fuel tr c with
    | none => rw [hp] at h; simp at h
    | some r =>
      obtain ⟨s1, t1⟩ := r
      rw [hp] at h
      obtain ⟨h1, h2⟩ := perform_invariant hp hosr hC
      exact ih _ _ _ _ h h1 h2

theorem performAll_osr (fuel : Nat) :
    ∀ (calls : List Call) (s : Ms5611) (tr : Trace) (s' : Ms5611) (tr' : Trace),
      Ms5611.performAll fuel calls s tr = some (s', tr') →
      (∀ c ∈ calls, c.isSetOSR = false) → s'._osr = s._osr := by
  intro calls
  induction calls with
  | nil =>
    intro s tr s' tr' h _
    simp only [Ms5611.performAll, Option.some.injEq, Prod.mk.injEq] at h
    rw [← h.1]
  | cons c cs ih =>
    intro s tr s' tr' h hc
    simp only [Ms5611.performAll] at h
    cases hp : s.perform fuel tr c with
    | none => rw [hp] at h; simp at h
    | some r =>
      obtain ⟨s1, t1⟩ := r
      rw [hp] at h
      rw [ih _ _ _ _ h (fun c' hc' => hc c' (List.mem_cons_of_mem _ hc')),
        perform_osr hp (hc c (List.mem_cons_self _ _))]

theorem performAll_coefficients (fuel : Nat) :
    ∀ (calls : List Call) (s : Ms5611) (tr : Trace) (s' : Ms5611) (tr' : Trace),
      Ms5611.performAll fuel calls s tr = some (s', tr') →
      (∀ c ∈ calls, c.isInit = false) → s'.C = s.C := by
  intro calls
  induction calls with
  | nil =>
    intro s tr s' tr' h _
    simp only [Ms5611.performAll, Option.some.injEq, Prod.mk.injEq] at h
    rw [← h.1]
  | cons c cs ih =>
    intro s tr s' tr' h hc
    simp only [Ms5611.performAll] at h
    cases hp : s.perform fuel tr c with
    | none => rw [hp] at h; simp at h
    | some r =>
      obtain ⟨s1, t1⟩ := r
      rw [hp] at h
      rw [ih _ _ _ _ h (fun c' hc' => hc c' (List.mem_cons_of_mem _ hc')),
        perform_coefficients hp (hc c (List.mem_cons_self _ _))]

/-! ## Default oversampling setting -/

/-- The first measurement after `init` on a fresh driver against the sensor of the
end-to-end scenario, as a sequence of public calls. -/
theorem scenario_calls :
    Ms5611.performAll 11 [Call.init scenario.wire 0x77] (Ms5611.constructed 0) [] =
      some (scenarioState, scenarioHistory) :=
  rfl

theorem scenario_measure_events :
    scenarioState.getTempPress 11 ⟨0, 0⟩ scenarioHistory =
      some (0, compensation scenarioState.C 9085466 8569150,
        scenarioHistory ++ scenarioMeasurement) :=
  rfl

/-- C11: a driver reached from a freshly constructed one by any calls other than
`setOSR` has the oversampling setting 0x00; once its bus handle is bound, every
`getTempPress` of it returns, having issued an initial part of the commands 0x40,
0x00, request, 0x50, 0x00, request that starts with the conversion command byte
0x40; it returns 0 whenever all its transport steps succeed, and when it returns 0
it has issued all six commands, with the conversion command bytes 0x40 and 0x50. -/
theorem default_oversampling (a : Nat) (tr0 : Trace) (calls : List Call) (fuel : Nat)
    (s : Ms5611) (tr : Trace) (hcalls : ∀ c ∈ calls, c.isSetOSR = false)
    (hrun : Ms5611.performAll fuel calls (Ms5611.constructed a) tr0 = some (s, tr)) :
    s._osr = 0x00 ∧
    ∀ (w : TwoWire) (fuel' : Nat) (out : Readings), s.ms5611Wire = some w → 10 < fuel' →
      ∃ st out' ev n, s.getTempPress fuel' out tr = some (st, out', tr ++ ev) ∧ 0 < n ∧
        busCommands ev = (measureCommands s._address 0x40 0x50).take n ∧
        (busCommands ev).head? = some (BusOp.write 0x40) ∧
        (StepsSucceeded ev → st = 0) ∧
        (st = 0 → busCommands ev = measureCommands s._address 0x40 0x50) := by
  have hosr : s._osr = 0x00 := performAll_osr fuel calls _ _ _ _ hrun hcalls
  refine ⟨hosr, ?_⟩
  intro w fuel' out hw hfuel
  obtain ⟨st, out', ev, h, -, -, hbad, -⟩ := getTempPress_spec hw hfuel out tr
  obtain ⟨e, n, htr, hn, hcmd, hcase⟩ := getTempPress_shape hw _ _ _ _ _ _ h
  have he : e = ev := (List.append_cancel_left htr).symm
  subst he
  have hc1 : toU8 (MS5611_CMD_CONVERT_D1 ||| s._osr) = 0x40 := by rw [hosr]; rfl
  have hc2 : toU8 (MS5611_CMD_CONVERT_D2 ||| s._osr) = 0x50 := by rw [hosr]; rfl
  rw [hc1, hc2] at hcmd
  refine ⟨st, out', e, n, h, hn, hcmd, ?_, ?_, ?_⟩
  · obtain ⟨m, rfl⟩ : ∃ m, n = m + 1 := ⟨n - 1, by omega⟩
    rw [hcmd]
    rfl
  · intro hs
    by_contra h0
    exact hbad h0 hs
  · intro h0
    rcases hcase with ⟨h1, -⟩ | ⟨-, h6, -⟩
    · omega
    · rw [hcmd, h6]
      rfl

/-- C11, witness: `init` on a fresh driver against the sensor of the end-to-end
scenario, followed by the first measurement. -/
theorem default_oversampling_witness :
    ((∀ c ∈ [Call.init scenario.wire 0x77], c.isSetOSR = false) ∧
      Ms5611.performAll 11 [Call.init scenario.wire 0x77] (Ms5611.constructed 0) [] =
        some (scenarioState, scenarioHistory) ∧
      scenarioState.ms5611Wire = some scenario.wire ∧ 10 < 11) ∧
    scenarioState._osr = 0x00 ∧
    ∃ st out' ev n,
      scenarioState.getTempPress 11 ⟨0, 0⟩ scenarioHistory =
        some (st, out', scenarioHistory ++ ev) ∧ 0 < n ∧
      busCommands ev = (measureCommands scenarioState._address 0x40 0x50).take n ∧
      (busCommands ev).head? = some (BusOp.write 0x40) ∧
      (StepsSucceeded ev → st = 0) ∧
      (st = 0 → busCommands ev = measureCommands scenarioState._address 0x40 0x50) :=
  have hcalls : ∀ c ∈ [Call.init scenario.wire 0x77], c.isSetOSR = false := by
    intro c hc
    rw [List.mem_singleton] at hc
    rw [hc]
    rfl
  ⟨⟨hcalls, scenario_calls, rfl, by decide⟩,
    (default_oversampling 0 [] [Call.init scenario.wire 0x77] 11 scenarioState
      scenarioHistory hcalls scenario_calls).1,
    (default_oversampling 0 [] [Call.init scenario.wire 0x77] 11 scenarioState
      scenarioHistory hcalls scenario_calls).2 scenario.wire 11 ⟨0, 0⟩ rfl (by decide)⟩

/-- C12, evaluation of the code: the member initialiser of `_osr` is
`MS5611_OSR_256` (0x00), not `MS5611_OSR_1024` (0x04) as the comment of `setOSR`
says: after `init` on a fresh driver the first measurement sends the pressure
conversion command byte 0x40, not 0x44. -/
theorem default_oversampling_not_1024 :
    (Ms5611.constructed 0)._osr = MS5611_OSR_256 ∧ MS5611_OSR_256 ≠ MS5611_OSR_1024 ∧
    Ms5611.performAll 11 [Call.init scenario.wire 0x77] (Ms5611.constructed 0) [] =
      some (scenarioState, scenarioHistory) ∧
    ∃ out ev, scenarioState.getTempPress 11 ⟨0, 0⟩ scenarioHistory =
        some (0, out, scenarioHistory ++ ev) ∧
      busCommands ev = measureCommands 0x77 0x40 0x50 ∧
      BusOp.write 0x44 ∉ ev :=
  ⟨rfl, by decide, scenario_calls, _, _, scenario_measure_events, rfl, by decide⟩

/-! ## Frame of the coefficients -/

/-- C13: whatever the driver state and the outcome of the calls, a sequence of calls
of `reset`, `setOSR` and `getTempPress` leaves all coefficients as they were; and
`init` can change them. -/
theorem coefficients_frame (s : Ms5611) (fuel : Nat) (tr : Trace) (calls : List Call)
    (s' : Ms5611) (tr' : Trace) (hcalls : ∀ c ∈ calls, c.isInit = false)
    (hrun : Ms5611.performAll fuel calls s tr = some (s', tr')) :
    s'.C = s.C ∧
    ∃ (s0 : Ms5611) (w : TwoWire) (address fuel0 : Nat) (t0 : Trace) (st : Nat)
      (s1 : Ms5611) (t1 : Trace),
      s0.init w address fuel0 t0 = some (st, s1, t1) ∧ s1.C ≠ s0.C :=
  ⟨performAll_coefficients fuel calls s tr s' tr' hrun hcalls,
    Ms5611.fresh, scenario.wire, 0x77, 11, [], 0, scenarioState, scenarioHistory,
    scenario_init, fun h => absurd (congrFun h 1) (by decide)⟩

/-- C13, witness: a reset, a rejected and an accepted `setOSR`, and a measurement on
the initialised driver of the scenario. -/
theorem coefficients_frame_witness :
    ((∀ c ∈ [Call.reset, Call.setOSR 0x0A, Call.setOSR 0x04, Call.getTempPress ⟨0, 0⟩],
        c.isInit = false) ∧
      Ms5611.performAll 11
          [Call.reset, Call.setOSR 0x0A, Call.setOSR 0x04, Call.getTempPress ⟨0, 0⟩]
          scenarioState scenarioHistory =
        some ({ scenarioState with _osr := 0x04 },
          scenarioHistory ++
            [BusOp.beginTransmission 0x77, BusOp.write 0x1E, BusOp.endTransmission 0] ++
            (acquireEvents 0x77 0x44 0 138 162 26 ++
              acquireEvents 0x77 0x54 0 130 193 62))) ∧
    ({ scenarioState with _osr := 0x04 } : Ms5611).C = scenarioState.C ∧
    ∃ (s0 : Ms5611) (w : TwoWire) (address fuel0 : Nat) (t0 : Trace) (st : Nat)
      (s1 : Ms5611) (t1 : Trace),
      s0.init w address fuel0 t0 = some (st, s1, t1) ∧ s1.C ≠ s0.C :=
  have hcalls : ∀ c ∈ [Call.reset, Call.setOSR 0x0A, Call.setOSR 0x04,
      Call.getTempPress ⟨0, 0⟩], c.isInit = false := by
    intro c hc
    simp only [List.mem_cons, List.mem_singleton, List.not_mem_nil, or_false] at hc
    rcases hc with rfl | rfl | rfl | rfl <;> rfl
  ⟨⟨hcalls, rfl⟩,
    coefficients_frame scenarioState 11 scenarioHistory
      [Call.reset, Call.setOSR 0x0A, Call.setOSR 0x04, Call.getTempPress ⟨0, 0⟩] _ _
      hcalls rfl⟩

/-! ## Repeated measurements -/

theorem scenario_measure_again (out : Readings) :
    scenarioState.getTempPress 11 out (scenarioHistory ++ scenarioMeasurement) =
      some (0, compensation scenarioState.C 9085466 8569150,
        scenarioHistory ++ scenarioMeasurement ++ scenarioMeasurement) :=
  rfl

/-- The status and the outputs of a measurement are determined by the coefficients,
the bytes read and the content of the output locations. -/
theorem getTempPress_determined {s : Ms5611} {fuel1 fuel2 : Nat} {out1 out2 : Readings}
    {tr1 tr2 ev1 ev2 : Trace} {st1 st2 : Nat} {o1 o2 : Readings}
    (h1 : s.getTempPress fuel1 out1 tr1 = some (st1, o1, tr1 ++ ev1))
    (h2 : s.getTempPress fuel2 out2 tr2 = some (st2, o2, tr2 ++ ev2))
    (hb : bytesRead ev1 = bytesRead ev2) :
    st2 = st1 ∧ (st1 = 0 → o2 = o1) ∧ (st1 ≠ 0 → o1 = out1 ∧ o2 = out2) := by
  obtain ⟨w, hw⟩ := getTempPress_bound h1
  obtain ⟨e1, n1, htr1, -, -, hc1⟩ := getTempPress_shape hw _ _ _ _ _ _ h1
  obtain ⟨e2, n2, htr2, -, -, hc2⟩ := getTempPress_shape hw _ _ _ _ _ _ h2
  have he1 : e1 = ev1 := (List.append_cancel_left htr1).symm
  have he2 : e2 = ev2 := (List.append_cancel_left htr2).symm
  subst he1 he2
  rcases hc1 with ⟨rfl, ho1, hl1⟩ | ⟨rfl, -, p0, p1, p2, t0, t1, t2, -, -, -, -, -, -, hb1, ho1⟩
  · rcases hc2 with ⟨rfl, ho2, -⟩ | ⟨-, -, q0, q1, q2, r0, r1, r2, -, -, -, -, -, -, hb2, -⟩
    · exact ⟨rfl, fun h => absurd h (by decide), fun _ => ⟨ho1, ho2⟩⟩
    · rw [hb, hb2] at hl1
      simp at hl1
  · rcases hc2 with ⟨-, -, hl2⟩ | ⟨rfl, -, q0, q1, q2, r0, r1, r2, -, -, -, -, -, -, hb2, ho2⟩
    · rw [← hb, hb1] at hl2
      simp at hl2
    · rw [hb1, hb2] at hb
      simp only [List.cons.injEq, and_true] at hb
      obtain ⟨rfl, rfl, rfl, rfl, rfl, rfl⟩ := hb
      exact ⟨rfl, fun _ => ho2.trans ho1.symm, fun h => absurd rfl h⟩

/-- C14: for every driver state bound to a bus, two consecutive `getTempPress` calls
both return; when the transport answers both with the same end-transmission
statuses and the same bytes, they return the same status, on status 0 they write
the same temperature and pressure, and on a non-zero status neither writes
anything. -/
theorem getTempPress_repeatable (s : Ms5611) (w : TwoWire) (fuel : Nat)
    (out out2 : Readings) (tr : Trace) (hw : s.ms5611Wire = some w) (hfuel : 10 < fuel)
    (hsame : ∀ st1 o1 ev1 st2 o2 ev2,
      s.getTempPress fuel out tr = some (st1, o1, tr ++ ev1) →
      s.getTempPress fuel out2 (tr ++ ev1) = some (st2, o2, tr ++ ev1 ++ ev2) →
      endStatuses ev1 = endStatuses ev2 ∧ bytesRead ev1 = bytesRead ev2) :
    ∃ st o1 o2 ev1 ev2,
      s.getTempPress fuel out tr = some (st, o1, tr ++ ev1) ∧
      s.getTempPress fuel out2 (tr ++ ev1) = some (st, o2, tr ++ ev1 ++ ev2) ∧
      (st = 0 → o2 = o1) ∧ (st ≠ 0 → o1 = out ∧ o2 = out2) := by
  obtain ⟨st1, o1, ev1, h1, -⟩ := getTempPress_spec hw hfuel out tr
  obtain ⟨st2, o2, ev2, h2, -⟩ := getTempPress_spec hw hfuel out2 (tr ++ ev1)
  obtain ⟨hst, hok, hbad⟩ := getTempPress_determined h1 h2 (hsame _ _ _ _ _ _ h1 h2).2
  subst hst
  exact ⟨st2, o1, o2, ev1, ev2, h1, h2, hok, hbad⟩

/-- C14, witness: two consecutive measurements on the initialised driver of the
end-to-end scenario, the second with other values in the output locations. -/
theorem getTempPress_repeatable_witness :
    (scenarioState.ms5611Wire = some scenario.wire ∧ 10 < 11 ∧
      ∀ st1 o1 ev1 st2 o2 ev2,
        scenarioState.getTempPress 11 ⟨0, 0⟩ scenarioHistory =
          some (st1, o1, scenarioHistory ++ ev1) →
        scenarioState.getTempPress 11 ⟨25, 1000⟩ (scenarioHistory ++ ev1) =
          some (st2, o2, scenarioHistory ++ ev1 ++ ev2) →
        endStatuses ev1 = endStatuses ev2 ∧ bytesRead ev1 = bytesRead ev2) ∧
    ∃ st o1 o2 ev1 ev2,
      scenarioState.getTempPress 11 ⟨0, 0⟩ scenarioHistory =
        some (st, o1, scenarioHistory ++ ev1) ∧
      scenarioState.getTempPress 11 ⟨25, 1000⟩ (scenarioHistory ++ ev1) =
        some (st, o2, scenarioHistory ++ ev1 ++ ev2) ∧
      (st = 0 → o2 = o1) ∧ (st ≠ 0 → o1 = ⟨0, 0⟩ ∧ o2 = ⟨25, 1000⟩) :=
  have hsame : ∀ st1 o1 ev1 st2 o2 ev2,
      scenarioState.getTempPress 11 ⟨0, 0⟩ scenarioHistory =
        some (st1, o1, scenarioHistory ++ ev1) →
      scenarioState.getTempPress 11 ⟨25, 1000⟩ (scenarioHistory ++ ev1) =
        some (st2, o2, scenarioHistory ++ ev1 ++ ev2) →
      endStatuses ev1 = endStatuses ev2 ∧ bytesRead ev1 = bytesRead ev2 := by
    intro st1 o1 ev1 st2 o2 ev2 h1 h2
    rw [scenario_measure_events] at h1
    simp only [Option.some.injEq, Prod.mk.injEq] at h1
    have he1 : ev1 = scenarioMeasurement := (List.append_cancel_left h1.2.2).symm
    subst he1
    rw [scenario_measure_again] at h2
    simp only [Option.some.injEq, Prod.mk.injEq] at h2
    have he2 : ev2 = scenarioMeasurement := (List.append_cancel_left h2.2.2).symm
    subst he2
    exact ⟨rfl, rfl⟩
  ⟨⟨rfl, by decide, hsame⟩,
    getTempPress_repeatable scenarioState scenario.wire 11 ⟨0, 0⟩ ⟨25, 1000⟩ scenarioHistory
      rfl (by decide) hsame⟩

/-! ## Timeout of a read -/

theorem pollCount_append (a b : Trace) : pollCount (a ++ b) = pollCount a + pollCount b := by
  simp [pollCount]

theorem readCount_append (a b : Trace) : readCount (a ++ b) = readCount a + readCount b := by
  simp [readCount]

/-- The unsuccessful polls extend the history by as many `available` calls and by no
`read` call. -/
theorem afterPolls_events (w : TwoWire) :
    ∀ (i : Nat) (h : Trace), ∃ pe, afterPolls w i h = h ++ pe ∧ pollCount pe = i ∧
      readCount pe = 0 ∧ bytesRead pe = [] := by
  intro i
  induction i with
  | zero => intro h; exact ⟨[], by simp [afterPolls], rfl, rfl, rfl⟩
  | succ i ih =>
    intro h
    obtain ⟨pe, hpe, hp, hr, hb⟩ :=
      ih (h ++ [BusOp.available (w.available h), BusOp.delay 2])
    refine ⟨[BusOp.available (w.available h), BusOp.delay 2] ++ pe, ?_, ?_, ?_, ?_⟩
    · rw [afterPolls, hpe, List.append_assoc]
    · rw [pollCount_append, hp]
      simp [pollCount]
      omega
    · rw [readCount_append, hr]
      simp [readCount]
    · rw [bytesRead_append, hb]
      rfl

/-- C15: for every register byte, length, destination buffer and retry budget below
2^32 - 1, on a bus on which the number of available bytes differs from the
requested length at each of the polls of the call, `readBytes` returns 1 after
exactly `retries + 1` calls of `available`, without any call of `read`, and with
the destination buffer as it was. -/
theorem readBytes_timeout (s : Ms5611) (w : TwoWire) (reg : Nat) (dest : List Nat)
    (len retries fuel : Nat) (tr : Trace) (hw : s.ms5611Wire = some w)
    (hr : retries < 4294967295) (hfuel : retries < fuel)
    (hstarve : ∀ i, i ≤ retries →
      intToU32 (w.available (afterPolls w i (readRequest w s._address reg len tr))) ≠
        toU32 len) :
    ∃ ev, s.readBytes reg dest len retries fuel tr = some (1, dest, tr ++ ev) ∧
      pollCount ev = retries + 1 ∧ readCount ev = 0 ∧ bytesRead ev = [] := by
  have hpoll := pollAvailable_starves w len retries hr retries fuel 0
    (readRequest w s._address reg len tr) (by omega) hfuel hstarve
  obtain ⟨pe, hpe, hp, hrd, hb⟩ :=
    afterPolls_events w retries (readRequest w s._address reg len tr)
  refine ⟨requestEvents w s._address reg len tr ++ pe ++
      [BusOp.available (w.available (afterPolls w retries
        (readRequest w s._address reg len tr)))], ?_, ?_, ?_, ?_⟩
  · have hreq : tr ++ [BusOp.beginTransmission s._address, BusOp.write reg,
        BusOp.endTransmission (toU8 (w.endTransmission
          (tr ++ [BusOp.beginTransmission s._address, BusOp.write reg])))] ++
        [BusOp.requestFrom s._address len] = readRequest w s._address reg len tr := by
      simp [readRequest, requestEvents]
    simp only [Ms5611.readBytes, hw, writeCommand_bound hw, hreq, hpoll]
    rw [hpe]
    simp [readRequest, List.append_assoc]
  · rw [pollCount_append, pollCount_append, hp]
    simp [pollCount, requestEvents]
  · rw [readCount_append, readCount_append, hrd]
    simp [readCount, requestEvents]
  · rw [bytesRead_append, bytesRead_append, hb]
    rfl

/-- C15, witness: the read of register 3 of a sensor that never answers it, with a
budget of 3 retries: 4 polls. -/
theorem readBytes_timeout_witness :
    (brokenPromState.ms5611Wire = some brokenProm.wire ∧ 3 < 4294967295 ∧ 3 < 4 ∧
      ∀ i, i ≤ 3 →
        intToU32 (brokenProm.wire.available (afterPolls brokenProm.wire i
          (readRequest brokenProm.wire brokenPromState._address 0xA6 2 brokenPromHistory))) ≠
          toU32 2) ∧
    ∃ ev, brokenPromState.readBytes 0xA6 [7, 9] 2 3 4 brokenPromHistory =
        some (1, [7, 9], brokenPromHistory ++ ev) ∧
      pollCount ev = 3 + 1 ∧ readCount ev = 0 ∧ bytesRead ev = [] :=
  ⟨⟨rfl, by decide, by decide, by decide⟩,
    readBytes_timeout brokenPromState brokenProm.wire 0xA6 [7, 9] 2 3 4 brokenPromHistory
      rfl (by decide) (by decide) (by decide)⟩

/-! ## Sequences of calls return -/

/-- With fuel for the default retry budget, every sequence of public calls on a
driver bound to a bus returns, and leaves the driver bound to a bus. -/
theorem performAll_defined {fuel : Nat} (hfuel : 10 < fuel) :
    ∀ (calls : List Call) (s : Ms5611) (tr : Trace) (w : TwoWire),
      s.ms5611Wire = some w →
      ∃ s' tr' w', Ms5611.performAll fuel calls s tr = some (s', tr') ∧
        s'.ms5611Wire = some w' := by
  intro calls
  induction calls with
  | nil => intro s tr w hw; exact ⟨s, tr, w, rfl, hw⟩
  | cons c cs ih =>
    intro s tr w hw
    cases c with
    | init wire address =>
      obtain ⟨st, s1, ev, hrun, -⟩ := init_spec s wire address hfuel tr
      obtain ⟨s', tr', w', h, hw'⟩ := ih s1 (tr ++ ev) wire (init_invariant hrun).2.1
      exact ⟨s', tr', w', by simp [Ms5611.performAll, Ms5611.perform, hrun, h], hw'⟩
    | reset =>
      obtain ⟨s', tr', w', h, hw'⟩ := ih s _ w hw
      exact ⟨s', tr', w',
        by simp only [Ms5611.performAll, Ms5611.perform, Ms5611.reset,
          writeCommand_bound hw]; exact h, hw'⟩
    | getTempPress out =>
      obtain ⟨st, out', ev, hrun, -⟩ := getTempPress_spec hw hfuel out tr
      obtain ⟨s', tr', w', h, hw'⟩ := ih s (tr ++ ev) w hw
      exact ⟨s', tr', w', by simp [Ms5611.performAll, Ms5611.perform, hrun, h], hw'⟩
    | setOSR osr =>
      obtain ⟨s', tr', w', h, hw'⟩ := ih (s.setOSR osr tr).2.1 (s.setOSR osr tr).2.2 w
        ((setOSR_invariant s osr tr).2.1.trans hw)
      exact ⟨s', tr', w', by simp [Ms5611.performAll, Ms5611.perform, h], hw'⟩

/-! ## Second-order compensation -/

/-- C16, evaluation of the code: for all coefficients and raw values the first-order
`TEMP` computed by `getTempPress` is at least 2000 and the second-order correction
is (0, 0, 0), so neither the branch `TEMP < 2000` nor the branch `TEMP < -1500` is
ever taken: `dT` is the conversion of the `uint32_t` difference `D2 - C[5] * 256`
and is never negative.  With the calibration words of the data sheet and
D2 = 8500000 the signed `dT` is -66784 and the first-order `TEMP` of the reference
formula is below 2000, whereas the code computes a `TEMP` above 14 million. -/
theorem second_order_unreachable (C : Fin 7 → Nat) (D1 D2 : Nat) :
    2000 ≤ codeTEMP C D2 ∧ secondOrder C D2 = (0, 0, 0) ∧
    compensation C D1 D2 =
      { temperature := codeTEMP C D2 / 100,
        pressure := (((D1 : ℚ) * ((u32mul (C 1) 32768 : ℚ) + (C 3 : ℚ) * codeDT C D2 / 256) /
            2097152 -
          ((u32mul (C 2) 65536 : ℚ) + (C 4 : ℚ) * codeDT C D2 / 128)) / 32768) / 100 } ∧
    codeDT datasheetCoefficients 8500000 = 4294900512 ∧
    codeTEMP datasheetCoefficients 8500000 = 475054689499 / 32768 ∧
    (2000 : ℚ) + ((8500000 : ℚ) - (datasheetCoefficients 5 : ℚ) * 256) *
      (datasheetCoefficients 6 : ℚ) / 8388608 < 2000 := by
  obtain ⟨h1, h2, h3, h4, h5, h6⟩ := datasheetCoefficients_values
  refine ⟨codeTEMP_ge C D2, secondOrder_zero C D2, ?_, ?_, ?_, ?_⟩
  · rw [compensation_parts, secondOrder_zero]
    simp
  · norm_num [codeDT, h5, u32sub, u32mul, toU32]
  · norm_num [codeTEMP, codeDT, h5, h6, u32sub, u32mul, toU32]
  · norm_num [h5, h6]

/-! ## Measurement with zero coefficients -/

theorem compensation_zero (C : Fin 7 → Nat) (D1 D2 : Nat) (hC : ∀ i, C i = 0) :
    compensation C D1 D2 = ⟨20, 0⟩ := by
  rw [compensation_parts, secondOrder_zero]
  simp [codeTEMP, hC, u32mul, toU32]
  norm_num

theorem resetNack_init :
    Ms5611.fresh.init resetNack.wire 0x77 11 [] =
      some (1, Ms5611.fresh.attach resetNack.wire 0x77, resetNackHistory) :=
  rfl

theorem resetNack_measure :
    (Ms5611.fresh.attach resetNack.wire 0x77).getTempPress 11 ⟨0, 0⟩ resetNackHistory =
      some (0, compensation (fun _ => 0) 9085466 8569150,
        resetNackHistory ++ scenarioMeasurement) :=
  rfl

/-- C17, counterexample: a freshly constructed driver on which `init` was never
called has all coefficients zero and no bus handle bound; `getTempPress` on it
produces no result at all: it does not return 0 and writes no outputs. -/
theorem getTempPress_uninitialised_counterexample :
    (Ms5611.constructed 0x77).C = (fun _ => 0) ∧
    (Ms5611.constructed 0x77).ms5611Wire = none ∧
    (Ms5611.constructed 0x77).getTempPress 11 ⟨0, 0⟩ [] = none ∧
    ¬ ∃ out' tr', (Ms5611.constructed 0x77).getTempPress 11 ⟨0, 0⟩ [] = some (0, out', tr') :=
  ⟨rfl, rfl, getTempPress_unbound rfl 11 ⟨0, 0⟩ [], fun ⟨_, _, h⟩ => by
    rw [getTempPress_unbound rfl 11 ⟨0, 0⟩ []] at h
    exact absurd h (by simp)⟩

/-- C17 (amended): on a driver with all coefficients zero whose bus handle is bound
(as after an `init` that failed at the reset), a `getTempPress` whose transport
steps all succeed returns 0 after reading six bytes and writes temperature 20 and
pressure 0, whatever the bytes, that is independently of D1 and D2. -/
theorem getTempPress_zero_coefficients (s : Ms5611) (w : TwoWire) (fuel : Nat)
    (out : Readings) (tr : Trace) (hw : s.ms5611Wire = some w) (hfuel : 10 < fuel)
    (hC : ∀ i, s.C i = 0)
    (hsteps : ∀ st out' ev, s.getTempPress fuel out tr = some (st, out', tr ++ ev) →
      StepsSucceeded ev) :
    ∃ ev p0 p1 p2 t0 t1 t2,
      s.getTempPress fuel out tr = some (0, ⟨20, 0⟩, tr ++ ev) ∧
      bytesRead ev = [p0, p1, p2, t0, t1, t2] := by
  obtain ⟨st, out', ev, hrun, -, -, hbad, hok⟩ := getTempPress_spec hw hfuel out tr
  have hst : st = 0 := by
    by_contra h
    exact hbad h (hsteps _ _ _ hrun)
  subst hst
  obtain ⟨-, p0, p1, p2, t0, t1, t2, -, -, -, -, -, -, hb, ho⟩ := hok rfl
  rw [compensation_zero _ _ _ hC] at ho
  subst ho
  exact ⟨ev, p0, p1, p2, t0, t1, t2, hrun, hb⟩

/-- C17, witness: `init` on a fresh driver against a sensor that rejects the reset
command returns 1 and leaves all coefficients zero; the measurement that follows
succeeds. -/
theorem getTempPress_zero_coefficients_witness :
    (Ms5611.fresh.init resetNack.wire 0x77 11 [] =
        some (1, Ms5611.fresh.attach resetNack.wire 0x77, resetNackHistory) ∧
      (Ms5611.fresh.attach resetNack.wire 0x77).ms5611Wire = some resetNack.wire ∧
      10 < 11 ∧ (∀ i, (Ms5611.fresh.attach resetNack.wire 0x77).C i = 0) ∧
      ∀ st out' ev,
        (Ms5611.fresh.attach resetNack.wire 0x77).getTempPress 11 ⟨0, 0⟩ resetNackHistory =
          some (st, out', resetNackHistory ++ ev) → StepsSucceeded ev) ∧
    ∃ ev p0 p1 p2 t0 t1 t2,
      (Ms5611.fresh.attach resetNack.wire 0x77).getTempPress 11 ⟨0, 0⟩ resetNackHistory =
        some (0, ⟨20, 0⟩, resetNackHistory ++ ev) ∧
      bytesRead ev = [p0, p1, p2, t0, t1, t2] :=
  have hsteps : ∀ st out' ev,
      (Ms5611.fresh.attach resetNack.wire 0x77).getTempPress 11 ⟨0, 0⟩ resetNackHistory =
        some (st, out', resetNackHistory ++ ev) → StepsSucceeded ev := by
    intro st out' ev h
    rw [resetNack_measure] at h
    simp only [Option.some.injEq, Prod.mk.injEq] at h
    have he : ev = scenarioMeasurement := (List.append_cancel_left h.2.2).symm
    subst he
    decide
  ⟨⟨resetNack_init, rfl, by decide, fun _ => rfl, hsteps⟩,
    getTempPress_zero_coefficients (Ms5611.fresh.attach resetNack.wire 0x77) resetNack.wire 11
      ⟨0, 0⟩ resetNackHistory rfl (by decide) (fun _ => rfl) hsteps⟩

/-! ## First-order compensation -/

theorem u32mul_of_lt {a b : Nat} (h : a * b < 4294967296) (ha : a < 4294967296)
    (hb : b < 4294967296) : u32mul a b = a * b := by
  unfold u32mul
  rw [toU32_of_lt ha, toU32_of_lt hb, toU32_of_lt h]

theorem codeDT_eq (C : Fin 7 → Nat) (D2 : Nat) (hC : C 5 < 65536) (hD : D2 < 4294967296)
    (h : C 5 * 256 ≤ D2) :
    u32sub D2 (u32mul (C 5) 256) = D2 - C 5 * 256 ∧
      codeDT C D2 = (D2 : ℚ) - (C 5 : ℚ) * 256 := by
  have hm : u32mul (C 5) 256 = C 5 * 256 :=
    u32mul_of_lt (by omega) (by omega) (by norm_num)
  have hs : u32sub D2 (u32mul (C 5) 256) = D2 - C 5 * 256 := by
    rw [hm]
    unfold u32sub toU32
    omega
  refine ⟨hs, ?_⟩
  unfold codeDT
  rw [hs, Nat.cast_sub h]
  push_cast
  ring

theorem compensation_first_order (C : Fin 7 → Nat) (D1 D2 : Nat) (hC : ∀ i, C i < 65536)
    (hD : D2 < 4294967296) (h : C 5 * 256 ≤ D2) :
    compensation C D1 D2 = firstOrderFormula C D1 D2 := by
  have h1 : u32mul (C 1) 32768 = C 1 * 32768 :=
    u32mul_of_lt (by have := hC 1; omega) (by have := hC 1; omega) (by norm_num)
  have h2 : u32mul (C 2) 65536 = C 2 * 65536 :=
    u32mul_of_lt (by have := hC 2; omega) (by have := hC 2; omega) (by norm_num)
  rw [compensation_parts, secondOrder_zero, h1, h2]
  simp only [codeTEMP, (codeDT_eq C D2 (hC 5) hD h).2, firstOrderFormula]
  push_cast
  simp

/-! ## Binary64 rounding -/

theorem floor_le_roundHalfEven (q : ℚ) : ⌊q⌋ ≤ roundHalfEven q := by
  unfold roundHalfEven
  split_ifs <;> omega

theorem roundHalfEven_le (q : ℚ) : roundHalfEven q ≤ ⌊q⌋ + 1 := by
  unfold roundHalfEven
  split_ifs <;> omega

theorem roundHalfEven_intCast (n : ℤ) : roundHalfEven (n : ℚ) = n := by
  unfold roundHalfEven
  simp

theorem le_roundHalfEven {n : ℤ} {q : ℚ} (h : (n : ℚ) ≤ q) : n ≤ roundHalfEven q :=
  le_trans (Int.le_floor.mpr h) (floor_le_roundHalfEven q)

theorem roundHalfEven_le_of_le {n : ℤ} {q : ℚ} (h : q ≤ (n : ℚ)) : roundHalfEven q ≤ n := by
  rcases eq_or_lt_of_le h with h | h
  · rw [h, roundHalfEven_intCast]
  · have : ⌊q⌋ < n := Int.floor_lt.mpr h
    have := roundHalfEven_le q
    omega

theorem roundMagnitude_zero : roundMagnitude 0 = 0 := by
  unfold roundMagnitude
  rw [zero_div]
  have := roundHalfEven_intCast 0
  simp only [Int.cast_zero] at this
  rw [this]
  simp

theorem roundMagnitude_nonneg {a : ℚ} (ha : 0 ≤ a) : 0 ≤ roundMagnitude a := by
  unfold roundMagnitude
  have h2 : (0 : ℚ) < 2 ^ ulpExponent a := by positivity
  have h : ((0 : ℤ) : ℚ) ≤ a / 2 ^ ulpExponent a := by
    rw [Int.cast_zero]
    positivity
  have := le_roundHalfEven h
  have h3 : (0 : ℚ) ≤ (roundHalfEven (a / 2 ^ ulpExponent a) : ℚ) := by exact_mod_cast this
  positivity

theorem toDouble_zero : toDouble 0 = 0 := by
  unfold toDouble
  rw [if_neg (lt_irrefl 0), roundMagnitude_zero]

theorem toDouble_nonneg {q : ℚ} (h : 0 ≤ q) : 0 ≤ toDouble q := by
  unfold toDouble
  rw [if_neg (not_lt.mpr h)]
  exact roundMagnitude_nonneg h

theorem toDouble_of_nonneg {q : ℚ} (h : 0 ≤ q) : toDouble q = roundMagnitude q := by
  unfold toDouble
  rw [if_neg (not_lt.mpr h)]

/-- The binary exponent of a positive rational. -/
theorem log_bounds {a : ℚ} (ha : 0 < a) :
    (2 : ℚ) ^ Int.log 2 a ≤ a ∧ a < (2 : ℚ) ^ (Int.log 2 a + 1) :=
  ⟨Int.zpow_log_le_self (by norm_num) ha, Int.lt_zpow_succ_log_self (by norm_num) a⟩

theorem log_eq_of {a : ℚ} {e : ℤ} (h1 : (2 : ℚ) ^ e ≤ a) (h2 : a < (2 : ℚ) ^ (e + 1)) :
    Int.log 2 a = e := by
  have ha : 0 < a := lt_of_lt_of_le (by positivity) h1
  have hle : e ≤ Int.log 2 a := (Int.zpow_le_iff_le_log (by norm_num) ha).mp h1
  have hlt : Int.log 2 a < e + 1 := (Int.lt_zpow_iff_log_lt (by norm_num) ha).mp h2
  omega


theorem ulpExponent_ge (a : ℚ) : -1074 ≤ ulpExponent a := le_max_right _ _

theorem ulpExponent_ge_log (a : ℚ) : Int.log 2 |a| - 52 ≤ ulpExponent a := le_max_left _ _

/-- The significand obtained by rounding a non-negative rational is at most 2^53. -/
theorem significand_le {a : ℚ} (ha : 0 < a) :
    roundHalfEven (a / 2 ^ ulpExponent a) ≤ 2 ^ 53 := by
  apply roundHalfEven_le_of_le
  have h2 : (0 : ℚ) < 2 ^ ulpExponent a := by positivity
  rw [div_le_iff₀ h2]
  have hb := (log_bounds ha).2
  have hk := ulpExponent_ge_log a
  rw [abs_of_pos ha] at hk
  have : (2 : ℚ) ^ (Int.log 2 a + 1) ≤ 2 ^ (53 + ulpExponent a) :=
    zpow_le_zpow_right₀ (by norm_num) (by omega)
  have h3 : ((2 ^ 53 : ℤ) : ℚ) * 2 ^ ulpExponent a = 2 ^ (53 + ulpExponent a) := by
    rw [zpow_add₀ (by norm_num : (2 : ℚ) ≠ 0)]
    norm_num
  rw [h3]
  exact le_of_lt (lt_of_lt_of_le hb this)

/-- A multiple of a power of two not below the unit in the last place of its own
magnitude is reproduced by the rounding. -/
theorem roundMagnitude_mul_zpow {r : ℤ} {k : ℤ}
    (hk : ulpExponent ((r : ℚ) * 2 ^ k) ≤ k) :
    roundMagnitude ((r : ℚ) * 2 ^ k) = (r : ℚ) * 2 ^ k := by
  unfold roundMagnitude
  set k' := ulpExponent ((r : ℚ) * 2 ^ k) with hk'
  obtain ⟨d, hd⟩ : ∃ d : ℕ, k = k' + d := ⟨(k - k').toNat, by omega⟩
  have h2 : (2 : ℚ) ^ k = 2 ^ k' * 2 ^ d := by
    rw [hd, zpow_add₀ (by norm_num : (2 : ℚ) ≠ 0), zpow_natCast]
  have hpos : (0 : ℚ) < 2 ^ k' := by positivity
  have hq : (r : ℚ) * 2 ^ k / 2 ^ k' = ((r * 2 ^ d : ℤ) : ℚ) := by
    rw [h2]
    field_simp
    ring
  rw [hq, roundHalfEven_intCast, h2]
  push_cast
  ring

theorem roundMagnitude_idem {a : ℚ} (ha : 0 ≤ a) :
    roundMagnitude (roundMagnitude a) = roundMagnitude a := by
  rcases eq_or_lt_of_le ha with h0 | hpos
  · rw [← h0, roundMagnitude_zero, roundMagnitude_zero]
  · have hr0 : 0 ≤ roundHalfEven (a / 2 ^ ulpExponent a) := by
      apply le_roundHalfEven
      rw [Int.cast_zero]
      positivity
    have hr53 := significand_le hpos
    rcases eq_or_lt_of_le hr0 with hz | hrpos
    · have : roundMagnitude a = 0 := by
        unfold roundMagnitude
        rw [← hz]
        simp
      rw [this, roundMagnitude_zero]
    · have hunf : roundMagnitude a =
          (roundHalfEven (a / 2 ^ ulpExponent a) : ℚ) * 2 ^ ulpExponent a := rfl
      rw [hunf]
      set r := roundHalfEven (a / 2 ^ ulpExponent a)
      set k := ulpExponent a with hk
      have hkge : -1074 ≤ k := ulpExponent_ge a
      have hmpos : (0 : ℚ) < (r : ℚ) * 2 ^ k := by
        have : (0 : ℚ) < (r : ℚ) := by exact_mod_cast hrpos
        positivity
      rcases eq_or_lt_of_le hr53 with h53 | hlt
      · -- the significand rounds up to 2^53: the value is 2^52 * 2^(k+1)
        have hval : (r : ℚ) * 2 ^ k = ((2 ^ 52 : ℤ) : ℚ) * 2 ^ (k + 1) := by
          rw [h53, zpow_add₀ (by norm_num : (2 : ℚ) ≠ 0)]
          norm_num
          ring
        rw [hval]
        apply roundMagnitude_mul_zpow
        have hlog : Int.log 2 (((2 ^ 52 : ℤ) : ℚ) * 2 ^ (k + 1)) = 53 + k := by
          apply log_eq_of
          · rw [zpow_add₀ (by norm_num : (2 : ℚ) ≠ 0), zpow_add₀ (by norm_num : (2 : ℚ) ≠ 0)]
            push_cast
            have : (0 : ℚ) < 2 ^ k := by positivity
            nlinarith
          · rw [zpow_add₀ (by norm_num : (2 : ℚ) ≠ 0), zpow_add₀ (by norm_num : (2 : ℚ) ≠ 0),
              zpow_add₀ (by norm_num : (2 : ℚ) ≠ 0)]
            push_cast
            have : (0 : ℚ) < 2 ^ k := by positivity
            nlinarith
        unfold ulpExponent
        rw [abs_of_pos (by positivity), hlog]
        omega
      · apply roundMagnitude_mul_zpow
        have hltq : (r : ℚ) * 2 ^ k < 2 ^ (53 + k) := by
          rw [zpow_add₀ (by norm_num : (2 : ℚ) ≠ 0)]
          have h1 : (r : ℚ) < 2 ^ (53 : ℤ) := by
            have : (r : ℚ) < ((2 ^ 53 : ℤ) : ℚ) := by exact_mod_cast hlt
            norm_num at this ⊢
            exact this
          have : (0 : ℚ) < 2 ^ k := by positivity
          nlinarith
        have hlog : Int.log 2 ((r : ℚ) * 2 ^ k) < 53 + k :=
          (Int.lt_zpow_iff_log_lt (by norm_num) hmpos).mp hltq
        unfold ulpExponent
        rw [abs_of_pos hmpos]
        omega

theorem toDouble_idem (q : ℚ) : toDouble (toDouble q) = toDouble q := by
  by_cases hq : q < 0
  · have hm : 0 ≤ roundMagnitude (-q) := roundMagnitude_nonneg (by linarith)
    have h1 : toDouble q = -roundMagnitude (-q) := by
      unfold toDouble
      rw [if_pos hq]
    rw [h1]
    rcases eq_or_lt_of_le hm with h0 | hpos
    · rw [← h0, neg_zero, toDouble_zero]
    · unfold toDouble
      rw [if_pos (by linarith), neg_neg, roundMagnitude_idem (by linarith)]
  · have hq' : 0 ≤ q := not_lt.mp hq
    rw [toDouble_of_nonneg hq', toDouble_of_nonneg (roundMagnitude_nonneg hq'),
      roundMagnitude_idem hq']

theorem pow52_mul (e : ℤ) : ((2 ^ 52 : ℤ) : ℚ) * 2 ^ (e - 52) = 2 ^ e := by
  have h : (2 : ℚ) ^ e = 2 ^ ((52 : ℤ) + (e - 52)) := by
    congr 1
    omega
  rw [h, zpow_add₀ (by norm_num : (2 : ℚ) ≠ 0)]
  norm_num

/-- Rounding to binary64 keeps a value that is at least 2000 at least 2000. -/
theorem le_toDouble_2000 {x : ℚ} (h : 2000 ≤ x) : 2000 ≤ toDouble x := by
  have hpos : 0 < x := by linarith
  rw [toDouble_of_nonneg hpos.le]
  unfold roundMagnitude
  obtain ⟨hlo, hhi⟩ := log_bounds hpos
  have he : 10 ≤ Int.log 2 x := by
    by_contra hc
    have : (2 : ℚ) ^ (Int.log 2 x + 1) ≤ 2 ^ (10 : ℤ) :=
      zpow_le_zpow_right₀ (by norm_num) (by omega)
    norm_num at this
    linarith
  have hk : ulpExponent x = Int.log 2 x - 52 := by
    unfold ulpExponent
    rw [abs_of_pos hpos]
    omega
  rw [hk]
  set e := Int.log 2 x with hedef
  have hu : (0 : ℚ) < 2 ^ (e - 52) := by positivity
  rcases eq_or_lt_of_le he with h10 | h11
  · rw [← h10]
    have hle : ((2000 * 2 ^ 42 : ℤ) : ℚ) ≤ x / 2 ^ ((10 : ℤ) - 52) := by
      rw [le_div_iff₀ (by positivity)]
      norm_num
      linarith
    have := le_roundHalfEven hle
    have hc : ((2000 * 2 ^ 42 : ℤ) : ℚ) ≤ (roundHalfEven (x / 2 ^ ((10 : ℤ) - 52)) : ℚ) := by
      exact_mod_cast this
    have h2 : (2000 : ℚ) = ((2000 * 2 ^ 42 : ℤ) : ℚ) * 2 ^ ((10 : ℤ) - 52) := by norm_num
    rw [h2]
    exact mul_le_mul_of_nonneg_right hc (by positivity)
  · have hle : ((2 ^ 52 : ℤ) : ℚ) ≤ x / 2 ^ (e - 52) := by
      rw [le_div_iff₀ hu]
      rw [pow52_mul]
      exact hlo
    have := le_roundHalfEven hle
    have hc : ((2 ^ 52 : ℤ) : ℚ) ≤ (roundHalfEven (x / 2 ^ (e - 52)) : ℚ) := by
      exact_mod_cast this
    have h3 : ((2 ^ 52 : ℤ) : ℚ) * 2 ^ (e - 52) = 2 ^ e := pow52_mul e
    have h4 : (2 : ℚ) ^ (11 : ℤ) ≤ 2 ^ e := zpow_le_zpow_right₀ (by norm_num) (by omega)
    have h5 := mul_le_mul_of_nonneg_right hc hu.le
    rw [h3] at h5
    norm_num at h4
    linarith

/-- A binary64 value is an integer multiple of a power of two. -/
theorem toDouble_dyadic (q : ℚ) : ∃ (m k : ℤ), toDouble q = (m : ℚ) * 2 ^ k := by
  unfold toDouble roundMagnitude
  split_ifs
  · exact ⟨-roundHalfEven (-q / 2 ^ ulpExponent (-q)), ulpExponent (-q), by push_cast; ring⟩
  · exact ⟨_, _, rfl⟩

theorem roundHalfEven_sub_le (q : ℚ) : |(roundHalfEven q : ℚ) - q| ≤ 1 / 2 := by
  have h1 : (⌊q⌋ : ℚ) ≤ q := Int.floor_le q
  have h2 : q < (⌊q⌋ : ℚ) + 1 := Int.lt_floor_add_one q
  unfold roundHalfEven
  split_ifs with ha hb hc
  · rw [abs_le]; constructor <;> linarith
  · rw [abs_le]; push_cast; constructor <;> linarith
  · rw [abs_le]; constructor <;> linarith
  · rw [abs_le]; push_cast; constructor <;> linarith

/-- The rounding error of the magnitude is at most half a unit in the last place. -/
theorem roundMagnitude_sub_le (a : ℚ) :
    |roundMagnitude a - a| ≤ 2 ^ ulpExponent a / 2 := by
  unfold roundMagnitude
  have hpos : (0 : ℚ) < 2 ^ ulpExponent a := by positivity
  have h := roundHalfEven_sub_le (a / 2 ^ ulpExponent a)
  have heq : (roundHalfEven (a / 2 ^ ulpExponent a) : ℚ) * 2 ^ ulpExponent a - a =
      ((roundHalfEven (a / 2 ^ ulpExponent a) : ℚ) - a / 2 ^ ulpExponent a) *
        2 ^ ulpExponent a := by
    field_simp
  rw [heq, abs_mul, abs_of_pos hpos]
  calc |(roundHalfEven (a / 2 ^ ulpExponent a) : ℚ) - a / 2 ^ ulpExponent a| *
        2 ^ ulpExponent a ≤ 1 / 2 * 2 ^ ulpExponent a :=
        mul_le_mul_of_nonneg_right h hpos.le
    _ = 2 ^ ulpExponent a / 2 := by ring

theorem ulpExponent_neg (a : ℚ) : ulpExponent (-a) = ulpExponent a := by
  unfold ulpExponent
  rw [abs_neg]

theorem toDouble_sub_le (q : ℚ) : |toDouble q - q| ≤ 2 ^ ulpExponent q / 2 := by
  unfold toDouble
  split_ifs with h
  · have := roundMagnitude_sub_le (-q)
    rw [ulpExponent_neg] at this
    have heq : -roundMagnitude (-q) - q = -(roundMagnitude (-q) - -q) := by ring
    rw [heq, abs_neg]
    exact this
  · exact roundMagnitude_sub_le q

/-- The unit in the last place of a value of magnitude below `2^n`. -/
theorem ulpExponent_le {q : ℚ} {n : ℤ} (hq : q ≠ 0) (h : |q| < 2 ^ n) (hn : -1021 ≤ n) :
    ulpExponent q ≤ n - 53 := by
  have hpos : 0 < |q| := abs_pos.mpr hq
  have hlog : Int.log 2 |q| < n := (Int.lt_zpow_iff_log_lt (by norm_num) hpos).mp h
  unfold ulpExponent
  omega

/-- The rounding error of a value of magnitude below `2^n` is at most `2^(n-54)`. -/
theorem toDouble_error {q : ℚ} {n : ℤ} (h : |q| < 2 ^ n) (hn : -1021 ≤ n) :
    |toDouble q - q| ≤ 2 ^ (n - 54) := by
  by_cases hq : q = 0
  · rw [hq, toDouble_zero]
    simp
    positivity
  · have hk := ulpExponent_le hq h hn
    have h1 := toDouble_sub_le q
    have h2 : (2 : ℚ) ^ ulpExponent q ≤ 2 ^ (n - 53) :=
      zpow_le_zpow_right₀ (by norm_num) hk
    have h3 : (2 : ℚ) ^ (n - 53) = 2 * 2 ^ (n - 54) := by
      have : n - 53 = 1 + (n - 54) := by omega
      rw [this, zpow_add₀ (by norm_num : (2 : ℚ) ≠ 0)]
      norm_num
    linarith

/-- A natural number below 2^53 divided by a power of two is a binary64 number. -/
theorem toDouble_natCast_div (n j : ℕ) (hn : n < 2 ^ 53) (hj : j ≤ 1074) :
    toDouble ((n : ℚ) / 2 ^ j) = (n : ℚ) / 2 ^ j := by
  have hnn : (0 : ℚ) ≤ (n : ℚ) / 2 ^ j := by positivity
  rw [toDouble_of_nonneg hnn]
  rcases Nat.eq_zero_or_pos n with h0 | hpos
  · rw [h0]
    simp [roundMagnitude_zero]
  · have heq : (n : ℚ) / 2 ^ j = ((n : ℤ) : ℚ) * 2 ^ (-(j : ℤ)) := by
      rw [zpow_neg, zpow_natCast]
      push_cast
      ring
    rw [heq]
    apply roundMagnitude_mul_zpow
    have hmpos : (0 : ℚ) < ((n : ℤ) : ℚ) * 2 ^ (-(j : ℤ)) := by
      have : (0 : ℚ) < ((n : ℤ) : ℚ) := by exact_mod_cast hpos
      positivity
    have hlt : ((n : ℤ) : ℚ) * 2 ^ (-(j : ℤ)) < 2 ^ (53 + -(j : ℤ)) := by
      rw [zpow_add₀ (by norm_num : (2 : ℚ) ≠ 0)]
      have h1 : ((n : ℤ) : ℚ) < 2 ^ (53 : ℤ) := by
        have : ((n : ℤ) : ℚ) < ((2 ^ 53 : ℕ) : ℚ) := by exact_mod_cast hn
        norm_num at this ⊢
        exact this
      have : (0 : ℚ) < 2 ^ (-(j : ℤ)) := by positivity
      nlinarith
    have hlog : Int.log 2 (((n : ℤ) : ℚ) * 2 ^ (-(j : ℤ))) < 53 + -(j : ℤ) :=
      (Int.lt_zpow_iff_log_lt (by norm_num) hmpos).mp hlt
    unfold ulpExponent
    rw [abs_of_pos hmpos]
    omega

theorem toDouble_natCast (n : ℕ) (hn : n < 2 ^ 53) : toDouble (n : ℚ) = n := by
  have := toDouble_natCast_div n 0 hn (by omega)
  simpa using this

/-! ### The second-order branch in binary64 -/

/-- The first-order `TEMP` of the code is at least 2000 in binary64 too. -/
theorem temp_binary64_ge {dT c6 : ℚ} (h1 : 0 ≤ dT) (h2 : 0 ≤ c6) :
    2000 ≤ dadd 2000 (ddiv (dmul dT c6) 8388608) := by
  unfold dadd ddiv dmul
  apply le_toDouble_2000
  have h3 : 0 ≤ toDouble (dT * c6) := toDouble_nonneg (mul_nonneg h1 h2)
  have h4 : 0 ≤ toDouble (toDouble (dT * c6) / 8388608) :=
    toDouble_nonneg (div_nonneg h3 (by norm_num))
  linarith

theorem secondOrderBinary64_zero {dT TEMP : ℚ} (h : 2000 ≤ TEMP) :
    secondOrderBinary64 dT TEMP = (0, 0, 0) := by
  unfold secondOrderBinary64
  rw [if_neg (not_lt.mpr h)]

theorem dsub_zero (x : ℚ) : dsub (toDouble x) 0 = toDouble x := by
  unfold dsub
  rw [sub_zero, toDouble_idem]

/-- For all coefficients and raw values the binary64 arithmetic of `getTempPress`
applies no second-order correction. -/
theorem compensationBinary64_first_order (C : Fin 7 → Nat) (D1 D2 : Nat) :
    compensationBinary64 C D1 D2 =
      { temperature := ddiv (dadd 2000 (ddiv (dmul (codeDT C D2) (C 6 : ℚ)) 8388608)) 100,
        pressure := ddiv (ddiv (dsub (ddiv (dmul (D1 : ℚ)
            (dadd (u32mul (C 1) 32768 : ℚ) (ddiv (dmul (C 3 : ℚ) (codeDT C D2)) 256)))
            2097152)
          (dadd (u32mul (C 2) 65536 : ℚ) (ddiv (dmul (C 4 : ℚ) (codeDT C D2)) 128)))
          32768) 100 } := by
  have hT : 2000 ≤ dadd 2000 (ddiv (dmul (codeDT C D2) (C 6 : ℚ)) 8388608) :=
    temp_binary64_ge (codeDT_nonneg C D2) (Nat.cast_nonneg _)
  unfold compensationBinary64
  simp only []
  rw [show ((u32sub D2 (u32mul (C 5) 256) : Nat) : ℚ) = codeDT C D2 from rfl,
    secondOrderBinary64_zero hT]
  simp only [dadd, dsub_zero]

theorem compensationBinary64_eq (C : Fin 7 → Nat) (D1 D2 : Nat) (hC : ∀ i, C i < 65536)
    (hD : D2 < 4294967296) (h : C 5 * 256 ≤ D2) :
    compensationBinary64 C D1 D2 = firstOrderBinary64 C D1 D2 := by
  have h1 : u32mul (C 1) 32768 = C 1 * 32768 :=
    u32mul_of_lt (by have := hC 1; omega) (by have := hC 1; omega) (by norm_num)
  have h2 : u32mul (C 2) 65536 = C 2 * 65536 :=
    u32mul_of_lt (by have := hC 2; omega) (by have := hC 2; omega) (by norm_num)
  rw [compensationBinary64_first_order, (codeDT_eq C D2 (hC 5) hD h).2, h1, h2]
  unfold firstOrderBinary64
  push_cast
  rfl

/-! ### Exact steps and rounding errors of the first-order formula -/

/-- A sum `a + x * y / 2^j` of natural numbers below the 53-bit limit is computed in
binary64 without rounding: the product, the quotient and the sum are exact. -/
theorem dadd_ddiv_dmul_exact {a x y j : ℕ} {a' x' y' d : ℚ} (ha : a' = a) (hx : x' = x)
    (hy : y' = y) (hd : d = 2 ^ j) (h : a * 2 ^ j + x * y < 2 ^ 53) (hj : j ≤ 1074) :
    dadd a' (ddiv (dmul x' y') d) = a' + x' * y' / d := by
  have hpow : 0 < 2 ^ j := Nat.two_pow_pos j
  have hxy : x * y < 2 ^ 53 := by
    have : x * y ≤ a * 2 ^ j + x * y := Nat.le_add_left _ _
    omega
  unfold dadd ddiv dmul
  have e1 : toDouble (x' * y') = ((x * y : ℕ) : ℚ) := by
    rw [hx, hy, ← Nat.cast_mul]
    exact toDouble_natCast _ hxy
  have e2 : toDouble (((x * y : ℕ) : ℚ) / d) = ((x * y : ℕ) : ℚ) / d := by
    rw [hd]
    exact toDouble_natCast_div _ _ hxy hj
  have e3 : a' + ((x * y : ℕ) : ℚ) / d = ((a * 2 ^ j + x * y : ℕ) : ℚ) / 2 ^ j := by
    rw [ha, hd]
    push_cast
    field_simp
  rw [e1, e2, e3, toDouble_natCast_div _ _ h hj]
  rw [← e3, hx, hy]
  push_cast
  ring

/-- The rounding error of the pressure: with `D1` below 2^24, `SENS` below 2^33 and
`OFF` below 2^34 the five rounded operations that follow deviate from the exact
value by at most 2^-36. -/
theorem pressure_error {D1 S O : ℚ} (hD0 : 0 ≤ D1) (hD : D1 < 2 ^ 24) (hS0 : 0 ≤ S)
    (hS : S < 2 ^ 33) (hO0 : 0 ≤ O) (hO : O < 2 ^ 34) :
    |ddiv (ddiv (dsub (ddiv (dmul D1 S) 2097152) O) 32768) 100 -
      ((D1 * S / 2097152 - O) / 32768) / 100| ≤ 2 ^ (-36 : ℤ) := by
  unfold ddiv dsub dmul
  -- the product
  have hx1 : |D1 * S| < 2 ^ (57 : ℤ) := by
    rw [abs_of_nonneg (mul_nonneg hD0 hS0)]
    have : D1 * S ≤ 2 ^ 24 * S := mul_le_mul_of_nonneg_right hD.le hS0
    norm_num at hD hS ⊢
    nlinarith
  have ea := toDouble_error hx1 (by norm_num)
  set a := toDouble (D1 * S) with hadef
  have ha : |a - D1 * S| ≤ 8 := by norm_num at ea; exact ea
  have hx1' : |D1 * S| < 144115188075855872 := by norm_num at hx1; exact hx1
  -- the division by 2^21
  have hx2 : |a / 2097152| < 2 ^ (37 : ℤ) := by
    rw [abs_div, abs_of_pos (by norm_num : (0 : ℚ) < 2097152), div_lt_iff₀ (by norm_num)]
    have : |a| ≤ |a - D1 * S| + |D1 * S| := by
      have := abs_add (a - D1 * S) (D1 * S)
      simpa using this
    norm_num
    linarith
  have eb := toDouble_error hx2 (by norm_num)
  set b := toDouble (a / 2097152) with hbdef
  have hb : |b - D1 * S / 2097152| ≤ 5 / 262144 := by
    have h1 : |b - a / 2097152| ≤ 1 / 131072 := by norm_num at eb; exact eb
    have h2 : |a / 2097152 - D1 * S / 2097152| ≤ 8 / 2097152 := by
      rw [← sub_div, abs_div, abs_of_pos (by norm_num : (0 : ℚ) < 2097152)]
      exact div_le_div_of_nonneg_right ha (by norm_num)
    have := abs_add (b - a / 2097152) (a / 2097152 - D1 * S / 2097152)
    have heq : b - a / 2097152 + (a / 2097152 - D1 * S / 2097152) = b - D1 * S / 2097152 := by
      ring
    rw [heq] at this
    linarith
  -- the difference
  have hbabs : |b| ≤ 68719476737 := by
    have h1 : |D1 * S / 2097152| < 68719476736 := by
      rw [abs_div, abs_of_pos (by norm_num : (0 : ℚ) < 2097152), div_lt_iff₀ (by norm_num)]
      norm_num
      linarith
    have := abs_add (b - D1 * S / 2097152) (D1 * S / 2097152)
    have heq : b - D1 * S / 2097152 + D1 * S / 2097152 = b := by ring
    rw [heq] at this
    linarith
  have hx3 : |b - O| < 2 ^ (37 : ℤ) := by
    have := abs_sub b O
    rw [abs_of_nonneg hO0] at this
    norm_num at hO ⊢
    linarith
  have ec := toDouble_error hx3 (by norm_num)
  set c := toDouble (b - O) with hcdef
  have hc : |c - (D1 * S / 2097152 - O)| ≤ 7 / 262144 := by
    have h1 : |c - (b - O)| ≤ 1 / 131072 := by norm_num at ec; exact ec
    have := abs_add (c - (b - O)) (b - D1 * S / 2097152)
    have heq : c - (b - O) + (b - D1 * S / 2097152) = c - (D1 * S / 2097152 - O) := by ring
    rw [heq] at this
    linarith
  have hcabs : |c| < 137438953472 := by
    have h1 : |c - (b - O)| ≤ 1 / 131072 := by norm_num at ec; exact ec
    have h3 : |b - O| ≤ 68719476737 + 17179869184 := by
      have := abs_sub b O
      rw [abs_of_nonneg hO0] at this
      norm_num at hO
      linarith
    have := abs_add (c - (b - O)) (b - O)
    have heq : c - (b - O) + (b - O) = c := by ring
    rw [heq] at this
    linarith
  -- the division by 2^15
  have hx4 : |c / 32768| < 2 ^ (22 : ℤ) := by
    rw [abs_div, abs_of_pos (by norm_num : (0 : ℚ) < 32768), div_lt_iff₀ (by norm_num)]
    norm_num
    linarith
  have ed := toDouble_error hx4 (by norm_num)
  set d := toDouble (c / 32768) with hddef
  have hd : |d - (D1 * S / 2097152 - O) / 32768| ≤ 1 / 4294967296 + 7 / 262144 / 32768 := by
    have h1 : |d - c / 32768| ≤ 1 / 4294967296 := by norm_num at ed; exact ed
    have h2 : |c / 32768 - (D1 * S / 2097152 - O) / 32768| ≤ 7 / 262144 / 32768 := by
      rw [← sub_div, abs_div, abs_of_pos (by norm_num : (0 : ℚ) < 32768)]
      exact div_le_div_of_nonneg_right hc (by norm_num)
    have := abs_add (d - c / 32768) (c / 32768 - (D1 * S / 2097152 - O) / 32768)
    have heq : d - c / 32768 + (c / 32768 - (D1 * S / 2097152 - O) / 32768) =
        d - (D1 * S / 2097152 - O) / 32768 := by ring
    rw [heq] at this
    linarith
  have hdabs : |d| < 4194305 := by
    have h1 : |d - c / 32768| ≤ 1 / 4294967296 := by norm_num at ed; exact ed
    have h2 : |c / 32768| < 4194304 := by norm_num at hx4; exact hx4
    have := abs_add (d - c / 32768) (c / 32768)
    have heq : d - c / 32768 + c / 32768 = d := by ring
    rw [heq] at this
    linarith
  -- the division by 100
  have hx5 : |d / 100| < 2 ^ (16 : ℤ) := by
    rw [abs_div, abs_of_pos (by norm_num : (0 : ℚ) < 100), div_lt_iff₀ (by norm_num)]
    norm_num
    linarith
  have ep := toDouble_error hx5 (by norm_num)
  have h1 : |toDouble (d / 100) - d / 100| ≤ 1 / 274877906944 := by norm_num at ep; exact ep
  have h2 : |d / 100 - (D1 * S / 2097152 - O) / 32768 / 100| ≤
      (1 / 4294967296 + 7 / 262144 / 32768) / 100 := by
    rw [← sub_div, abs_div, abs_of_pos (by norm_num : (0 : ℚ) < 100)]
    exact div_le_div_of_nonneg_right hd (by norm_num)
  have := abs_add (toDouble (d / 100) - d / 100)
    (d / 100 - (D1 * S / 2097152 - O) / 32768 / 100)
  have heq : toDouble (d / 100) - d / 100 + (d / 100 - (D1 * S / 2097152 - O) / 32768 / 100) =
      toDouble (d / 100) - (D1 * S / 2097152 - O) / 32768 / 100 := by ring
  rw [heq] at this
  norm_num at this h1 h2 ⊢
  linarith

/-- With 16-bit coefficients, 24-bit raw values and `C5 * 256 ≤ D2` the values
`TEMP`, `OFF` and `SENS` of the first-order formula are computed in binary64
without rounding; the temperature is the binary64 number nearest to the exact
value, at most 2^-43 away from it, and the pressure is at most 2^-36 away from the
exact value. -/
theorem firstOrderBinary64_spec (C : Fin 7 → Nat) (D1 D2 : Nat) (hC : ∀ i, C i < 65536)
    (hD1 : D1 < 16777216) (hD2 : D2 < 16777216) (h : C 5 * 256 ≤ D2) :
    (firstOrderBinary64 C D1 D2).temperature =
        toDouble (firstOrderFormula C D1 D2).temperature ∧
    |(firstOrderBinary64 C D1 D2).temperature - (firstOrderFormula C D1 D2).temperature| ≤
        2 ^ (-43 : ℤ) ∧
    |(firstOrderBinary64 C D1 D2).pressure - (firstOrderFormula C D1 D2).pressure| ≤
        2 ^ (-36 : ℤ) := by
  have h1 := hC 1
  have h2 := hC 2
  have h3 := hC 3
  have h4 := hC 4
  have h6 := hC 6
  obtain ⟨n, hn⟩ : ∃ n : ℕ, D2 = C 5 * 256 + n := ⟨D2 - C 5 * 256, by omega⟩
  have hnlt : n < 16777216 := by omega
  have hdT : (D2 : ℚ) - (C 5 : ℚ) * 256 = (n : ℚ) := by
    rw [hn]
    push_cast
    ring
  have hn6 : n * C 6 < 16777216 * 65536 := Nat.mul_lt_mul'' hnlt h6
  have h4n : C 4 * n < 65536 * 16777216 := Nat.mul_lt_mul'' h4 hnlt
  have h3n : C 3 * n < 65536 * 16777216 := Nat.mul_lt_mul'' h3 hnlt
  have eT : dadd 2000 (ddiv (dmul (n : ℚ) (C 6 : ℚ)) 8388608) =
      2000 + (n : ℚ) * (C 6 : ℚ) / 8388608 :=
    dadd_ddiv_dmul_exact (a := 2000) (j := 23) (by norm_num) rfl rfl (by norm_num)
      (by omega) (by norm_num)
  have eO : dadd ((C 2 : ℚ) * 65536) (ddiv (dmul (C 4 : ℚ) (n : ℚ)) 128) =
      (C 2 : ℚ) * 65536 + (C 4 : ℚ) * (n : ℚ) / 128 :=
    dadd_ddiv_dmul_exact (a := C 2 * 65536) (j := 7) (by push_cast; ring) rfl rfl
      (by norm_num) (by omega) (by norm_num)
  have eS : dadd ((C 1 : ℚ) * 32768) (ddiv (dmul (C 3 : ℚ) (n : ℚ)) 256) =
      (C 1 : ℚ) * 32768 + (C 3 : ℚ) * (n : ℚ) / 256 :=
    dadd_ddiv_dmul_exact (a := C 1 * 32768) (j := 8) (by push_cast; ring) rfl rfl
      (by norm_num) (by omega) (by norm_num)
  have htemp : (firstOrderBinary64 C D1 D2).temperature =
      toDouble (firstOrderFormula C D1 D2).temperature := by
    unfold firstOrderBinary64 firstOrderFormula
    simp only [hdT, eT]
    rfl
  have hpress : (firstOrderBinary64 C D1 D2).pressure =
      ddiv (ddiv (dsub (ddiv (dmul (D1 : ℚ)
        ((C 1 : ℚ) * 32768 + (C 3 : ℚ) * (n : ℚ) / 256)) 2097152)
        ((C 2 : ℚ) * 65536 + (C 4 : ℚ) * (n : ℚ) / 128)) 32768) 100 := by
    unfold firstOrderBinary64
    simp only [hdT, eO, eS]
  have hpexact : (firstOrderFormula C D1 D2).pressure =
      (((D1 : ℚ) * ((C 1 : ℚ) * 32768 + (C 3 : ℚ) * (n : ℚ) / 256) / 2097152 -
        ((C 2 : ℚ) * 65536 + (C 4 : ℚ) * (n : ℚ) / 128)) / 32768) / 100 := by
    unfold firstOrderFormula
    simp only [hdT]
  have q1 : (C 1 : ℚ) < 65536 := by exact_mod_cast h1
  have q2 : (C 2 : ℚ) < 65536 := by exact_mod_cast h2
  have q3n : ((C 3 : ℚ)) * (n : ℚ) < 65536 * 16777216 := by exact_mod_cast h3n
  have q4n : ((C 4 : ℚ)) * (n : ℚ) < 65536 * 16777216 := by exact_mod_cast h4n
  have q6n : ((n : ℚ)) * (C 6 : ℚ) < 16777216 * 65536 := by exact_mod_cast hn6
  have p1 : (0 : ℚ) ≤ (C 1 : ℚ) := Nat.cast_nonneg _
  have p2 : (0 : ℚ) ≤ (C 2 : ℚ) := Nat.cast_nonneg _
  have p3n : (0 : ℚ) ≤ (C 3 : ℚ) * (n : ℚ) := by positivity
  have p4n : (0 : ℚ) ≤ (C 4 : ℚ) * (n : ℚ) := by positivity
  have p6n : (0 : ℚ) ≤ (n : ℚ) * (C 6 : ℚ) := by positivity
  refine ⟨htemp, ?_, ?_⟩
  · rw [htemp]
    have hval : (firstOrderFormula C D1 D2).temperature =
        (2000 + (n : ℚ) * (C 6 : ℚ) / 8388608) / 100 := by
      unfold firstOrderFormula
      simp only [hdT]
    rw [hval]
    have hlt : |(2000 + (n : ℚ) * (C 6 : ℚ) / 8388608) / 100| < 2 ^ (11 : ℤ) := by
      rw [abs_of_nonneg (by positivity), div_lt_iff₀ (by norm_num)]
      have : (n : ℚ) * (C 6 : ℚ) / 8388608 < 16777216 * 65536 / 8388608 :=
        div_lt_div_of_pos_right q6n (by norm_num)
      norm_num at this ⊢
      linarith
    have herr := toDouble_error hlt (by norm_num)
    have e : (11 : ℤ) - 54 = -43 := by norm_num
    rw [e] at herr
    exact herr
  · rw [hpress, hpexact]
    apply pressure_error (Nat.cast_nonneg _)
    · norm_num
      exact hD1
    · positivity
    · have : (C 3 : ℚ) * (n : ℚ) / 256 < 65536 * 16777216 / 256 :=
        div_lt_div_of_pos_right q3n (by norm_num)
      norm_num at this ⊢
      linarith
    · positivity
    · have : (C 4 : ℚ) * (n : ℚ) / 128 < 65536 * 16777216 / 128 :=
        div_lt_div_of_pos_right q4n (by norm_num)
      norm_num at this ⊢
      linarith

/-! ### Evaluation of the rounding at given values -/

theorem roundHalfEven_eq {x : ℚ} {r : ℤ} (h : |x - r| < 1 / 2) : roundHalfEven x = r := by
  have h1 := roundHalfEven_sub_le x
  have h2 : |((roundHalfEven x - r : ℤ) : ℚ)| < 1 := by
    have := abs_add ((roundHalfEven x : ℚ) - x) (x - r)
    have heq : (roundHalfEven x : ℚ) - x + (x - r) = ((roundHalfEven x - r : ℤ) : ℚ) := by
      push_cast
      ring
    rw [heq] at this
    linarith
  have h3 : |roundHalfEven x - r| < 1 := by exact_mod_cast h2
  have := abs_lt.mp h3
  omega

/-- The binary64 rounding of a positive value with binary exponent `e` whose
quotient by the unit in the last place is nearer to the integer `r` than to any
other. -/
theorem toDouble_eval {q v : ℚ} (e r : ℤ) (h1 : 2 ^ e ≤ q) (h2 : q < 2 ^ (e + 1))
    (he : -1022 ≤ e) (hr : |q / 2 ^ (e - 52) - r| < 1 / 2) (hv : v = r * 2 ^ (e - 52)) :
    toDouble q = v := by
  have hpos : 0 < q := lt_of_lt_of_le (by positivity) h1
  have hlog : Int.log 2 q = e := log_eq_of h1 h2
  have hk : ulpExponent q = e - 52 := by
    unfold ulpExponent
    rw [abs_of_pos hpos, hlog]
    omega
  rw [toDouble_of_nonneg hpos.le]
  unfold roundMagnitude
  rw [hk, roundHalfEven_eq hr, hv]

/-- The values that the binary64 arithmetic of `getTempPress` produces for the worked
example of the data sheet. -/
theorem warm_binary64 :
    compensationBinary64 datasheetCoefficients 9085466 8569150 =
      { temperature := 5651976370457149 / 281474976710656,
        pressure := 2199222711662727 / 2199023255552 } := by
  obtain ⟨h1, h2, h3, h4, h5, h6⟩ := datasheetCoefficients_values
  rw [compensationBinary64_eq _ _ _ (by decide) (by norm_num) (by decide)]
  have hS : dadd ((40127 : ℚ) * 32768) (ddiv (dmul (23317 : ℚ) 2366) 256) =
      168332420619 / 128 := by
    rw [dadd_ddiv_dmul_exact (a := 40127 * 32768) (x := 23317) (y := 2366) (j := 8)
      (by norm_num) (by norm_num) (by norm_num) (by norm_num) (by norm_num) (by norm_num)]
    norm_num
  have hO : dadd ((36924 : ℚ) * 65536) (ddiv (dmul (23282 : ℚ) 2366) 128) =
      77449011751 / 32 := by
    rw [dadd_ddiv_dmul_exact (a := 36924 * 65536) (x := 23282) (y := 2366) (j := 7)
      (by norm_num) (by norm_num) (by norm_num) (by norm_num) (by norm_num) (by norm_num)]
    norm_num
  have hT : dadd (2000 : ℚ) (ddiv (dmul (2366 : ℚ) 28312) 8388608) = 1052762637 / 524288 := by
    rw [dadd_ddiv_dmul_exact (a := 2000) (x := 2366) (y := 28312) (j := 23)
      (by norm_num) (by norm_num) (by norm_num) (by norm_num) (by norm_num) (by norm_num)]
    norm_num
  have ht : ddiv (1052762637 / 524288 : ℚ) 100 = 5651976370457149 / 281474976710656 := by
    unfold ddiv
    apply toDouble_eval 4 5651976370457149 <;> norm_num [abs_lt]
  have ha : dmul (9085466 : ℚ) (168332420619 / 128) = 11948269408059558 := by
    unfold dmul
    apply toDouble_eval 53 5974134704029779 <;> norm_num [abs_lt]
  have hb : ddiv (11948269408059558 : ℚ) 2097152 = 5974134704029779 / 1048576 := by
    unfold ddiv
    apply toDouble_eval 32 5974134704029779 <;> norm_num [abs_lt]
  have hc : dsub (5974134704029779 / 1048576 : ℚ) (77449011751 / 32) =
      3436285486973011 / 1048576 := by
    unfold dsub
    apply toDouble_eval 31 6872570973946022 <;> norm_num [abs_lt]
  have hd : ddiv (3436285486973011 / 1048576 : ℚ) 32768 = 3436285486973011 / 34359738368 := by
    unfold ddiv
    apply toDouble_eval 16 6872570973946022 <;> norm_num [abs_lt]
  have hp : ddiv (3436285486973011 / 34359738368 : ℚ) 100 =
      2199222711662727 / 2199023255552 := by
    unfold ddiv
    apply toDouble_eval 9 8796890846650908 <;> norm_num [abs_lt]
  have hdT : ((8569150 : ℕ) : ℚ) - ((33464 : ℕ) : ℚ) * 256 = 2366 := by norm_num
  unfold firstOrderBinary64
  simp only [h1, h2, h3, h4, h5, h6, hdT]
  push_cast
  rw [hS, hO, hT, ht, ha, hb, hc, hd, hp]

/-! ### Runs of the measurement in binary64 -/

/-- The two embeddings of `getTempPress` make the same bus calls and return the same
status; on status 0 both received the same raw values. -/
theorem getTempPress_pair (s : Ms5611) (fuel : Nat) (out : Readings) (tr : Trace) :
    (s.getTempPress fuel out tr = none ∧ s.getTempPressBinary64 fuel out tr = none) ∨
    (∃ tr', s.getTempPress fuel out tr = some (1, out, tr') ∧
      s.getTempPressBinary64 fuel out tr = some (1, out, tr')) ∨
    (∃ D1 D2 tr1 tr',
      s.acquire MS5611_CMD_CONVERT_D1 fuel tr = some (0, D1, tr1) ∧
      s.acquire MS5611_CMD_CONVERT_D2 fuel tr1 = some (0, D2, tr') ∧
      s.getTempPress fuel out tr = some (0, compensation s.C D1 D2, tr') ∧
      s.getTempPressBinary64 fuel out tr = some (0, compensationBinary64 s.C D1 D2, tr')) := by
  unfold Ms5611.getTempPress Ms5611.getTempPressBinary64
  cases h1 : s.acquire MS5611_CMD_CONVERT_D1 fuel tr with
  | none => exact Or.inl ⟨rfl, rfl⟩
  | some r1 =>
    obtain ⟨st1, D1, tr1⟩ := r1
    by_cases hst1 : st1 = 0
    · subst hst1
      cases h2 : s.acquire MS5611_CMD_CONVERT_D2 fuel tr1 with
      | none => exact Or.inl ⟨by simp [h2], by simp [h2]⟩
      | some r2 =>
        obtain ⟨st2, D2, tr2⟩ := r2
        by_cases hst2 : st2 = 0
        · subst hst2
          exact Or.inr (Or.inr ⟨D1, D2, tr1, tr2, rfl, h2, by simp [h2], by simp [h2]⟩)
        · exact Or.inr (Or.inl ⟨tr2, by simp [h2, hst2], by simp [h2, hst2]⟩)
    · exact Or.inr (Or.inl ⟨tr1, by simp [hst1], by simp [hst1]⟩)

/-- A run of the binary64 embedding that returns 0 read six bytes, the big-endian
raw values D1 and D2, and stored `compensationBinary64` of them. -/
theorem getTempPressBinary64_shape {s : Ms5611} {fuel : Nat} {out : Readings} {tr : Trace}
    {out' : Readings} {ev : Trace}
    (h : s.getTempPressBinary64 fuel out tr = some (0, out', tr ++ ev)) :
    ∃ p0 p1 p2 t0 t1 t2, p0 < 256 ∧ p1 < 256 ∧ p2 < 256 ∧ t0 < 256 ∧ t1 < 256 ∧ t2 < 256 ∧
      bytesRead ev = [p0, p1, p2, t0, t1, t2] ∧
      out' = compensationBinary64 s.C (p0 * 65536 + p1 * 256 + p2)
        (t0 * 65536 + t1 * 256 + t2) ∧
      s.getTempPress fuel out tr =
        some (0, compensation s.C (p0 * 65536 + p1 * 256 + p2) (t0 * 65536 + t1 * 256 + t2),
          tr ++ ev) := by
  rcases getTempPress_pair s fuel out tr with ⟨-, hn⟩ | ⟨tr', -, h1⟩ |
    ⟨D1, D2, tr1, tr', ha1, ha2, hideal, hbin⟩
  · rw [hn] at h
    simp at h
  · rw [h1] at h
    simp at h
  · rw [hbin] at h
    simp only [Option.some.injEq, Prod.mk.injEq, true_and] at h
    obtain ⟨rfl, rfl⟩ := h
    obtain ⟨w, hw⟩ := getTempPress_bound hideal
    obtain ⟨ev1, rfl, hcase1⟩ := acquire_shape hw _ _ _ _ _ _ ha1
    obtain ⟨ev2, htr2, hcase2⟩ := acquire_shape hw _ _ _ _ _ _ ha2
    rw [List.append_assoc] at htr2
    have hev : ev = ev1 ++ ev2 := List.append_cancel_left htr2
    subst hev
    rcases hcase1 with ⟨h10, -⟩ | ⟨-, -, p0, p1, p2, hp0, hp1, hp2, hb1, rfl⟩
    · exact absurd h10 (by decide)
    · rcases hcase2 with ⟨h20, -⟩ | ⟨-, -, t0, t1, t2, ht0, ht1, ht2, hb2, rfl⟩
      · exact absurd h20 (by decide)
      · refine ⟨p0, p1, p2, t0, t1, t2, hp0, hp1, hp2, ht0, ht1, ht2, ?_, rfl, ?_⟩
        · rw [bytesRead_append, hb1, hb2]
          rfl
        · rw [hideal]

/-- With all coefficients zero the binary64 arithmetic gives exactly 20 and 0. -/
theorem compensationBinary64_zero (C : Fin 7 → Nat) (D1 D2 : Nat) (hC : ∀ i, C i = 0) :
    compensationBinary64 C D1 D2 = ⟨20, 0⟩ := by
  have h2000 : toDouble 2000 = 2000 := by
    have := toDouble_natCast 2000 (by norm_num)
    simpa using this
  have h20 : toDouble 20 = 20 := by
    have := toDouble_natCast 20 (by norm_num)
    simpa using this
  rw [compensationBinary64_first_order]
  simp only [hC, u32mul, toU32, dadd, ddiv, dmul, dsub]
  norm_num [toDouble_zero, h2000, h20]

theorem warm_measure_binary64 :
    warmState.getTempPressBinary64 11 ⟨0, 0⟩ [] =
      some (0, compensationBinary64 datasheetCoefficients 9085466 8569150,
        [] ++ scenarioMeasurement) :=
  rfl

theorem warm_exact :
    firstOrderFormula datasheetCoefficients 9085466 8569150 =
      { temperature := 1052762637 / 52428800,
        pressure := 439844542332545423 / 439804651110400 } := by
  obtain ⟨h1, h2, h3, h4, h5, h6⟩ := datasheetCoefficients_values
  norm_num [firstOrderFormula, h1, h2, h3, h4, h5, h6]

/-- C18, counterexample: with the calibration words of the data sheet (all below
65536) and the raw values D1 = 9085466 and D2 = 8569150 (above
`C5 * 256 = 8566784`) of its worked example, `getTempPress` returns 0 and stores the
binary64 values 5651976370457149 / 2^48 and 2199222711662727 / 2^41, whereas the
exact rational values of the formula are 1052762637 / 52428800 and
439844542332545423 / 439804651110400: the product `D1 * SENS` exceeds 53 bits and
the quotients by 100 are not binary fractions, so the operations round. -/
theorem getTempPress_first_order_counterexample :
    (∀ i, warmState.C i < 65536) ∧
    warmState.getTempPressBinary64 11 ⟨0, 0⟩ [] =
      some (0, ⟨5651976370457149 / 281474976710656, 2199222711662727 / 2199023255552⟩,
        [] ++ scenarioMeasurement) ∧
    bytesRead scenarioMeasurement = [138, 162, 26, 130, 193, 62] ∧
    138 * 65536 + 162 * 256 + 26 = 9085466 ∧ 130 * 65536 + 193 * 256 + 62 = 8569150 ∧
    warmState.C 5 * 256 ≤ 8569150 ∧
    firstOrderFormula warmState.C 9085466 8569150 =
      ⟨1052762637 / 52428800, 439844542332545423 / 439804651110400⟩ ∧
    (5651976370457149 / 281474976710656 : ℚ) ≠ 1052762637 / 52428800 ∧
    (2199222711662727 / 2199023255552 : ℚ) ≠ 439844542332545423 / 439804651110400 :=
  ⟨by decide, by rw [← warm_binary64]; exact warm_measure_binary64, rfl, rfl, rfl, by decide,
    warm_exact, by norm_num, by norm_num⟩

/-- C18 (amended): when the coefficients are below 65536 and a `getTempPress` returns
0 after reading the bytes of D1 and D2 with `C5 * 256 ≤ D2`, the unsigned difference
`D2 - C5 * 256` and the unsigned products `C5 * 256`, `C2 * 65536`, `C1 * 32768` do
not wrap, both raw values are below 2^24, no second-order correction is applied,
and the outputs are the first-order formula evaluated in binary64: the temperature
is the binary64 number nearest to the exact rational value of the formula, at most
2^-43 away from it, and the pressure is at most 2^-36 away from the exact rational
value; with the rounding of `double` left out the outputs equal the exact
values. -/
theorem getTempPress_first_order (s : Ms5611) (fuel : Nat) (out : Readings) (tr : Trace)
    (out' : Readings) (ev : Trace) (p0 p1 p2 t0 t1 t2 : Nat)
    (hC : ∀ i, s.C i < 65536)
    (hrun : s.getTempPressBinary64 fuel out tr = some (0, out', tr ++ ev))
    (hbytes : bytesRead ev = [p0, p1, p2, t0, t1, t2])
    (hD : s.C 5 * 256 ≤ t0 * 65536 + t1 * 256 + t2) :
    u32sub (t0 * 65536 + t1 * 256 + t2) (u32mul (s.C 5) 256) =
      t0 * 65536 + t1 * 256 + t2 - s.C 5 * 256 ∧
    u32mul (s.C 5) 256 = s.C 5 * 256 ∧ u32mul (s.C 2) 65536 = s.C 2 * 65536 ∧
    u32mul (s.C 1) 32768 = s.C 1 * 32768 ∧
    p0 * 65536 + p1 * 256 + p2 < 16777216 ∧ t0 * 65536 + t1 * 256 + t2 < 16777216 ∧
    secondOrderBinary64 (codeDT s.C (t0 * 65536 + t1 * 256 + t2))
      (dadd 2000 (ddiv (dmul (codeDT s.C (t0 * 65536 + t1 * 256 + t2)) (s.C 6 : ℚ))
        8388608)) = (0, 0, 0) ∧
    out' = compensationBinary64 s.C (p0 * 65536 + p1 * 256 + p2)
      (t0 * 65536 + t1 * 256 + t2) ∧
    out' = firstOrderBinary64 s.C (p0 * 65536 + p1 * 256 + p2)
      (t0 * 65536 + t1 * 256 + t2) ∧
    out'.temperature = toDouble (firstOrderFormula s.C (p0 * 65536 + p1 * 256 + p2)
      (t0 * 65536 + t1 * 256 + t2)).temperature ∧
    |out'.temperature - (firstOrderFormula s.C (p0 * 65536 + p1 * 256 + p2)
      (t0 * 65536 + t1 * 256 + t2)).temperature| ≤ 2 ^ (-43 : ℤ) ∧
    |out'.pressure - (firstOrderFormula s.C (p0 * 65536 + p1 * 256 + p2)
      (t0 * 65536 + t1 * 256 + t2)).pressure| ≤ 2 ^ (-36 : ℤ) ∧
    secondOrder s.C (t0 * 65536 + t1 * 256 + t2) = (0, 0, 0) ∧
    compensation s.C (p0 * 65536 + p1 * 256 + p2) (t0 * 65536 + t1 * 256 + t2) =
      firstOrderFormula s.C (p0 * 65536 + p1 * 256 + p2) (t0 * 65536 + t1 * 256 + t2) := by
  obtain ⟨q0, q1, q2, r0, r1, r2, hq0, hq1, hq2, hr0, hr1, hr2, hb, ho, -⟩ :=
    getTempPressBinary64_shape hrun
  rw [hbytes] at hb
  simp only [List.cons.injEq, and_true] at hb
  obtain ⟨rfl, rfl, rfl, rfl, rfl, rfl⟩ := hb
  have hD1 : p0 * 65536 + p1 * 256 + p2 < 16777216 := by omega
  have hD2 : t0 * 65536 + t1 * 256 + t2 < 16777216 := by omega
  have hD2' : t0 * 65536 + t1 * 256 + t2 < 4294967296 := by omega
  have h5 := hC 5
  have h2 := hC 2
  have h1 := hC 1
  have heq := compensationBinary64_eq s.C (p0 * 65536 + p1 * 256 + p2) _ hC hD2' hD
  obtain ⟨hst, hte, hpe⟩ := firstOrderBinary64_spec s.C _ _ hC hD1 hD2 hD
  refine ⟨(codeDT_eq s.C _ (hC 5) hD2' hD).1,
    u32mul_of_lt (by omega) (by omega) (by norm_num),
    u32mul_of_lt (by omega) (by omega) (by norm_num),
    u32mul_of_lt (by omega) (by omega) (by norm_num), hD1, hD2,
    secondOrderBinary64_zero (temp_binary64_ge (codeDT_nonneg _ _) (Nat.cast_nonneg _)),
    ho, ho.trans heq, ?_, ?_, ?_, secondOrder_zero _ _,
    compensation_first_order s.C _ _ hC hD2' hD⟩
  · rw [ho, heq]
    exact hst
  · rw [ho, heq]
    exact hte
  · rw [ho, heq]
    exact hpe

/-- C18, witness: the worked example of the data sheet, D1 = 9085466 and
D2 = 8569150 above `C5 * 256 = 8566784`. -/
theorem getTempPress_first_order_witness :
    ((∀ i, warmState.C i < 65536) ∧
      warmState.getTempPressBinary64 11 ⟨0, 0⟩ [] =
        some (0, compensationBinary64 datasheetCoefficients 9085466 8569150,
          [] ++ scenarioMeasurement) ∧
      bytesRead scenarioMeasurement = [138, 162, 26, 130, 193, 62] ∧
      warmState.C 5 * 256 ≤ 130 * 65536 + 193 * 256 + 62) ∧
    |(compensationBinary64 datasheetCoefficients 9085466 8569150).temperature -
      (firstOrderFormula warmState.C (138 * 65536 + 162 * 256 + 26)
        (130 * 65536 + 193 * 256 + 62)).temperature| ≤ 2 ^ (-43 : ℤ) ∧
    |(compensationBinary64 datasheetCoefficients 9085466 8569150).pressure -
      (firstOrderFormula warmState.C (138 * 65536 + 162 * 256 + 26)
        (130 * 65536 + 193 * 256 + 62)).pressure| ≤ 2 ^ (-36 : ℤ) :=
  ⟨⟨by decide, warm_measure_binary64, rfl, by decide⟩,
    (getTempPress_first_order warmState 11 ⟨0, 0⟩ [] _ scenarioMeasurement 138 162 26 130 193
      62 (by decide) warm_measure_binary64 rfl (by decide)).2.2.2.2.2.2.2.2.2.2.1,
    (getTempPress_first_order warmState 11 ⟨0, 0⟩ [] _ scenarioMeasurement 138 162 26 130 193
      62 (by decide) warm_measure_binary64 rfl (by decide)).2.2.2.2.2.2.2.2.2.2.2.1⟩

/-! ## Invariants of the reachable states -/

theorem convert_bytes {osr : Nat}
    (h : osr = 0x00 ∨ osr = 0x02 ∨ osr = 0x04 ∨ osr = 0x06 ∨ osr = 0x08) :
    toU8 (MS5611_CMD_CONVERT_D1 ||| osr) ∈ [0x40, 0x42, 0x44, 0x46, 0x48] ∧
      toU8 (MS5611_CMD_CONVERT_D2 ||| osr) ∈ [0x50, 0x52, 0x54, 0x56, 0x58] := by
  rcases h with rfl | rfl | rfl | rfl | rfl <;> decide

theorem brokenProm_calls :
    ∃ tr, Ms5611.performAll 11 [Call.init brokenProm.wire 0x77] (Ms5611.constructed 0) [] =
      some (brokenPromState, tr) :=
  ⟨_, rfl⟩

/-- C19: in every state reached from a freshly constructed driver by a sequence of
`init`, `reset`, `setOSR` and `getTempPress` calls, with any arguments and any
transports, the oversampling setting is one of 0x00, 0x02, 0x04, 0x06, 0x08; the
pressure conversion command byte is one of 0x40, 0x42, 0x44, 0x46, 0x48 and the
temperature conversion command byte one of 0x50, 0x52, 0x54, 0x56, 0x58, and the
commands of every `getTempPress` from that state are an initial part of: such a
pressure byte, 0x00, request, such a temperature byte, 0x00, request. -/
theorem oversampling_invariant (a : Nat) (tr0 : Trace) (calls : List Call) (fuel : Nat)
    (s : Ms5611) (tr : Trace)
    (hrun : Ms5611.performAll fuel calls (Ms5611.constructed a) tr0 = some (s, tr)) :
    (s._osr = 0x00 ∨ s._osr = 0x02 ∨ s._osr = 0x04 ∨ s._osr = 0x06 ∨ s._osr = 0x08) ∧
    toU8 (MS5611_CMD_CONVERT_D1 ||| s._osr) ∈ [0x40, 0x42, 0x44, 0x46, 0x48] ∧
    toU8 (MS5611_CMD_CONVERT_D2 ||| s._osr) ∈ [0x50, 0x52, 0x54, 0x56, 0x58] ∧
    ∀ (fuel' : Nat) (out : Readings) (st : Nat) (out' : Readings) (tr' : Trace),
      s.getTempPress fuel' out tr = some (st, out', tr') →
      ∃ ev n c1 c2, tr' = tr ++ ev ∧ 0 < n ∧
        c1 ∈ [0x40, 0x42, 0x44, 0x46, 0x48] ∧ c2 ∈ [0x50, 0x52, 0x54, 0x56, 0x58] ∧
        busCommands ev = (measureCommands s._address c1 c2).take n := by
  have hinv := (performAll_invariant fuel calls _ _ _ _ hrun (Or.inl rfl)
    (fun _ => (by decide : (0 : Nat) < 65536))).1
  obtain ⟨hc1, hc2⟩ := convert_bytes hinv
  refine ⟨hinv, hc1, hc2, ?_⟩
  intro fuel' out st out' tr' h
  obtain ⟨w, hw⟩ := getTempPress_bound h
  obtain ⟨ev, n, htr, hn, hcmd, -⟩ := getTempPress_shape hw _ _ _ _ _ _ h
  exact ⟨ev, n, _, _, htr, hn, hc1, hc2, hcmd⟩

/-- C19, witness: `init` against the sensor of the scenario, a rejected and an
accepted `setOSR`, a reset and a measurement. -/
theorem oversampling_invariant_witness :
    (∃ tr, Ms5611.performAll 11
        [Call.init scenario.wire 0x77, Call.setOSR 0x03, Call.setOSR 0x08, Call.reset,
          Call.getTempPress ⟨0, 0⟩]
        (Ms5611.constructed 0) [] =
      some (({ scenarioState with _osr := 0x08 } : Ms5611), tr)) ∧
    toU8 (MS5611_CMD_CONVERT_D1 ||| 0x08) ∈ [0x40, 0x42, 0x44, 0x46, 0x48] ∧
    toU8 (MS5611_CMD_CONVERT_D2 ||| 0x08) ∈ [0x50, 0x52, 0x54, 0x56, 0x58] :=
  ⟨⟨_, rfl⟩,
    (oversampling_invariant 0 []
      [Call.init scenario.wire 0x77, Call.setOSR 0x03, Call.setOSR 0x08, Call.reset,
        Call.getTempPress ⟨0, 0⟩] 11 { scenarioState with _osr := 0x08 } _ rfl).2.1,
    (oversampling_invariant 0 []
      [Call.init scenario.wire 0x77, Call.setOSR 0x03, Call.setOSR 0x08, Call.reset,
        Call.getTempPress ⟨0, 0⟩] 11 { scenarioState with _osr := 0x08 } _ rfl).2.2.1⟩

/-- C20: in every state reached from a freshly constructed driver by a sequence of
public calls, with any arguments and any transports, also after an `init` that
failed part-way, every coefficient is below 65536; hence the `uint32_t` products
`C5 * 256`, `C2 * 65536` and `C1 * 32768` of `getTempPress` equal the exact
products: they do not wrap modulo 2^32. -/
theorem coefficients_bounded (a : Nat) (tr0 : Trace) (calls : List Call) (fuel : Nat)
    (s : Ms5611) (tr : Trace)
    (hrun : Ms5611.performAll fuel calls (Ms5611.constructed a) tr0 = some (s, tr)) :
    (∀ i, s.C i < 65536) ∧
    u32mul (s.C 5) 256 = s.C 5 * 256 ∧
    u32mul (s.C 2) 65536 = s.C 2 * 65536 ∧
    u32mul (s.C 1) 32768 = s.C 1 * 32768 ∧
    s.C 5 * 256 < 4294967296 ∧ s.C 2 * 65536 < 4294967296 ∧ s.C 1 * 32768 < 4294967296 := by
  have hC := (performAll_invariant fuel calls _ _ _ _ hrun (Or.inl rfl)
    (fun _ => (by decide : (0 : Nat) < 65536))).2
  have h5 := hC 5
  have h2 := hC 2
  have h1 := hC 1
  exact ⟨hC, u32mul_of_lt (by omega) (by omega) (by norm_num),
    u32mul_of_lt (by omega) (by omega) (by norm_num),
    u32mul_of_lt (by omega) (by omega) (by norm_num), by omega, by omega, by omega⟩

/-- C20, witness: an `init` against a sensor that never answers the read of
register 3 fails after storing two coefficients. -/
theorem coefficients_bounded_witness :
    (∃ tr, Ms5611.performAll 11 [Call.init brokenProm.wire 0x77] (Ms5611.constructed 0) [] =
      some (brokenPromState, tr)) ∧
    (∀ i, brokenPromState.C i < 65536) ∧
    u32mul (brokenPromState.C 5) 256 = brokenPromState.C 5 * 256 ∧
    u32mul (brokenPromState.C 2) 65536 = brokenPromState.C 2 * 65536 ∧
    u32mul (brokenPromState.C 1) 32768 = brokenPromState.C 1 * 32768 ∧
    brokenPromState.C 5 * 256 < 4294967296 ∧ brokenPromState.C 2 * 65536 < 4294967296 ∧
    brokenPromState.C 1 * 32768 < 4294967296 :=
  ⟨⟨_, rfl⟩,
    coefficients_bounded 0 [] [Call.init brokenProm.wire 0x77] 11 brokenPromState _ rfl⟩

end MS5611
